import Mathlib

/-!
# Cook-o: the recipe controller, embedded in Lean

A shallow embedding of `backend/src/controllers/recipeController.js` and of `deleteAccount` of
`backend/src/controllers/userController.js`, together with the parts of
`backend/src/models/Recipe.js` and `backend/src/models/User.js` they rely on.

Conventions of the embedding.

* A JavaScript string is the list of its characters (`Str`); every character stands for one
  UTF-16 code unit, so the strings covered are those of the Basic Multilingual Plane.
* A regular-expression literal of the source is a value of `Regex`, built constructor by
  constructor from the literal, and run by a backtracking matcher that follows the priority
  order of ECMAScript (`Regex.run`).
* Asynchronous calls are sequential in the source (`await` everywhere), so they are plain
  function calls here; a call that can reject gets an explicit outcome.
-/

namespace CookO

/-! ## Strings -/

/-- A JavaScript string. -/
abbrev Str := List Char

/-- The WhiteSpace and LineTerminator code points of ECMAScript: exactly what
`String.prototype.trim` strips and what `\s` matches. -/
def isWhiteSpace (c : Char) : Bool :=
  c.toNat = 0x09 || c.toNat = 0x0A || c.toNat = 0x0B || c.toNat = 0x0C || c.toNat = 0x0D ||
  c.toNat = 0x20 || c.toNat = 0xA0 || c.toNat = 0x1680 ||
  (0x2000 ≤ c.toNat && c.toNat ≤ 0x200A) ||
  c.toNat = 0x2028 || c.toNat = 0x2029 || c.toNat = 0x202F || c.toNat = 0x205F ||
  c.toNat = 0x3000 || c.toNat = 0xFEFF

/-- The LineTerminator code points: what `.` does not match. -/
def isLineTerminator (c : Char) : Bool :=
  c.toNat = 0x0A || c.toNat = 0x0D || c.toNat = 0x2028 || c.toNat = 0x2029

/-- The class `\d`. -/
def isDigit (c : Char) : Bool := 0x30 ≤ c.toNat && c.toNat ≤ 0x39

/-- The word characters `[A-Za-z0-9_]` that decide `\b`. -/
def isWordChar (c : Char) : Bool :=
  (0x41 ≤ c.toNat && c.toNat ≤ 0x5A) || (0x61 ≤ c.toNat && c.toNat ≤ 0x7A) ||
  isDigit c || c.toNat = 0x5F

/-- The method `String.prototype.trimStart`. -/
def trimStart (s : Str) : Str := s.dropWhile isWhiteSpace

/-- The method `String.prototype.trimEnd`. -/
def trimEnd (s : Str) : Str := (s.reverse.dropWhile isWhiteSpace).reverse

/-- The method `String.prototype.trim`. -/
def trim (s : Str) : Str := trimEnd (trimStart s)

/-- The method `String.prototype.startsWith`. -/
def startsWith : Str → Str → Bool
  | _, [] => true
  | [], _ :: _ => false
  | c :: s, d :: p => c == d && startsWith s p

/-- The method `String.prototype.includes`. -/
def includes : Str → Str → Bool
  | [], k => startsWith [] k
  | c :: s, k => startsWith (c :: s) k || includes s k

/-- The call `s.split(sep)` for a one-character separator: always at least one piece. -/
def split (sep : Char) : Str → List Str
  | [] => [[]]
  | c :: s =>
    if c = sep then [] :: split sep s
    else
      match split sep s with
      | [] => [[c]]
      | l :: ls => (c :: l) :: ls

/-- The call `s.substring(0, n)`. -/
def substring0 (n : Nat) (s : Str) : Str := s.take n

/-- The call `xs.join(sep)`. -/
def join (sep : Str) : List Str → Str
  | [] => []
  | [x] => x
  | x :: y :: xs => x ++ sep ++ join sep (y :: xs)

/-- Lower-casing of one character. ASCII capitals go to their small letters; the two characters
outside ASCII whose lower-case form contains an ASCII letter (KELVIN SIGN, and LATIN CAPITAL
LETTER I WITH DOT ABOVE) are mapped as Unicode prescribes. Every other character is kept: its
lower-case form has no ASCII letter, digit, whitespace or line terminator in it, and the
controller tests lower-cased text against such characters only. -/
def toLowerCaseChar (c : Char) : Str :=
  if 0x41 ≤ c.toNat && c.toNat ≤ 0x5A then [Char.ofNat (c.toNat + 32)]
  else if c.toNat = 0x212A then ['k']
  else if c.toNat = 0x130 then ['i', Char.ofNat 0x307]
  else [c]

/-- The method `String.prototype.toLowerCase`. -/
def toLowerCase : Str → Str
  | [] => []
  | c :: s => toLowerCaseChar c ++ toLowerCase s

/-! ## Regular expressions -/

/-- The fragment of ECMAScript regular expressions used by the controller. Repetition occurs in
the source only over single-character classes (`\s+`, `\s*`, `.*`, `#+`, `\d+`). -/
inductive Regex where
  /-- The assertion `^` (no `m` flag). -/
  | bol : Regex
  /-- The assertion `\b`. -/
  | wordB : Regex
  /-- A literal run of characters. -/
  | lit : Str → Regex
  /-- One character of a class. -/
  | cls : (Char → Bool) → Regex
  /-- Greedy `c*` over a class. -/
  | star : (Char → Bool) → Regex
  /-- Greedy `c+` over a class. -/
  | plus : (Char → Bool) → Regex
  /-- Greedy `r?`. -/
  | opt : Regex → Regex
  /-- Concatenation. -/
  | seq : Regex → Regex → Regex
  /-- Alternation `a|b`, left alternative first. -/
  | alt : Regex → Regex → Regex

/-- Continuation of a match: receives the character before the current position (if any) and
the remaining input, and answers with the input left after the whole match. -/
abbrev Cont := Option Char → Str → Option Str

/-- Whether the position after `p` is preceded by a word character. -/
def wordBefore : Option Char → Bool
  | none => false
  | some c => isWordChar c

/-- Whether the position before `s` is followed by a word character. -/
def wordAfter : Str → Bool
  | [] => false
  | c :: _ => isWordChar c

/-- The last character read once the literal `w` has been consumed after `p`. -/
def lastRead (p : Option Char) : Str → Option Char
  | [] => p
  | c :: w => lastRead (some c) w

/-- Greedy repetition of a class: consume as long as possible, give characters back one by one
while the continuation fails. -/
def starRun (f : Char → Bool) (k : Cont) : Cont
  | p, [] => k p []
  | p, c :: s =>
    if f c then
      match starRun f k (some c) s with
      | some r => some r
      | none => k p (c :: s)
    else k p (c :: s)

/-- The backtracking matcher: `r.run k p s` matches `r` at the position whose preceding
character is `p` and whose remaining input is `s`, then continues with `k`. -/
def Regex.run : Regex → Cont → Cont
  | .bol, k, p, s => if p.isNone then k p s else none
  | .wordB, k, p, s => if wordBefore p != wordAfter s then k p s else none
  | .lit w, k, p, s => if startsWith s w then k (lastRead p w) (s.drop w.length) else none
  | .cls _, _, _, [] => none
  | .cls f, k, _, c :: s => if f c then k (some c) s else none
  | .star f, k, p, s => starRun f k p s
  | .plus _, _, _, [] => none
  | .plus f, k, _, c :: s => if f c then starRun f k (some c) s else none
  | .opt a, k, p, s =>
    match a.run k p s with
    | some r => some r
    | none => k p s
  | .seq a b, k, p, s => a.run (b.run k) p s
  | .alt a b, k, p, s =>
    match a.run k p s with
    | some r => some r
    | none => b.run k p s

/-- The final continuation: the match is complete, hand back what is left. -/
def done : Cont := fun _ s => some s

/-- The leftmost match of `r` in the input: the text skipped before the match and the text
left after it. -/
def Regex.exec (r : Regex) : Option Char → Str → Option (Str × Str)
  | p, [] =>
    match r.run done p [] with
    | some rest => some ([], rest)
    | none => none
  | p, c :: s =>
    match r.run done p (c :: s) with
    | some rest => some ([], rest)
    | none =>
      match Regex.exec r (some c) s with
      | some (skipped, rest) => some (c :: skipped, rest)
      | none => none

/-- The call `re.test(s)`. -/
def Regex.test (r : Regex) (s : Str) : Bool := (r.exec none s).isSome

/-- The call `s.replace(re, '')` for a regular expression without the `g` flag. -/
def Regex.removeFirst (r : Regex) (s : Str) : Str :=
  match r.exec none s with
  | some (skipped, rest) => skipped ++ rest
  | none => s

/-- Worker of `removeAll`: `n` bounds the number of matches still to be removed. -/
def Regex.removeAllFrom (r : Regex) : Nat → Option Char → Str → Str
  | 0, _, s => s
  | n + 1, p, s =>
    match r.exec p s with
    | none => s
    | some (skipped, rest) =>
      skipped ++ Regex.removeAllFrom r n (lastRead p (s.take (s.length - rest.length))) rest

/-- The call `s.replace(re, '')` for a regular expression with the `g` flag whose matches are
never empty: a string of length `n` holds at most `n` matches. -/
def Regex.removeAll (r : Regex) (s : Str) : Str := r.removeAllFrom s.length none s

/-- The alternation `(w1|w2|...)` of literal words. -/
def words : List Str → Regex
  | [] => .lit []
  | [w] => .lit w
  | w :: ws => .alt (.lit w) (words ws)

/-! ## The text classifier (`recipeController.js`, helper functions) -/

/-- The literal `/^#+\s*/`. -/
def headingMarker : Regex := .seq .bol (.seq (.plus (fun c => c == '#')) (.star isWhiteSpace))

/-- The literal `/\*\*/g`. -/
def boldMarker : Regex := .lit "**".toList

/-- The loop of `extractRecipeTitle` over the lines of the text. -/
def extractRecipeTitleLoop : List Str → Str
  | [] => "Generated Recipe".toList
  | line :: lines =>
    let trimmed := trim line
    if !trimmed.isEmpty && !startsWith trimmed "Ingredients:".toList &&
        !startsWith trimmed "Instructions:".toList then
      -- Remove markdown formatting
      substring0 200 (boldMarker.removeAll (headingMarker.removeFirst trimmed))
    else extractRecipeTitleLoop lines

/-- The function `extractRecipeTitle`. -/
def extractRecipeTitle (recipeText : Str) : Str :=
  extractRecipeTitleLoop (split '\n' recipeText)

/-- The literal `/^\d+\./`. -/
def numberedMarker : Regex := .seq .bol (.seq (.plus isDigit) (.lit ".".toList))

/-- The literal `/^[-•\d.]\s*/`. -/
def listMarker : Regex :=
  .seq .bol (.seq (.cls (fun c => c == '-' || c == '•' || isDigit c || c == '.'))
    (.star isWhiteSpace))

/-- Whether the lower-cased line contains `ingredients:`. -/
def opensIngredients (trimmed : Str) : Bool :=
  includes (toLowerCase trimmed) "ingredients:".toList

/-- Whether the lower-cased line contains `instructions:` or `directions:`. -/
def opensInstructions (trimmed : Str) : Bool :=
  includes (toLowerCase trimmed) "instructions:".toList ||
  includes (toLowerCase trimmed) "directions:".toList

/-- The test that guards the capture of a line: non-empty and starting with `-`, `•` or `N.`. -/
def isListItem (trimmed : Str) : Bool :=
  !trimmed.isEmpty &&
  (startsWith trimmed "-".toList || startsWith trimmed "•".toList || numberedMarker.test trimmed)

/-- The loop of `extractIngredients`: the remaining lines, the flag `inIngredientsSection` and
the array `ingredients` collected so far. -/
def extractIngredientsLoop : List Str → Bool → List Str → List Str
  | [], _, ingredients => ingredients
  | line :: lines, inIngredientsSection, ingredients =>
    let trimmed := trim line
    if opensIngredients trimmed then
      extractIngredientsLoop lines true ingredients
    else if opensInstructions trimmed then
      ingredients
    else if inIngredientsSection && isListItem trimmed then
      let ingredient := trim (listMarker.removeFirst trimmed)
      if !ingredient.isEmpty then extractIngredientsLoop lines inIngredientsSection (ingredients ++ [ingredient])
      else extractIngredientsLoop lines inIngredientsSection ingredients
    else extractIngredientsLoop lines inIngredientsSection ingredients

/-- The function `extractIngredients`. -/
def extractIngredients (recipeText : Str) : List Str :=
  let ingredients := extractIngredientsLoop (split '\n' recipeText) false []
  if ingredients.length > 0 then ingredients else ["Mixed ingredients".toList]

/-- The class `.`: any character but a line terminator. -/
def dot (c : Char) : Bool := !isLineTerminator c

/-- The array `beveragePatterns`. -/
def beveragePatterns : List Regex := [
  -- /\b(boba|bubble)\s+tea\b/
  .seq .wordB (.seq (words ["boba".toList, "bubble".toList])
    (.seq (.plus isWhiteSpace) (.seq (.lit "tea".toList) .wordB))),
  -- /\b(iced?|hot)\s+(tea|coffee|chocolate)\b/
  .seq .wordB (.seq (.alt (.seq (.lit "ice".toList) (.opt (.lit "d".toList))) (.lit "hot".toList))
    (.seq (.plus isWhiteSpace)
      (.seq (words ["tea".toList, "coffee".toList, "chocolate".toList]) .wordB))),
  -- /\b(green|black|herbal|chai)\s+tea\b/
  .seq .wordB (.seq (words ["green".toList, "black".toList, "herbal".toList, "chai".toList])
    (.seq (.plus isWhiteSpace) (.seq (.lit "tea".toList) .wordB))),
  -- /\b(smoothie|milkshake|frappuccino|latte|cappuccino|espresso|macchiato)\b/
  .seq .wordB (.seq (words ["smoothie".toList, "milkshake".toList, "frappuccino".toList,
    "latte".toList, "cappuccino".toList, "espresso".toList, "macchiato".toList]) .wordB),
  -- /\b(juice|lemonade|punch|cocktail|mocktail|lassi)\b/
  .seq .wordB (.seq (words ["juice".toList, "lemonade".toList, "punch".toList,
    "cocktail".toList, "mocktail".toList, "lassi".toList]) .wordB),
  -- /\b(matcha|bubble|boba)\b.*\b(tea|drink|latte)\b/
  .seq .wordB (.seq (words ["matcha".toList, "bubble".toList, "boba".toList])
    (.seq .wordB (.seq (.star dot)
      (.seq .wordB (.seq (words ["tea".toList, "drink".toList, "latte".toList]) .wordB)))))
]

/-- The condition `isBeverage` of `detectRecipeCategory`, on the lower-cased title. -/
def isBeverage (title : Str) : Bool :=
  beveragePatterns.any (fun pattern => pattern.test title) ||
  includes title "drink".toList ||
  includes title "beverage".toList ||
  (includes title "tea".toList && !includes title "tea leaf".toList &&
    !includes title "tea spice".toList) ||
  (includes title "coffee".toList && !includes title "coffee bean".toList &&
    !includes title "coffee rub".toList)

/-- The array `dessertKeywords`. -/
def dessertKeywords : List Str := [
  "cake".toList, "cookie".toList, "cookies".toList, "pie".toList, "ice cream".toList,
  "gelato".toList, "sorbet".toList, "candy".toList, "dessert".toList,
  "pudding".toList, "mousse".toList, "tart".toList, "brownie".toList, "brownies".toList,
  "donut".toList, "donuts".toList, "pastry".toList, "custard".toList,
  "tiramisu".toList, "cheesecake".toList, "fudge".toList, "truffle".toList, "macaron".toList,
  "cupcake".toList, "cupcakes".toList,
  "chocolate cake".toList, "sweet treat".toList, "dessert".toList, "sundae".toList,
  "parfait".toList
]

/-- The dessert condition of `detectRecipeCategory`, on the lower-cased title. -/
def isDessert (title : Str) : Bool :=
  dessertKeywords.any (fun keyword => includes title keyword) ||
  -- /\bchocolate\b.*\b(cake|dessert|sweet|treat)\b/
  (Regex.seq .wordB (.seq (.lit "chocolate".toList) (.seq .wordB (.seq (.star dot)
    (.seq .wordB (.seq (words ["cake".toList, "dessert".toList, "sweet".toList,
      "treat".toList]) .wordB)))))).test title ||
  -- /\bsweet\b.*\b(treat|dessert|cake)\b/
  (Regex.seq .wordB (.seq (.lit "sweet".toList) (.seq .wordB (.seq (.star dot)
    (.seq .wordB (.seq (words ["treat".toList, "dessert".toList, "cake".toList])
      .wordB)))))).test title

/-- The array `breakfastKeywords`. -/
def breakfastKeywords : List Str := [
  "pancake".toList, "pancakes".toList, "waffle".toList, "waffles".toList, "cereal".toList,
  "oatmeal".toList, "breakfast".toList,
  "toast".toList, "bagel".toList, "muffin".toList, "muffins".toList, "croissant".toList,
  "french toast".toList,
  "eggs benedict".toList, "scrambled eggs".toList, "fried eggs".toList, "omelet".toList,
  "omelette".toList,
  "breakfast burrito".toList, "breakfast sandwich".toList, "granola".toList,
  "hash brown".toList, "hash browns".toList
]

/-- The breakfast condition of `detectRecipeCategory`, on the lower-cased title. -/
def isBreakfast (title : Str) : Bool :=
  breakfastKeywords.any (fun keyword => includes title keyword) ||
  includes title "breakfast".toList ||
  -- /\beggs?\b.*\b(scrambled|fried|poached|benedict)\b/
  (Regex.seq .wordB (.seq (.lit "egg".toList) (.seq (.opt (.lit "s".toList)) (.seq .wordB
    (.seq (.star dot) (.seq .wordB (.seq (words ["scrambled".toList, "fried".toList,
      "poached".toList, "benedict".toList]) .wordB))))))).test title

/-- The array `snackKeywords`. -/
def snackKeywords : List Str := [
  "chips".toList, "dip".toList, "crackers".toList, "nuts".toList, "popcorn".toList,
  "pretzel".toList, "pretzels".toList, "trail mix".toList,
  "appetizer".toList, "finger food".toList, "chicken wings".toList, "buffalo wings".toList,
  "nachos".toList,
  "cheese balls".toList, "deviled eggs".toList, "stuffed".toList, "bites".toList
]

/-- The snack condition of `detectRecipeCategory`, on the lower-cased title. -/
def isSnack (title : Str) : Bool :=
  snackKeywords.any (fun keyword => includes title keyword) ||
  includes title "snack".toList ||
  includes title "appetizer".toList ||
  -- /\bstuffed\b.*\b(mushroom|pepper|olive)\b/
  (Regex.seq .wordB (.seq (.lit "stuffed".toList) (.seq .wordB (.seq (.star dot)
    (.seq .wordB (.seq (words ["mushroom".toList, "pepper".toList, "olive".toList])
      .wordB)))))).test title

/-- The array `lunchKeywords`. -/
def lunchKeywords : List Str := [
  "sandwich".toList, "wrap".toList, "wraps".toList, "salad".toList, "soup".toList,
  "burger".toList, "burgers".toList, "pizza".toList,
  "panini".toList, "sub".toList, "submarine".toList, "club sandwich".toList,
  "pasta salad".toList, "chicken salad".toList,
  "tuna salad".toList, "lunch".toList, "quesadilla".toList, "tacos".toList, "burrito".toList
]

/-- The lunch condition of `detectRecipeCategory`, on the lower-cased title. -/
def isLunch (title : Str) : Bool :=
  lunchKeywords.any (fun keyword => includes title keyword) ||
  includes title "lunch".toList ||
  -- /\b(chicken|tuna|egg|caesar)\s+salad\b/
  (Regex.seq .wordB (.seq (words ["chicken".toList, "tuna".toList, "egg".toList,
    "caesar".toList]) (.seq (.plus isWhiteSpace) (.seq (.lit "salad".toList) .wordB)))).test title

/-- The function `detectRecipeCategory`; `recipeText` defaults to the empty string in the
source. The combined lower-cased `text` is computed there and never read. -/
def detectRecipeCategory (recipeTitle : Str) (recipeText : Str) : Str :=
  let title := toLowerCase recipeTitle
  let _text := toLowerCase (recipeTitle ++ " ".toList ++ recipeText)
  if isBeverage title then "Beverage".toList
  else if isDessert title then "Dessert".toList
  else if isBreakfast title then "Breakfast".toList
  else if isSnack title then "Snack".toList
  else if isLunch title then "Lunch".toList
  -- Default to Dinner for main dishes, meat, pasta, rice dishes, etc.
  else "Dinner".toList

/-! ## Request values and the prompt (`generateRecipe`, first part) -/

/-- A value of the JSON request body, as far as the controller looks at it: numbers are
integers, and arrays and objects do not occur as `servings` or `time`. -/
inductive JsVal where
  | undefined : JsVal
  | null : JsVal
  | bool : Bool → JsVal
  | num : Int → JsVal
  | str : Str → JsVal

/-- Truthiness, as tested by `||`, `if` and `? :`. -/
def JsVal.truthy : JsVal → Bool
  | .undefined => false
  | .null => false
  | .bool b => b
  | .num n => n != 0
  | .str s => !s.isEmpty

/-- The text a value contributes to a template literal. -/
def JsVal.toStr : JsVal → Str
  | .undefined => "undefined".toList
  | .null => "null".toList
  | .bool true => "true".toList
  | .bool false => "false".toList
  | .num n => if n < 0 then '-' :: (Nat.repr n.natAbs).toList else (Nat.repr n.natAbs).toList
  | .str s => s

/-- The expression `a || b`. -/
def JsVal.or (a b : JsVal) : JsVal := if a.truthy then a else b

/-- The body of a generation request, for the bodies in which `type` and `prompt` are strings
and `ingredients` is an array of strings; an absent `prompt` or `ingredients` is the empty one,
which `generateRecipeValidation` refuses for the kind of request that reads the field. -/
structure GenerateBody where
  type : Str
  prompt : Str
  ingredients : List Str
  servings : JsVal
  time : JsVal

/-- The template literal of the `direct` branch. -/
def directPrompt (prompt : Str) (numberOfPeople : JsVal) : Str :=
  "You are a professional chef and cookbook author. Create a comprehensive, ".toList ++
  "detailed recipe for \"".toList ++
  prompt ++
  "\" that serves exactly ".toList ++
  numberOfPeople.toStr ++
  " people. \n".toList ++
  "\n".toList ++
  "                  Please provide a complete recipe with the following ".toList ++
  "structure:\n".toList ++
  "\n".toList ++
  "                  **Recipe Title**: Give it an appealing, descriptive ".toList ++
  "name\n".toList ++
  "\n".toList ++
  "                  **Description**: Write a 2-3 sentence engaging introduction ".toList ++
  "about the dish - its origins, what makes it special, or when it's best ".toList ++
  "enjoyed.\n".toList ++
  "\n".toList ++
  "                  **Prep Time**: Estimated preparation time\n".toList ++
  "                  **Cook Time**: Estimated cooking time  \n".toList ++
  "                  **Total Time**: Combined prep and cook time\n".toList ++
  "                  **Servings**: ".toList ++
  numberOfPeople.toStr ++
  " people\n".toList ++
  "                  **Difficulty**: Beginner/Intermediate/Advanced\n".toList ++
  "\n".toList ++
  "                  **Ingredients**: \n".toList ++
  "                  - List ALL ingredients with precise measurements\n".toList ++
  "                  - Include both metric and imperial measurements where ".toList ++
  "helpful\n".toList ++
  "                  - Specify brands or types when it matters (e.g., \"kosher ".toList ++
  "salt\", \"extra virgin olive oil\")\n".toList ++
  "                  - Group ingredients by component if it's a complex dish\n".toList ++
  "\n".toList ++
  "                  **Equipment Needed**:\n".toList ++
  "                  - List essential tools and equipment\n".toList ++
  "\n".toList ++
  "                  **Instructions**:\n".toList ++
  "                  - Provide detailed, numbered step-by-step instructions\n".toList ++
  "                  - Include techniques and tips for each step\n".toList ++
  "                  - Mention visual cues (e.g., \"until golden brown\", \"until ".toList ++
  "bubbling\")\n".toList ++
  "                  - Include temperature guidelines for cooking\n".toList ++
  "                  - Explain the \"why\" behind important steps\n".toList ++
  "\n".toList ++
  "                  **Chef's Tips**:\n".toList ++
  "                  - Include 2-3 professional tips for best results\n".toList ++
  "                  - Mention common mistakes to avoid\n".toList ++
  "                  - Suggest ingredient substitutions if applicable\n".toList ++
  "\n".toList ++
  "                  **Serving Suggestions**:\n".toList ++
  "                  - Recommend accompaniments or side dishes\n".toList ++
  "                  - Suggest presentation ideas\n".toList ++
  "\n".toList ++
  "                  **Storage & Leftovers**:\n".toList ++
  "                  - How to store and for how long\n".toList ++
  "                  - Reheating instructions if applicable\n".toList ++
  "\n".toList ++
  "                  **Nutritional Highlights** (optional):\n".toList ++
  "                  - Brief mention of key nutritional benefits\n".toList ++
  "\n".toList ++
  "                  Write in a warm, encouraging tone that makes cooking ".toList ++
  "approachable for all skill levels. Use clear, concise language and be ".toList ++
  "specific with quantities, temperatures, and timing.".toList

/-- The template literal assigned to `timeInstruction`. -/
def timeInstructionText (timeLimit : JsVal) : Str :=
  " The total cooking time (prep + cook time) should be approximately ".toList ++
      timeLimit.toStr ++
      " minutes or less.".toList

/-- The template literal of the `ingredients` branch. -/
def ingredientsPrompt (ingredients : List Str) (numberOfPeople timeLimit : JsVal)
    (timeInstruction : Str) : Str :=
  "You are a creative chef specializing in recipe development. Create an ".toList ++
  "innovative and delicious recipe using these primary ingredients: ".toList ++
  join ", ".toList ingredients ++
  " that serves exactly ".toList ++
  numberOfPeople.toStr ++
  " people.".toList ++
  timeInstruction ++
  "\n".toList ++
  "\n".toList ++
  "                  Please follow this detailed structure:\n".toList ++
  "\n".toList ++
  "                  **Recipe Title**: Create an appealing name that highlights ".toList ++
  "the main ingredients\n".toList ++
  "\n".toList ++
  "                  **Description**: Write 2-3 sentences explaining what ".toList ++
  "makes this dish special and when it's perfect to enjoy.\n".toList ++
  "\n".toList ++
  "                  **Prep Time**: Estimated preparation time".toList ++
  (if timeLimit.truthy then " (keep within the ".toList ++
    timeLimit.toStr ++
    "-minute total time constraint)".toList else []) ++
  "\n".toList ++
  "                  **Cook Time**: Estimated cooking time".toList ++
  (if timeLimit.truthy then " (keep within the ".toList ++
    timeLimit.toStr ++
    "-minute total time constraint)".toList else []) ++
  "\n".toList ++
  "                  **Total Time**: Combined time".toList ++
  (if timeLimit.truthy then " (should not exceed ".toList ++
    timeLimit.toStr ++
    " minutes)".toList else []) ++
  "\n".toList ++
  "                  **Servings**: ".toList ++
  numberOfPeople.toStr ++
  " people (all ingredient quantities adjusted for this serving size)\n".toList ++
  "                  **Difficulty**: Rate as Beginner/Intermediate/Advanced\n".toList ++
  "\n".toList ++
  "                  **Complete Ingredients List**:\n".toList ++
  "                  - Start with the provided ingredients: ".toList ++
  join ", ".toList ingredients ++
  "\n".toList ++
  "                  - Add complementary ingredients needed to create a complete, ".toList ++
  "balanced dish\n".toList ++
  "                  - Provide precise measurements for all ingredients scaled ".toList ++
  "for ".toList ++
  numberOfPeople.toStr ++
  " people\n".toList ++
  "                  - Include both metric and imperial measurements where ".toList ++
  "helpful\n".toList ++
  "                  - Specify types/brands when important (e.g., \"sea salt\", ".toList ++
  "\"extra virgin olive oil\")\n".toList ++
  "\n".toList ++
  "                  **Equipment Needed**:\n".toList ++
  "                  - List all necessary tools and cookware".toList ++
  (if timeLimit.truthy then " (prioritize time-efficient equipment if applicable)".toList else []) ++
  "\n".toList ++
  "\n".toList ++
  "                  **Step-by-Step Instructions**:\n".toList ++
  "                  - Provide detailed, numbered cooking steps optimized ".toList ++
  "for ".toList ++
  numberOfPeople.toStr ++
  " servings\n".toList ++
  "                  - Include preparation techniques and cooking methods".toList ++
  (if timeLimit.truthy then " that fit within the ".toList ++
    timeLimit.toStr ++
    "-minute timeframe".toList else []) ++
  "\n".toList ++
  "                  - Mention visual and aromatic cues for each stage\n".toList ++
  "                  - Give specific temperatures and timing".toList ++
  (if timeLimit.truthy then " (ensure total time stays within limit)".toList else []) ++
  "\n".toList ++
  "                  - Explain important techniques clearly".toList ++
  (if timeLimit.truthy then " while maintaining efficiency".toList else []) ++
  "\n".toList ++
  "\n".toList ++
  "                  **Chef's Professional Tips**:\n".toList ++
  "                  - Share 2-3 expert tips for optimal results\n".toList ++
  "                  - Mention potential pitfalls and how to avoid them\n".toList ++
  "                  - Suggest ingredient alternatives or substitutions\n".toList ++
  "\n".toList ++
  "                  **Serving & Presentation**:\n".toList ++
  "                  - Recommend how to plate and serve the dish\n".toList ++
  "                  - Suggest complementary side dishes or drinks\n".toList ++
  "\n".toList ++
  "                  **Storage Instructions**:\n".toList ++
  "                  - How to properly store leftovers\n".toList ++
  "                  - Shelf life and reheating guidelines\n".toList ++
  "\n".toList ++
  "                  **Flavor Profile**:\n".toList ++
  "                  - Describe the taste, texture, and overall eating experience\n".toList ++
  "\n".toList ++
  "                  Be creative while ensuring the recipe is practical and ".toList ++
  "achievable for ".toList ++
  numberOfPeople.toStr ++
  " people".toList ++
  (if timeLimit.truthy then " within the ".toList ++
    timeLimit.toStr ++
    "-minute timeframe".toList else []) ++
  ". Focus on maximizing the flavors of the provided ingredients while creating ".toList ++
  "a harmonious, complete dish".toList ++
  (if timeLimit.truthy then " that can be prepared efficiently".toList else []) ++
  ". Write in an encouraging, professional tone suitable for home cooks of ".toList ++
  "all levels.".toList

/-- The pair `(aiPrompt, originalPrompt)` computed at the start of `generateRecipe`. -/
def buildPrompts (body : GenerateBody) : Str × Str :=
  if body.type = "direct".toList then
    let numberOfPeople := body.servings.or (.num 4) -- Default to 4 if not provided
    (directPrompt body.prompt numberOfPeople, body.prompt)
  else
    let numberOfPeople := body.servings.or (.num 4) -- Default to 4 if not provided
    let timeLimit := body.time.or .null -- Get time limit if provided
    let originalPrompt := join ", ".toList body.ingredients
    let timeInstruction := if timeLimit.truthy then timeInstructionText timeLimit else []
    (ingredientsPrompt body.ingredients numberOfPeople timeLimit timeInstruction, originalPrompt)

/-! ## Numbers and digit strings -/

/-- The value of a character as a digit, up to radix 16. -/
def digitValue (c : Char) : Option Nat :=
  if isDigit c then some (c.toNat - 0x30)
  else if 0x61 ≤ c.toNat && c.toNat ≤ 0x66 then some (c.toNat - 0x61 + 10)
  else if 0x41 ≤ c.toNat && c.toNat ≤ 0x46 then some (c.toNat - 0x41 + 10)
  else none

/-- The digits of the longest run of digits of the radix at the start of a string. -/
def leadingDigits (radix : Nat) : Str → List Nat
  | [] => []
  | c :: s =>
    match digitValue c with
    | some d => if d < radix then d :: leadingDigits radix s else []
    | none => []

/-- The number a run of digits stands for. -/
def digitsValue (radix : Nat) (digits : List Nat) : Nat :=
  digits.foldl (fun value d => value * radix + d) 0

/-- The number of binary digits of `n`, for `n` below `2 ^ fuel`; for a larger `n` it is
`fuel`. -/
def bitLength : Nat → Nat → Nat
  | 0, _ => 0
  | fuel + 1, n => if n = 0 then 0 else bitLength fuel (n / 2) + 1

/-- The Number value of a natural number: the nearest number with 53 significant bits, the one
with an even last bit when two are equally near; `none` stands for `Infinity`, the value of a
number that rounds to `2 ^ 1024` or more, which is one of more than 1024 binary digits. A
number up to `2 ^ 53` is its own Number value. -/
def roundToDouble (n : Nat) : Option Nat :=
  if n ≤ 2 ^ 53 then some n
  else
    let shift := bitLength 1025 n - 53
    let kept := n / 2 ^ shift
    let rest := n % 2 ^ shift
    let rounded :=
      if 2 ^ shift < 2 * rest || (2 * rest == 2 ^ shift && kept % 2 == 1) then kept + 1
      else kept
    if 1024 < bitLength 1025 (rounded * 2 ^ shift) then none else some (rounded * 2 ^ shift)

/-- A Number of the source, as far as `getUserRecipes` computes with them: `NaN`, an integer
that a double holds, or one of the two infinities. The sign of zero is not kept. -/
inductive JsNumber where
  | nan : JsNumber
  | int : Int → JsNumber
  | infinity : Bool → JsNumber
deriving DecidableEq

/-- The Number value of an integer, rounded as a double rounds; the argument of `infinity`
says whether it is the negative one. -/
def JsNumber.ofInt (n : Int) : JsNumber :=
  match roundToDouble n.natAbs with
  | some m => .int (if n < 0 then -(m : Int) else (m : Int))
  | none => .infinity (decide (n < 0))

/-- Truthiness of a Number: `NaN` and zero are falsy. -/
def JsNumber.truthy : JsNumber → Bool
  | .nan => false
  | .int n => n != 0
  | .infinity _ => true

/-- The expression `a - b` for an integer literal `b`. -/
def JsNumber.subInt (a : JsNumber) (b : Int) : JsNumber :=
  match a with
  | .nan => .nan
  | .int n => .ofInt (n - b)
  | .infinity negative => .infinity negative

/-- The expression `a * b`. -/
def JsNumber.mul : JsNumber → JsNumber → JsNumber
  | .nan, _ => .nan
  | _, .nan => .nan
  | .int a, .int b => .ofInt (a * b)
  | .int a, .infinity negative =>
    if a = 0 then .nan else .infinity (negative != decide (a < 0))
  | .infinity negative, .int b =>
    if b = 0 then .nan else .infinity (negative != decide (b < 0))
  | .infinity negative, .infinity negative2 => .infinity (negative != negative2)

/-- The function `parseInt(string)` without radix argument: leading whitespace is skipped, a
sign and the mark `0x` of radix 16 are read, then as many digits as there are; without a digit
the result is `NaN`, else the Number value of the integer read (correctly rounded, as V8
does). -/
def parseInt (string : Str) : JsNumber :=
  let signed := trimStart string
  let negative := startsWith signed "-".toList
  let unsigned :=
    if startsWith signed "-".toList || startsWith signed "+".toList then signed.drop 1
    else signed
  let hex := startsWith unsigned "0x".toList || startsWith unsigned "0X".toList
  let digits :=
    if hex then leadingDigits 16 (unsigned.drop 2) else leadingDigits 10 unsigned
  if digits.isEmpty then .nan
  else if negative then .ofInt (-(digitsValue (if hex then 16 else 10) digits : Int))
  else .ofInt (digitsValue (if hex then 16 else 10) digits : Int)

/-- The expression `parseInt(value) || fallback` on a query parameter that is a string or
absent: `NaN` (also the result for an absent parameter) and 0 give way to the fallback. -/
def parseIntOr (value : Option Str) (fallback : Int) : JsNumber :=
  match value with
  | some string => if (parseInt string).truthy then parseInt string else .int fallback
  | none => .int fallback

/-! ## Request validation (`generateRecipeValidation`) -/

/-- The validator `isInt({ min: 1, max: 20 })` of express-validator on a value of the body: the
value is turned into a string, which must be a run of decimal digits after an optional sign
(leading zeros are allowed by default) and, read as a number, lie between 1 and 20. -/
def isIntFrom1To20 : JsVal → Bool
  | .num n => decide (1 ≤ n) && decide (n ≤ 20)
  | .str s =>
    let negative := startsWith s "-".toList
    let unsigned :=
      if startsWith s "-".toList || startsWith s "+".toList then s.drop 1 else s
    let value : Int :=
      if negative then -(digitsValue 10 (leadingDigits 10 unsigned) : Int)
      else (digitsValue 10 (leadingDigits 10 unsigned) : Int)
    !unsigned.isEmpty && unsigned.all isDigit && decide (1 ≤ value) && decide (value ≤ 20)
  | _ => false

/-- The array `generateRecipeValidation`, as the verdict of its four chains on a body: `type`
is one of the two kinds; `prompt` is not empty and `servings` is an integer from 1 to 20, both
checked for kind `direct` only; `ingredients` has at least one element, checked for kind
`ingredients` only. -/
def generateRecipeValidation (body : GenerateBody) : Bool :=
  (body.type == "direct".toList || body.type == "ingredients".toList) &&
  (if body.type = "direct".toList then !body.prompt.isEmpty else true) &&
  (if body.type = "direct".toList then isIntFrom1To20 body.servings else true) &&
  (if body.type = "ingredients".toList then decide (1 ≤ body.ingredients.length) else true)

/-! ## Query strings (`getUserRecipes`) -/

/-- The query string of `getUserRecipes`: each parameter is a string or absent. -/
structure RecipesQuery where
  page : Option Str
  limit : Option Str
  category : Option Str
  favorite : Option Str

/-- The constant `page` of `getUserRecipes`. -/
def RecipesQuery.pageNumber (query : RecipesQuery) : JsNumber := parseIntOr query.page 1

/-- The constant `limit` of `getUserRecipes`. -/
def RecipesQuery.limitNumber (query : RecipesQuery) : JsNumber := parseIntOr query.limit 10

/-! ## The model fallback loop (`generateRecipe`, second part) -/

/-- A thrown `Error`: its `name` and `message`. -/
structure JsError where
  name : Str
  message : Str
deriving DecidableEq

/-- The array `modelOptions`. -/
def modelOptions : List Str := [
  "gemini-flash-latest".toList,   -- Latest stable flash model
  "gemini-2.5-flash".toList,      -- Stable 2.5 flash
  "gemini-2.0-flash".toList,      -- Stable 2.0 flash
  "gemini-2.0-flash-001".toList,  -- Specific version
  "gemini-pro-latest".toList,     -- Latest stable pro model (fallback)
  "gemini-2.5-pro".toList         -- Stable pro model (last resort)
]

/-- What `response.text()` does on the result of a call that resolved: it returns the text,
or throws when the response was blocked. -/
abbrev GenerateContentResult := Except JsError Str

/-- The AI backend: what `genAI.getGenerativeModel({ model }).generateContent(aiPrompt)`
does for a model name and a prompt, either the result it resolves with or the error thrown. -/
abbrev Backend := Str → Str → Except JsError GenerateContentResult

/-- The variables of the fallback loop, with the list of the models invoked so far. -/
structure LoopState where
  result : Option GenerateContentResult
  lastError : Option JsError
  invoked : List Str

/-- The loop `for (const modelName of modelOptions)`: the first success breaks out of it, every
failure is recorded in `lastError` and the next model is tried. -/
def modelLoop (backend : Backend) (aiPrompt : Str) : List Str → LoopState → LoopState
  | [], st => st
  | modelName :: rest, st =>
    match backend modelName aiPrompt with
    | .ok result =>
      { st with result := some result, invoked := st.invoked ++ [modelName] } -- Success, exit loop
    | .error error =>
      modelLoop backend aiPrompt rest
        { st with lastError := some error, invoked := st.invoked ++ [modelName] }

/-- The generation step: the loop over `modelOptions`, then the throw of
`lastError || new Error('All Gemini models failed')` when no call resolved, else the outcome
of `response.text()` on the result, which is read after the loop; with the models invoked. -/
def generateText (backend : Backend) (aiPrompt : Str) : Except JsError Str × List Str :=
  let st := modelLoop backend aiPrompt modelOptions
    { result := none, lastError := none, invoked := [] }
  match st.result with
  | some result =>
    -- const recipeText = response.text()
    (result, st.invoked)
  | none =>
    -- If all models failed, throw the last error
    match st.lastError with
    | some error => (.error error, st.invoked)
    | none => (.error { name := "Error".toList, message := "All Gemini models failed".toList },
        st.invoked)

/-! ## The store (`models/Recipe.js`, `models/User.js`) -/

/-- A Recipe document, with the paths of `recipeSchema` that the controllers write or query.
An `id` stands for a well-formed ObjectId; `createdAt` and `updatedAt` are the two paths that
the option `timestamps: true` adds to the schema. -/
structure Recipe where
  id : Nat
  user : Nat
  title : Str
  ingredients : List Str
  instructions : Str
  category : Str
  isFavorite : Bool
  promptType : Str
  originalPrompt : Str
  createdAt : Nat
  updatedAt : Nat
deriving DecidableEq

/-- A User document, with the paths of `userSchema` that the controllers write or query. -/
structure User where
  id : Nat
  password : Str
  recipesGenerated : Nat
  favoriteRecipes : Nat
deriving DecidableEq

/-- The two collections, and the source of fresh ObjectIds. -/
structure Db where
  recipes : List Recipe
  users : List User
  nextId : Nat
deriving DecidableEq

/-- The `enum` of `recipeSchema.category`. -/
def categoryEnum : List Str := [
  "Breakfast".toList, "Lunch".toList, "Dinner".toList, "Snack".toList, "Dessert".toList,
  "Beverage".toList
]

/-- The `enum` of `recipeSchema.promptType`. -/
def promptTypeEnum : List Str := ["direct".toList, "ingredients".toList]

/-- The call `new Recipe(...)` of `generateRecipe`: the setters of the schema run on the way in
(`trim: true` on `title` and on every element of `ingredients`), `isFavorite` takes its default,
and the document gets a fresh `_id`; both timestamps are those of the request. -/
def Recipe.create (id now user : Nat) (title : Str) (ingredients : List Str)
    (instructions category promptType originalPrompt : Str) : Recipe :=
  { id := id
    user := user
    title := trim title
    ingredients := ingredients.map trim
    instructions := instructions
    category := category
    isFavorite := false
    promptType := promptType
    originalPrompt := originalPrompt
    createdAt := now
    updatedAt := now }

/-- The validators of `recipeSchema` that run on `save()`: `required` (a required string must
not be empty), `maxlength` and `enum`. -/
def Recipe.valid (r : Recipe) : Bool :=
  !r.title.isEmpty && decide (r.title.length ≤ 200) &&
  r.ingredients.all (fun i => !i.isEmpty) &&
  !r.instructions.isEmpty &&
  categoryEnum.contains r.category &&
  promptTypeEnum.contains r.promptType &&
  !r.originalPrompt.isEmpty

/-- The store operations the controllers await. -/
inductive StoreOp where
  | recipeSave
  | recipeFind
  | recipeFindOne
  | recipeFindOneAndDelete
  | recipeCountDocuments
  | recipeDeleteMany
  | userFindById
  | userFindByIdAndUpdate
  | userFindByIdAndDelete
deriving DecidableEq

/-- Everything a request handler depends on besides the request and the store: the AI backend,
the store operations that reject (with the error they reject with), `process.env.NODE_ENV`
and the clock. -/
structure Env where
  backend : Backend
  storeError : StoreOp → Option JsError
  nodeEnv : Str
  now : Nat

/-- Rewrite the first element that satisfies `p`. -/
def updateFirst {α : Type} (p : α → Bool) (f : α → α) : List α → List α
  | [] => []
  | x :: xs => if p x then f x :: xs else x :: updateFirst p f xs

/-- Remove the first element that satisfies `p`. -/
def deleteFirst {α : Type} (p : α → Bool) : List α → List α
  | [] => []
  | x :: xs => if p x then xs else x :: deleteFirst p xs

/-- The query `Recipe.findOne({ _id: recipeId, user: userId })`. -/
def Db.findOneRecipe (db : Db) (recipeId userId : Nat) : Option Recipe :=
  db.recipes.find? (fun r => r.id == recipeId && r.user == userId)

/-- The store after `Recipe.findOneAndDelete({ _id: recipeId, user: userId })`. -/
def Db.deleteOneRecipe (db : Db) (recipeId userId : Nat) : Db :=
  { db with recipes := deleteFirst (fun r => r.id == recipeId && r.user == userId) db.recipes }

/-- The query `Recipe.countDocuments({ user: userId })`. -/
def Db.countRecipes (db : Db) (userId : Nat) : Nat :=
  (db.recipes.filter (fun r => r.user == userId)).length

/-- The query `Recipe.countDocuments({ user: userId, isFavorite: true })`. -/
def Db.countFavorites (db : Db) (userId : Nat) : Nat :=
  (db.recipes.filter (fun r => r.user == userId && r.isFavorite)).length

/-- The store after `User.findByIdAndUpdate(userId, update)`. -/
def Db.updateUser (db : Db) (userId : Nat) (update : User → User) : Db :=
  { db with users := updateFirst (fun u => u.id == userId) update db.users }

/-- The store after the first `save()` of a new document that passed validation. -/
def Db.insertRecipe (db : Db) (r : Recipe) : Db :=
  { db with recipes := db.recipes ++ [r] }

/-- The store after `save()` of a document that is already stored. -/
def Db.replaceRecipe (db : Db) (r : Recipe) : Db :=
  { db with recipes := updateFirst (fun x => x.id == r.id) (fun _ => r) db.recipes }

/-- The object `query` of `getUserRecipes`: the owner, and the two optional conditions. -/
structure RecipeFilter where
  user : Nat
  category : Option Str
  isFavorite : Bool

/-- Whether a document satisfies a query object. -/
def RecipeFilter.admits (filter : RecipeFilter) (r : Recipe) : Bool :=
  r.user == filter.user &&
  (match filter.category with
    | some category => r.category == category
    | none => true) &&
  (!filter.isFavorite || r.isFavorite)

/-- Insert a document into a list that is sorted by `createdAt`, newest first. -/
def insertNewestFirst (r : Recipe) : List Recipe → List Recipe
  | [] => [r]
  | x :: xs =>
    if r.createdAt < x.createdAt then x :: insertNewestFirst r xs else r :: x :: xs

/-- The order of `.sort({ createdAt: -1 })`; documents created at the same time, whose order
the store leaves open, keep the order they have in the collection. -/
def sortNewestFirst : List Recipe → List Recipe
  | [] => []
  | r :: rs => insertNewestFirst r (sortNewestFirst rs)

/-- The query `Recipe.find(query).sort({ createdAt: -1 })`. -/
def Db.findRecipes (db : Db) (filter : RecipeFilter) : List Recipe :=
  sortNewestFirst (db.recipes.filter filter.admits)

/-- The query `Recipe.countDocuments(query)`. -/
def Db.countAdmitted (db : Db) (filter : RecipeFilter) : Nat :=
  (db.recipes.filter filter.admits).length

/-- The query `User.findById(userId)`. -/
def Db.findUserById (db : Db) (userId : Nat) : Option User :=
  db.users.find? (fun u => u.id == userId)

/-- The store after `Recipe.deleteMany({ user: userId })`. -/
def Db.deleteRecipesOf (db : Db) (userId : Nat) : Db :=
  { db with recipes := db.recipes.filter (fun r => !(r.user == userId)) }

/-- The store after `User.findByIdAndDelete(userId)`. -/
def Db.deleteUser (db : Db) (userId : Nat) : Db :=
  { db with users := deleteFirst (fun u => u.id == userId) db.users }

/-! ## Responses -/

/-- The JSON bodies the controllers send. -/
inductive Json where
  | null : Json
  | bool : Bool → Json
  | num : Int → Json
  | str : Str → Json
  | doc : Recipe → Json
  | docs : List Recipe → Json
  | obj : List (String × Json) → Json

/-- What `res.status(status).json(body)` sends; `res.json(body)` sends status 200. -/
structure Response where
  status : Nat
  body : Json

/-- The field of an object body. -/
def Json.field (j : Json) (key : String) : Option Json :=
  match j with
  | .obj fields => fields.lookup key
  | _ => none

/-- The 404 answer shared by `getRecipe`, `toggleFavorite` and `deleteRecipe`. -/
def recipeNotFound : Response :=
  { status := 404
    body := .obj [("success", .bool false), ("message", .str "Recipe not found".toList)] }

/-- The 500 answer of the `catch` blocks of `getRecipe`, `toggleFavorite` and `deleteRecipe`:
the `error` field is `undefined`, hence left out, unless `NODE_ENV` is `development`. -/
def serverError (env : Env) (message : Str) (error : JsError) : Response :=
  { status := 500
    body := .obj ([("success", .bool false), ("message", .str message)] ++
      (if env.nodeEnv = "development".toList then [("error", .str error.message)] else [])) }

/-! ## The handlers (`recipeController.js`) -/

/-- The `catch` block of `generateRecipe`. -/
def generateRecipeCatch (env : Env) (error : JsError) : Response :=
  if includes error.message "API key".toList || includes error.message "API_KEY".toList then
    { status := 500
      body := .obj [("success", .bool false),
        ("message", .str "AI service configuration error - Invalid API key".toList)] }
  else if includes error.message "model".toList || includes error.message "Model".toList ||
      includes error.message "not found".toList || includes error.message "404".toList then
    { status := 500
      body := .obj [("success", .bool false),
        ("message",
          .str "AI model not available. Please try again later or contact support.".toList)] }
  else if includes error.message "quota".toList || includes error.message "QUOTA".toList ||
      includes error.message "429".toList then
    { status := 429
      body := .obj [("success", .bool false),
        ("message", .str "AI service quota exceeded. Please try again in a few minutes.".toList),
        ("retryAfter", .num 60)] }
  else
    { status := 500
      body := .obj [("success", .bool false),
        ("message", .str "Failed to generate recipe".toList),
        ("error", .str (if env.nodeEnv = "development".toList then error.message
          else "Internal server error".toList))] }

/-- The value of the variable `savedRecipe` when the response is built: `null`, a document on
which the timestamps hook of `save()` never ran, so that `createdAt` is not set, or a document
with its timestamps. -/
inductive SavedRecipe where
  | null : SavedRecipe
  | unstamped : SavedRecipe
  | stamped : Recipe → SavedRecipe

/-- The block `if (userId) ...` of `generateRecipe`: build the document, save it and increment
the counter of the user, swallowing any error. The validators of `save()` run first; when they
reject, the timestamps are never set. Answers with the value of `savedRecipe` and the store
afterwards. -/
def saveGenerated (env : Env) (db : Db) (userId : Option Nat) (recipeTitle : Str)
    (recipeIngredients : List Str) (recipeText recipeCategory type originalPrompt : Str) :
    SavedRecipe × Db :=
  match userId with
  | none => (.null, db)
  | some userId =>
    let savedRecipe := Recipe.create db.nextId env.now userId recipeTitle recipeIngredients
      recipeText recipeCategory type originalPrompt
    let db := { db with nextId := db.nextId + 1 }
    if !savedRecipe.valid then
      -- Continue without saving if there's an error
      (.unstamped, db)
    else if (env.storeError .recipeSave).isSome then
      -- Continue without saving if there's an error
      (.stamped savedRecipe, db)
    else
      let db := db.insertRecipe savedRecipe
      -- Increment user's recipe count
      if (env.storeError .userFindByIdAndUpdate).isSome then
        (.stamped savedRecipe, db)
      else
        (.stamped savedRecipe,
          db.updateUser userId (fun u => { u with recipesGenerated := u.recipesGenerated + 1 }))

/-- The error thrown by the virtual `createdAtFormatted` of `recipeSchema` on a document whose
`createdAt` is not set. -/
def createdAtUnset : JsError :=
  { name := "TypeError".toList
    message := "Cannot read properties of undefined (reading 'toLocaleDateString')".toList }

/-- What a call of `generateRecipe` does: the response, the store afterwards and the models
invoked. -/
structure Generated where
  response : Response
  db : Db
  invoked : List Str

/-- The handler `generateRecipe`, for a body that passed `generateRecipeValidation` and the
caller identity set by `optionalAuth` (if any). The call `res.json` serialises `savedRecipe`
with its virtuals (`toJSON: { virtuals: true }`); on a document without `createdAt` the virtual
`createdAtFormatted` throws, inside the `try` block. -/
def generateRecipe (env : Env) (db : Db) (userId : Option Nat) (body : GenerateBody) :
    Generated :=
  let aiPrompt := (buildPrompts body).1
  let originalPrompt := (buildPrompts body).2
  -- Generate recipe using Gemini AI with fallback models
  match generateText env.backend aiPrompt with
  | (.error error, invoked) =>
    { response := generateRecipeCatch env error, db := db, invoked := invoked }
  | (.ok recipeText, invoked) =>
    -- Extract recipe details (basic parsing)
    let recipeTitle := extractRecipeTitle recipeText
    let recipeIngredients :=
      if body.type = "ingredients".toList then body.ingredients
      else extractIngredients recipeText
    let recipeCategory := detectRecipeCategory recipeTitle recipeText
    -- Save recipe to database if user is authenticated
    let saved := saveGenerated env db userId recipeTitle recipeIngredients recipeText
      recipeCategory body.type originalPrompt
    { response :=
        match saved.1 with
        | .unstamped => generateRecipeCatch env createdAtUnset
        | .null =>
          { status := 200
            body := .obj [("success", .bool true),
              ("data", .obj [("text", .str recipeText), ("recipe", .null),
                ("cached", .bool false)])] }
        | .stamped savedRecipe =>
          { status := 200
            body := .obj [("success", .bool true),
              ("data", .obj [("text", .str recipeText), ("recipe", .doc savedRecipe),
                ("cached", .bool false)])] }
      db := saved.2
      invoked := invoked }

/-- The error of the store for a negative `skip`. -/
def negativeSkipError : JsError :=
  { name := "MongoServerError".toList
    message := "BSON field 'skip' value must be >= 0".toList }

/-- The error of the store for a `skip` or a `limit` that is not a finite number. -/
def notFiniteError : JsError :=
  { name := "MongoServerError".toList
    message := "BSON field 'skip' or 'limit' is not a finite number".toList }

/-- The ceiling of `total / limit` for a limit other than 0. -/
def ceilDiv (total : Nat) (limit : Int) : Int := -(Int.fdiv (-(total : Int)) limit)

/-- The expression `Math.ceil(total / limit)` for the count of a collection. For a count below
`2 ^ 53` the rounding of the quotient to a double does not change its ceiling, which is
computed exactly here. -/
def ceilQuotient (total : Nat) : JsNumber → JsNumber
  | .nan => .nan
  | .int limit =>
    if limit = 0 then (if total = 0 then .nan else .infinity false)
    else .int (ceilDiv total limit)
  | .infinity _ => .int 0

/-- What `JSON.stringify` makes of a Number: `NaN` and the infinities become `null`. -/
def JsNumber.toJson : JsNumber → Json
  | .int n => .num n
  | _ => .null

/-- The object `query` that `getUserRecipes` builds: `category` is added when the parameter is
a non-empty string, `isFavorite` when the parameter `favorite` is the string `true`. -/
def RecipesQuery.filter (query : RecipesQuery) (userId : Nat) : RecipeFilter :=
  { user := userId
    category := match query.category with
      | some category => if category.isEmpty then none else some category
      | none => none
    isFavorite := query.favorite == some "true".toList }

/-- The handler `getUserRecipes`, for the caller identity set by `authenticate`. The store
rejects a negative `skip`, and the driver reads a negative `limit` as its absolute value; a
`skip` or `limit` that is not finite is taken to be rejected as well. The argument `limit * 1`
of `.limit` is `limit`. -/
def getUserRecipes (env : Env) (db : Db) (userId : Nat) (query : RecipesQuery) :
    Response × Db :=
  let page := query.pageNumber
  let limit := query.limitNumber
  -- Build query
  let filter := query.filter userId
  -- Get recipes with pagination
  match env.storeError .recipeFind with
  | some error => (serverError env "Failed to get recipes".toList error, db)
  | none =>
    match limit, (page.subInt 1).mul limit with
    | .int count, .int skip =>
      if skip < 0 then
        (serverError env "Failed to get recipes".toList negativeSkipError, db)
      else
        let recipes := ((db.findRecipes filter).drop skip.toNat).take count.natAbs
        match env.storeError .recipeCountDocuments with
        | some error => (serverError env "Failed to get recipes".toList error, db)
        | none =>
          let total := db.countAdmitted filter
          ({ status := 200
             body := .obj [("success", .bool true),
               ("data", .obj [("recipes", .docs recipes),
                 ("pagination", .obj [("current", page.toJson),
                   ("pages", (ceilQuotient total limit).toJson),
                   ("total", .num total)])])] }, db)
    | _, _ => (serverError env "Failed to get recipes".toList notFiniteError, db)

/-- The handler `getRecipe`, for the caller identity set by `authenticate`. -/
def getRecipe (env : Env) (db : Db) (userId recipeId : Nat) : Response × Db :=
  match env.storeError .recipeFindOne with
  | some error => (serverError env "Failed to get recipe".toList error, db)
  | none =>
    match db.findOneRecipe recipeId userId with
    | none => (recipeNotFound, db)
    | some recipe =>
      ({ status := 200
         body := .obj [("success", .bool true), ("data", .obj [("recipe", .doc recipe)])] }, db)

/-- The handler `toggleFavorite`, for the caller identity set by `authenticate`. -/
def toggleFavorite (env : Env) (db : Db) (userId recipeId : Nat) : Response × Db :=
  match env.storeError .recipeFindOne with
  | some error => (serverError env "Failed to update favorite status".toList error, db)
  | none =>
    match db.findOneRecipe recipeId userId with
    | none => (recipeNotFound, db)
    | some recipe =>
      -- recipe.toggleFavorite(): flip the flag and save, which stamps `updatedAt`
      let recipe := { recipe with isFavorite := !recipe.isFavorite, updatedAt := env.now }
      match env.storeError .recipeSave with
      | some error => (serverError env "Failed to update favorite status".toList error, db)
      | none =>
        let db := db.replaceRecipe recipe
        -- Update user's favorite count
        match env.storeError .recipeCountDocuments with
        | some error => (serverError env "Failed to update favorite status".toList error, db)
        | none =>
          let favoriteCount := db.countFavorites userId
          match env.storeError .userFindByIdAndUpdate with
          | some error => (serverError env "Failed to update favorite status".toList error, db)
          | none =>
            ({ status := 200
               body := .obj [("success", .bool true),
                 ("message", .str ("Recipe ".toList ++
                   (if recipe.isFavorite then "added to".toList else "removed from".toList) ++
                   " favorites".toList)),
                 ("data", .obj [("recipe", .doc recipe)])] },
              db.updateUser userId (fun u => { u with favoriteRecipes := favoriteCount }))

/-- The handler `deleteRecipe`, for the caller identity set by `authenticate`. -/
def deleteRecipe (env : Env) (db : Db) (userId recipeId : Nat) : Response × Db :=
  match env.storeError .recipeFindOneAndDelete with
  | some error => (serverError env "Failed to delete recipe".toList error, db)
  | none =>
    match db.findOneRecipe recipeId userId with
    | none => (recipeNotFound, db)
    | some _ =>
      let db := db.deleteOneRecipe recipeId userId
      -- Update user's recipe counts
      match env.storeError .recipeCountDocuments with
      | some error => (serverError env "Failed to delete recipe".toList error, db)
      | none =>
        let totalRecipes := db.countRecipes userId
        let favoriteRecipes := db.countFavorites userId
        match env.storeError .userFindByIdAndUpdate with
        | some error => (serverError env "Failed to delete recipe".toList error, db)
        | none =>
          ({ status := 200
             body := .obj [("success", .bool true),
               ("message", .str "Recipe deleted successfully".toList)] },
            db.updateUser userId (fun u =>
              { u with recipesGenerated := totalRecipes, favoriteRecipes := favoriteRecipes }))

/-! ## The handlers (`userController.js`) -/

/-- The handler `deleteAccount`, for the caller identity set by `authenticate` and a request
body that carries a string `password`. The function `bcryptCompare` stands for
`bcrypt.compare(candidatePassword, this.password)` of `userSchema.methods.comparePassword`.
When `User.findById` finds nobody, the call `user.comparePassword` throws a `TypeError`. -/
def deleteAccount (env : Env) (bcryptCompare : Str → Str → Bool) (db : Db) (userId : Nat)
    (password : Str) : Response × Db :=
  -- Verify password before deletion
  match env.storeError .userFindById with
  | some error => (serverError env "Failed to delete account".toList error, db)
  | none =>
    match db.findUserById userId with
    | none =>
      (serverError env "Failed to delete account".toList
        { name := "TypeError".toList
          message := "Cannot read properties of null (reading 'comparePassword')".toList }, db)
    | some user =>
      let isPasswordValid := bcryptCompare password user.password
      if !isPasswordValid then
        ({ status := 401
           body := .obj [("success", .bool false), ("message", .str "Invalid password".toList)] },
          db)
      else
        -- Delete user's recipes
        match env.storeError .recipeDeleteMany with
        | some error => (serverError env "Failed to delete account".toList error, db)
        | none =>
          let db := db.deleteRecipesOf userId
          -- Delete user account
          match env.storeError .userFindByIdAndDelete with
          | some error => (serverError env "Failed to delete account".toList error, db)
          | none =>
            ({ status := 200
               body := .obj [("success", .bool true),
                 ("message", .str "Account deleted successfully".toList)] },
              db.deleteUser userId)

/-! ## Sequences of requests -/

/-- A request to one of the three handlers that write the counters of a user. -/
inductive Action where
  | generate (userId : Option Nat) (body : GenerateBody)
  | toggle (userId recipeId : Nat)
  | delete (userId recipeId : Nat)

/-- The store after a request is served. -/
def Action.serve (env : Env) (db : Db) : Action → Db
  | .generate userId body => (generateRecipe env db userId body).db
  | .toggle userId recipeId => (toggleFavorite env db userId recipeId).2
  | .delete userId recipeId => (deleteRecipe env db userId recipeId).2

/-- The store after a sequence of requests, served one after the other, each in the environment
it comes with. -/
def serveAll (db : Db) : List (Env × Action) → Db
  | [] => db
  | (env, action) :: rest => serveAll (action.serve env db) rest

/-- The ids of the store are in order: no two recipes and no two users share an `_id`, and the
ids still to be handed out are fresh. -/
def Db.wellFormed (db : Db) : Prop :=
  (db.recipes.map (fun r => r.id)).Nodup ∧ (db.users.map (fun u => u.id)).Nodup ∧
  ∀ r ∈ db.recipes, r.id < db.nextId

/-- The two counters of a user are the two counts of the recipes the user owns. -/
def Db.countersAgree (db : Db) (userId : Nat) : Prop :=
  ∀ user ∈ db.users, user.id = userId →
    user.recipesGenerated = db.countRecipes userId ∧
    user.favoriteRecipes = db.countFavorites userId

/-! ## Reference definitions, in the words of the specification -/

/-- A line qualifies as title when its trimmed form is non-empty and starts neither with
`Ingredients:` nor with `Instructions:`. -/
def qualifiesAsTitle (line : Str) : Bool :=
  !(trim line).isEmpty && !startsWith (trim line) "Ingredients:".toList &&
  !startsWith (trim line) "Instructions:".toList

/-- Remove a leading run of `#` and the whitespace that follows it. -/
def dropHeading (s : Str) : Str :=
  (s.dropWhile (fun c => c == '#')).dropWhile isWhiteSpace

/-- Remove every `**`, reading from the left. -/
def dropBold : Str → Str
  | [] => []
  | [c] => [c]
  | c :: d :: s => if c = '*' ∧ d = '*' then dropBold s else c :: dropBold (d :: s)

/-- Reference definition of title extraction: the first qualifying line, trimmed, without its
heading marker and bold markers, cut to 200 characters; the placeholder when no line
qualifies. -/
def titleReference (text : Str) : Str :=
  match (split '\n' text).find? qualifiesAsTitle with
  | some line => (dropBold (dropHeading (trim line))).take 200
  | none => "Generated Recipe".toList

/-- A bullet (`-`, `•`) or numbered (`N.`) line. -/
def isBulletOrNumbered (line : Str) : Bool :=
  startsWith (trim line) "-".toList || startsWith (trim line) "•".toList ||
  numberedMarker.test (trim line)

/-- The content of a bullet or numbered line: what is left once the list marker expression has
been applied to the trimmed line, trimmed again. -/
def lineContent (line : Str) : Str := trim (listMarker.removeFirst (trim line))

/-- The entry a line of the ingredients section contributes: its content, when the line is a
bullet or numbered line with non-empty content. -/
def capturedEntry (line : Str) : Option Str :=
  if isBulletOrNumbered line && !(lineContent line).isEmpty then some (lineContent line)
  else none

/-- A line that contains `ingredients:` in any letter case. -/
def hasIngredientsMarker (line : Str) : Bool := opensIngredients (trim line)

/-- A line that contains `instructions:` or `directions:` in any letter case. -/
def hasInstructionsMarker (line : Str) : Bool := opensInstructions (trim line)

/-- The window of the ingredients section between two markers: the lines before the first line
that satisfies `closes`, after the first line among them that contains `ingredients:`, less the
lines that themselves contain `ingredients:`. -/
def sectionWindow (closes : Str → Bool) (lines : List Str) : List Str :=
  (((lines.takeWhile (fun l => !closes l)).dropWhile (fun l => !hasIngredientsMarker l)).drop
    1).filter (fun l => !hasIngredientsMarker l)

/-- The window as the specification words it: closed by the first line that contains
`instructions:` or `directions:`. -/
def claimedWindow (lines : List Str) : List Str := sectionWindow hasInstructionsMarker lines

/-- The window the loop implements: a line that contains `ingredients:` never closes the
section, even if it also contains `instructions:` or `directions:`. -/
def loopWindow (lines : List Str) : List Str :=
  sectionWindow (fun l => !hasIngredientsMarker l && hasInstructionsMarker l) lines

/-- The five pattern sets of the classifier in their priority order, each with its label. -/
def categoryPriority : List (Str × (Str → Bool)) := [
  ("Beverage".toList, isBeverage), ("Dessert".toList, isDessert),
  ("Breakfast".toList, isBreakfast), ("Snack".toList, isSnack), ("Lunch".toList, isLunch)
]

/-- Reference definition of the classifier: the label of the first pattern set that matches the
lower-cased title, `Dinner` when none does. -/
def categoryReference (recipeTitle : Str) : Str :=
  match categoryPriority.find? (fun rule => rule.2 (toLowerCase recipeTitle)) with
  | some rule => rule.1
  | none => "Dinner".toList

/-- A message indicates an API-key problem: it contains `API key` or `API_KEY`. -/
def mentionsApiKey (message : Str) : Bool :=
  includes message "API key".toList || includes message "API_KEY".toList

/-- A message indicates an unavailable model: it contains `model`, `Model`, `not found` or
`404`. -/
def mentionsModel (message : Str) : Bool :=
  includes message "model".toList || includes message "Model".toList ||
  includes message "not found".toList || includes message "404".toList

/-- A message indicates an exceeded quota: it contains `quota`, `QUOTA` or `429`. -/
def mentionsQuota (message : Str) : Bool :=
  includes message "quota".toList || includes message "QUOTA".toList ||
  includes message "429".toList

/-- Fixed text number 0 of the template of the `ingredients` prompt, as it reads without
time-constraint clauses. -/
def promptPiece0 : Str :=
  "You are a creative chef specializing in recipe development. Create an ".toList ++
  "innovative and delicious recipe using these primary ingredients: ".toList

/-- Fixed text number 1 of the template of the `ingredients` prompt, as it reads without
time-constraint clauses. -/
def promptPiece1 : Str :=
  " that serves exactly ".toList

/-- Fixed text number 2 of the template of the `ingredients` prompt, as it reads without
time-constraint clauses. -/
def promptPiece2 : Str :=
  " people.".toList ++
  "\n".toList ++
  "\n".toList ++
  "                  Please follow this detailed structure:\n".toList ++
  "\n".toList ++
  "                  **Recipe Title**: Create an appealing name that highlights ".toList ++
  "the main ingredients\n".toList ++
  "\n".toList ++
  "                  **Description**: Write 2-3 sentences explaining what ".toList ++
  "makes this dish special and when it's perfect to enjoy.\n".toList ++
  "\n".toList ++
  "                  **Prep Time**: Estimated preparation time".toList ++
  "\n".toList ++
  "                  **Cook Time**: Estimated cooking time".toList ++
  "\n".toList ++
  "                  **Total Time**: Combined time".toList ++
  "\n".toList ++
  "                  **Servings**: ".toList

/-- Fixed text number 3 of the template of the `ingredients` prompt, as it reads without
time-constraint clauses. -/
def promptPiece3 : Str :=
  " people (all ingredient quantities adjusted for this serving size)\n".toList ++
  "                  **Difficulty**: Rate as Beginner/Intermediate/Advanced\n".toList ++
  "\n".toList ++
  "                  **Complete Ingredients List**:\n".toList ++
  "                  - Start with the provided ingredients: ".toList

/-- Fixed text number 4 of the template of the `ingredients` prompt, as it reads without
time-constraint clauses. -/
def promptPiece4 : Str :=
  "\n".toList ++
  "                  - Add complementary ingredients needed to create a complete, ".toList ++
  "balanced dish\n".toList ++
  "                  - Provide precise measurements for all ingredients scaled ".toList ++
  "for ".toList

/-- Fixed text number 5 of the template of the `ingredients` prompt, as it reads without
time-constraint clauses. -/
def promptPiece5 : Str :=
  " people\n".toList ++
  "                  - Include both metric and imperial measurements where ".toList ++
  "helpful\n".toList ++
  "                  - Specify types/brands when important (e.g., \"sea salt\", ".toList ++
  "\"extra virgin olive oil\")\n".toList ++
  "\n".toList ++
  "                  **Equipment Needed**:\n".toList ++
  "                  - List all necessary tools and cookware".toList ++
  "\n".toList ++
  "\n".toList ++
  "                  **Step-by-Step Instructions**:\n".toList ++
  "                  - Provide detailed, numbered cooking steps optimized ".toList ++
  "for ".toList

/-- Fixed text number 6 of the template of the `ingredients` prompt, as it reads without
time-constraint clauses. -/
def promptPiece6 : Str :=
  " servings\n".toList ++
  "                  - Include preparation techniques and cooking methods".toList ++
  "\n".toList ++
  "                  - Mention visual and aromatic cues for each stage\n".toList ++
  "                  - Give specific temperatures and timing".toList ++
  "\n".toList ++
  "                  - Explain important techniques clearly".toList ++
  "\n".toList ++
  "\n".toList ++
  "                  **Chef's Professional Tips**:\n".toList ++
  "                  - Share 2-3 expert tips for optimal results\n".toList ++
  "                  - Mention potential pitfalls and how to avoid them\n".toList ++
  "                  - Suggest ingredient alternatives or substitutions\n".toList ++
  "\n".toList ++
  "                  **Serving & Presentation**:\n".toList ++
  "                  - Recommend how to plate and serve the dish\n".toList ++
  "                  - Suggest complementary side dishes or drinks\n".toList ++
  "\n".toList ++
  "                  **Storage Instructions**:\n".toList ++
  "                  - How to properly store leftovers\n".toList ++
  "                  - Shelf life and reheating guidelines\n".toList ++
  "\n".toList ++
  "                  **Flavor Profile**:\n".toList ++
  "                  - Describe the taste, texture, and overall eating experience\n".toList ++
  "\n".toList ++
  "                  Be creative while ensuring the recipe is practical and ".toList ++
  "achievable for ".toList

/-- Fixed text number 7 of the template of the `ingredients` prompt, as it reads without
time-constraint clauses. -/
def promptPiece7 : Str :=
  " people".toList ++
  ". Focus on maximizing the flavors of the provided ingredients while creating ".toList ++
  "a harmonious, complete dish".toList ++
  ". Write in an encouraging, professional tone suitable for home cooks of ".toList ++
  "all levels.".toList

/-- The fixed texts of the template of the `ingredients` prompt. -/
def noLimitPieces : List Str := [
  promptPiece0, promptPiece1, promptPiece2, promptPiece3, promptPiece4, promptPiece5,
  promptPiece6, promptPiece7
]

/-- The template of the `ingredients` prompt with every time-constraint clause empty: the fixed
texts, with the ingredient list and the serving count in between. -/
def noLimitTemplate (ingredientList servingCount : Str) : Str :=
  promptPiece0 ++ ingredientList ++
  promptPiece1 ++ servingCount ++
  promptPiece2 ++ servingCount ++
  promptPiece3 ++ ingredientList ++
  promptPiece4 ++ servingCount ++
  promptPiece5 ++ servingCount ++
  promptPiece6 ++ servingCount ++
  promptPiece7

/-- Words one of which occurs in every time-constraint clause of the `ingredients` prompt. -/
def timeLimitWords : List Str := [
  "minute".toList, "limit".toList, "efficien".toList, "constraint".toList,
  "timeframe".toList, "exceed".toList
]

/-! ## Example values -/

/-- A backend in which the first two models reject and the third answers. -/
def flakyBackend : Backend := fun modelName _ =>
  if modelName = "gemini-2.0-flash".toList then
    .ok (.ok "Tomato Soup\nIngredients:\n- tomato".toList)
  else .error { name := "Error".toList, message := "503 Service Unavailable".toList }

/-- A backend in which every model rejects, with the name of the model as message. -/
def deadBackend : Backend := fun modelName _ =>
  .error { name := "Error".toList, message := modelName }

/-- A backend in which every model answers with the same text. -/
def steadyBackend (text : Str) : Backend := fun _ _ => .ok (.ok text)

/-- An environment around a backend: no store operation rejects. -/
def calmEnv (backend : Backend) : Env :=
  { backend := backend, storeError := fun _ => none, nodeEnv := "production".toList, now := 0 }

/-- An environment around a backend in which `save()` rejects. -/
def brokenStoreEnv (backend : Backend) : Env :=
  { backend := backend
    storeError := fun op =>
      if op = .recipeSave then
        some { name := "MongoNetworkError".toList, message := "connection lost".toList }
      else none
    nodeEnv := "production".toList
    now := 0 }

/-- A store with one registered user and no recipe. -/
def freshDb : Db :=
  { recipes := []
    users := [{ id := 1, password := [], recipesGenerated := 0, favoriteRecipes := 0 }]
    nextId := 100 }

/-- A store in which user 2 owns recipe 7, next to user 1 who owns nothing. -/
def sharedDb : Db :=
  { recipes := [Recipe.create 7 0 2 "Tomato Soup".toList ["tomato".toList] "Boil.".toList
      "Lunch".toList "direct".toList "soup".toList]
    users := [{ id := 1, password := [], recipesGenerated := 0, favoriteRecipes := 0 },
      { id := 2, password := [], recipesGenerated := 1, favoriteRecipes := 0 }]
    nextId := 100 }

/-- A recipe text whose ingredients section has a sub-heading that mentions both markers. -/
def twoPartRecipe : Str :=
  ("Ingredients:\n- flour\nSauce ingredients: (see sauce instructions: below)\n- soy\n" ++
   "Instructions:\n- mix").toList

/-- A request of kind `ingredients` whose only ingredient is written with spaces around it. -/
def paddedRequest : GenerateBody :=
  { type := "ingredients".toList, prompt := [], ingredients := [" flour ".toList],
    servings := .undefined, time := .undefined }

/-- The message of the error the Gemini client throws when the quota is used up: it quotes the
request URL, which contains `/models/`. -/
def quotaMessage : Str :=
  ("[GoogleGenerativeAI Error]: Error fetching from " ++
   "https://generativelanguage.googleapis.com/v1beta/models/gemini-2.5-pro:generateContent: " ++
   "[429 Too Many Requests] You exceeded your current quota, " ++
   "please check your plan and billing details.").toList

/-- An environment in which no store operation rejects, at time 5. -/
def laterEnv : Env := { calmEnv deadBackend with now := 5 }

/-- An environment in which `User.findByIdAndUpdate` rejects. -/
def counterDownEnv : Env :=
  { calmEnv deadBackend with
    storeError := fun op =>
      if op = .userFindByIdAndUpdate then
        some { name := "MongoNetworkError".toList, message := "connection lost".toList }
      else none }

/-- The store reached from `sharedDb` when user 2 marks recipe 7 as favourite and the update
of the counter rejects: the recipe is a favourite, the counter still says 0. -/
def staleDb : Db := (toggleFavorite counterDownEnv sharedDb 2 7).2

/-- Comparison of a candidate password with a stored hash, for stores whose hashes are the
passwords themselves. -/
def plainCompare : Str → Str → Bool := fun candidate hash => candidate == hash

/-- A request of kind `ingredients` with a time limit of 30 minutes. -/
def timedRequest : GenerateBody :=
  { type := "ingredients".toList, prompt := [], ingredients := ["egg".toList, "rice".toList],
    servings := .num 2, time := .num 30 }

/-- A generated text whose first line is a bare bold marker. -/
def boldFirstLine : Str := "**\nTomato Soup\nIngredients:\n- tomato".toList

/-- A generated text that follows the section markers of the `direct` prompt template. -/
def templateShaped : Str :=
  ("Tomato Soup\n**Ingredients**:\n- 2 cups flour\n- 1 tsp salt\n" ++
   "**Instructions**:\n1. Mix").toList

/-- A request of kind `ingredients` that asks for 50 servings. -/
def crowdRequest : GenerateBody :=
  { type := "ingredients".toList, prompt := [], ingredients := ["egg".toList],
    servings := .num 50, time := .undefined }

/-- A request of kind `direct` for two servings of soup. -/
def soupRequest : GenerateBody :=
  { type := "direct".toList, prompt := "soup".toList, ingredients := [], servings := .num 2,
    time := .undefined }

/-- Four requests of user 1, served with a backend that answers and a store that does not
reject: two generations, a toggle of the second recipe and the deletion of the first. -/
def busyDay : List (Env × Action) :=
  [(calmEnv (steadyBackend "Tomato Soup".toList), .generate (some 1) soupRequest),
   (calmEnv (steadyBackend "Lentil Soup".toList), .generate (some 1) soupRequest),
   (calmEnv (steadyBackend []), .toggle 1 101),
   (calmEnv (steadyBackend []), .delete 1 100)]

/-- A store in which user 1 owns three recipes, created at times 10, 30 and 20, the second of
them a favorite, next to a recipe of user 2. -/
def pantryDb : Db :=
  { recipes := [
      { Recipe.create 1 10 1 "Oat Porridge".toList ["oats".toList] "Boil.".toList
          "Breakfast".toList "direct".toList "porridge".toList with isFavorite := false },
      { Recipe.create 2 30 1 "Lemon Cake".toList ["lemon".toList] "Bake.".toList
          "Dessert".toList "direct".toList "cake".toList with isFavorite := true },
      { Recipe.create 3 20 1 "Rice Bowl".toList ["rice".toList] "Steam.".toList
          "Lunch".toList "direct".toList "bowl".toList with isFavorite := false },
      Recipe.create 4 40 2 "Tomato Soup".toList ["tomato".toList] "Boil.".toList
        "Lunch".toList "direct".toList "soup".toList]
    users := [{ id := 1, password := [], recipesGenerated := 3, favoriteRecipes := 1 },
      { id := 2, password := [], recipesGenerated := 1, favoriteRecipes := 0 }]
    nextId := 100 }

/-- The query string `?page=2&limit=2`. -/
def secondPage : RecipesQuery :=
  { page := some "2".toList, limit := some "2".toList, category := none, favorite := none }

/-- A request of kind `ingredients` whose only ingredient is a blank. -/
def blankRequest : GenerateBody :=
  { type := "ingredients".toList, prompt := [], ingredients := [" ".toList],
    servings := .undefined, time := .undefined }

/-- The store `pantryDb` with counters of user 1 that have drifted away from the counts. -/
def driftedDb : Db :=
  { pantryDb with
    users := [{ id := 1, password := [], recipesGenerated := 9, favoriteRecipes := 9 },
      { id := 2, password := [], recipesGenerated := 1, favoriteRecipes := 0 }] }

/-! ## Lemmas on the fallback loop -/

theorem modelLoop_success (backend : Backend) (aiPrompt : Str)
    (result : GenerateContentResult) :
    ∀ (ms : List Str) (M : Nat) (m : Str) (st : LoopState),
      (∀ x ∈ ms.take M, ∃ e, backend x aiPrompt = .error e) →
      ms[M]? = some m → backend m aiPrompt = .ok result →
      (modelLoop backend aiPrompt ms st).result = some result ∧
      (modelLoop backend aiPrompt ms st).invoked = st.invoked ++ ms.take (M + 1) := by
  intro ms
  induction ms with
  | nil => intro M m st _ hm _; simp at hm
  | cons a rest ih =>
    intro M m st hfail hm hok
    cases M with
    | zero =>
      simp at hm
      subst hm
      simp [modelLoop, hok]
    | succ M =>
      obtain ⟨e, he⟩ := hfail a (by simp)
      have hfail2 : ∀ x ∈ rest.take M, ∃ e, backend x aiPrompt = .error e := by
        intro x hx
        exact hfail x (by simp [hx])
      have hm2 : rest[M]? = some m := by simpa using hm
      have h := ih M m
        { st with lastError := some e, invoked := st.invoked ++ [a] } hfail2 hm2 hok
      simp only [modelLoop, he]
      refine ⟨h.1, ?_⟩
      rw [h.2]
      simp

/-! ## Lemmas on strings and the matcher -/

theorem starRun_of_total (f : Char → Bool) (k : Cont) (g : Str → Str)
    (hk : ∀ p s, k p s = some (g s)) :
    ∀ (s : Str) (p : Option Char), starRun f k p s = some (g (s.dropWhile f)) := by
  intro s
  induction s with
  | nil => intro p; simp [starRun, hk]
  | cons c s ih =>
    intro p
    by_cases hc : f c = true
    · simp [starRun, hc, ih]
    · simp [starRun, hc, hk]

theorem exec_bol_later (r : Regex) :
    ∀ (s : Str) (c : Char), Regex.exec (.seq .bol r) (some c) s = none := by
  intro s
  induction s with
  | nil => intro c; simp [Regex.exec, Regex.run]
  | cons d s ih => intro c; simp [Regex.exec, Regex.run, ih]

theorem trimEnd_isPrefix (s : Str) : trimEnd s <+: s := by
  unfold trimEnd
  have h := List.dropWhile_suffix isWhiteSpace (l := s.reverse)
  have h2 := List.reverse_prefix.mpr h
  simpa using h2

theorem trim_head_not_space (s : Str) (c : Char) (t : Str) (h : trim s = c :: t) :
    isWhiteSpace c = false := by
  unfold trim at h
  have hp := trimEnd_isPrefix (trimStart s)
  rw [h] at hp
  obtain ⟨u, hu⟩ := hp
  unfold trimStart at hu
  have hne : List.dropWhile isWhiteSpace s ≠ [] := by
    rw [← hu]; simp
  have hh := List.head_dropWhile_not isWhiteSpace s hne
  have hc : (List.dropWhile isWhiteSpace s).head hne = c := by
    simp [← hu]
  rw [hc] at hh
  simpa using hh

theorem mem_dropWhile_of_not (p : Char → Bool) (c : Char) :
    ∀ s : Str, c ∈ s → p c = false → c ∈ s.dropWhile p := by
  intro s
  induction s with
  | nil => intro h; simp at h
  | cons d s ih =>
    intro h hp
    by_cases hd : p d = true
    · rw [List.dropWhile_cons_of_pos hd]
      rcases List.mem_cons.mp h with h | h
      · subst h; simp [hp] at hd
      · exact ih h hp
    · rw [List.dropWhile_cons_of_neg hd]
      exact h

theorem trim_ne_nil (s : Str) (c : Char) (hc : c ∈ s) (hw : isWhiteSpace c = false) :
    trim s ≠ [] := by
  unfold trim trimEnd trimStart
  intro h
  have h2 : List.dropWhile isWhiteSpace (List.dropWhile isWhiteSpace s).reverse = [] := by
    simpa using h
  rw [List.dropWhile_eq_nil_iff] at h2
  have h3 := mem_dropWhile_of_not isWhiteSpace c s hc hw
  have h4 := h2 c (by simpa using h3)
  simp [hw] at h4

theorem trim_getLast_not_space (s : Str) (h : trim s ≠ []) :
    isWhiteSpace ((trim s).getLast h) = false := by
  unfold trim trimEnd at h ⊢
  have hne : List.dropWhile isWhiteSpace (trimStart s).reverse ≠ [] := by
    simpa using h
  have hh := List.head_dropWhile_not isWhiteSpace (trimStart s).reverse hne
  rw [List.getLast_reverse]
  simpa using hh

theorem isDigit_not_space (c : Char) (h : isDigit c = true) : isWhiteSpace c = false := by
  simp only [isDigit, Bool.and_eq_true, decide_eq_true_eq] at h
  simp only [isWhiteSpace, Bool.or_eq_false_iff, Bool.and_eq_false_iff, decide_eq_false_iff_not]
  omega

theorem startsWith_iff_initial : ∀ (s p : Str), startsWith s p = true ↔ p <+: s := by
  intro s
  induction s with
  | nil =>
    intro p
    cases p <;> simp [startsWith]
  | cons c s ih =>
    intro p
    cases p with
    | nil => simp [startsWith]
    | cons d p =>
      simp only [startsWith, Bool.and_eq_true, beq_iff_eq, ih, List.cons_prefix_cons]
      constructor
      · rintro ⟨h1, h2⟩; exact ⟨h1.symm, h2⟩
      · rintro ⟨h1, h2⟩; exact ⟨h1.symm, h2⟩

theorem includes_iff_contained : ∀ (s k : Str), includes s k = true ↔ k <:+: s := by
  intro s
  induction s with
  | nil =>
    intro k
    simp only [includes, startsWith_iff_initial, List.prefix_nil, List.infix_nil]
  | cons c s ih =>
    intro k
    simp only [includes, Bool.or_eq_true, startsWith_iff_initial, ih, List.infix_cons_iff]

theorem contained_skip (a : Str) {k t : Str} (h : k <:+: t) : k <:+: a ++ t :=
  h.trans (List.suffix_append a t).isInfix

theorem toLowerCase_append (a b : Str) :
    toLowerCase (a ++ b) = toLowerCase a ++ toLowerCase b := by
  induction a with
  | nil => simp [toLowerCase]
  | cons c a ih => simp [toLowerCase, ih]

theorem toLowerCase_contained (a b : Str) (h : a <:+: b) : toLowerCase a <:+: toLowerCase b := by
  obtain ⟨p, q, rfl⟩ := h
  rw [toLowerCase_append, toLowerCase_append]
  exact ⟨_, _, rfl⟩

theorem trim_contained (s : Str) : trim s <:+: s := by
  unfold trim
  exact (trimEnd_isPrefix (trimStart s)).isInfix.trans
    (List.dropWhile_suffix isWhiteSpace).isInfix

theorem trim_eq_nil (s : Str) (h : ∀ c ∈ s, isWhiteSpace c = true) : trim s = [] := by
  have h1 : trimStart s = [] := by
    unfold trimStart
    rw [List.dropWhile_eq_nil_iff]
    exact h
  simp [trim, h1, trimEnd]

theorem includes_lower_trim (line k : Str) (h : includes (toLowerCase line) k = false) :
    includes (toLowerCase (trim line)) k = false := by
  cases hx : includes (toLowerCase (trim line)) k with
  | false => rfl
  | true =>
    rw [includes_iff_contained] at hx
    have h2 := hx.trans (toLowerCase_contained _ _ (trim_contained line))
    rw [← includes_iff_contained] at h2
    rw [h2] at h
    exact absurd h (by simp)

theorem trim_length_le (s : Str) : (trim s).length ≤ s.length :=
  (trim_contained s).length_le

theorem dropWhile_of_head (p : Char → Bool) (c : Char) (t : Str) (h : p c = false) :
    List.dropWhile p (c :: t) = c :: t := by
  simp [List.dropWhile, h]

theorem trim_of_trim (s : Str) : trim (trim s) = trim s := by
  cases h : trim s with
  | nil => exact trim_eq_nil [] (by simp)
  | cons c t =>
    have hne : trim s ≠ [] := by rw [h]; simp
    have hhead := trim_head_not_space s c t h
    have hlast := trim_getLast_not_space s hne
    have hrev : (c :: t).reverse ≠ [] := by simp
    have hlast2 : isWhiteSpace ((c :: t).reverse.head hrev) = false := by
      rw [List.head_reverse]
      simpa [h] using hlast
    unfold trim trimStart trimEnd
    rw [dropWhile_of_head isWhiteSpace c t hhead]
    cases hr : (c :: t).reverse with
    | nil => exact absurd hr hrev
    | cons d r =>
      have hd : isWhiteSpace d = false := by
        simpa [hr] using hlast2
      rw [dropWhile_of_head isWhiteSpace d r hd, ← hr, List.reverse_reverse]

/-! ## Lemmas on `extractRecipeTitle` -/

theorem headingMarker_removeFirst (s : Str) :
    headingMarker.removeFirst s =
      match s with
      | [] => []
      | c :: t => if c == '#' then (t.dropWhile (fun c => c == '#')).dropWhile isWhiteSpace
        else c :: t := by
  have h1 : ∀ (t : Str) (p : Option Char),
      starRun (fun c => c == '#') (starRun isWhiteSpace done) p t
        = some ((t.dropWhile (fun c => c == '#')).dropWhile isWhiteSpace) := by
    intro t p
    apply starRun_of_total (fun c => c == '#') _ (fun s => s.dropWhile isWhiteSpace)
    intro p s
    exact starRun_of_total isWhiteSpace done id (fun _ _ => rfl) s p
  cases s with
  | nil => simp [Regex.removeFirst, Regex.exec, headingMarker, Regex.run]
  | cons c t =>
    by_cases hc : (c == '#') = true
    · simp only [Regex.removeFirst, Regex.exec, headingMarker, Regex.run, hc, h1]
      simp
    · have h2 := exec_bol_later
        (.seq (.plus (fun c => c == '#')) (.star isWhiteSpace)) t c
      simp only [Regex.removeFirst, Regex.exec, headingMarker, Regex.run, hc, h2]
      simp

theorem headingMarker_on_trimmed (s : Str) :
    headingMarker.removeFirst (trim s) = dropHeading (trim s) := by
  rw [headingMarker_removeFirst]
  cases h : trim s with
  | nil => simp [dropHeading]
  | cons c t =>
    have hws := trim_head_not_space s c t h
    by_cases hc : (c == '#') = true
    · simp [dropHeading, hc]
    · simp [dropHeading, hc, hws]

theorem dropBold_cons (c : Char) (t : Str) :
    dropBold (c :: t) =
      if startsWith (c :: t) "**".toList then dropBold (t.drop 1) else c :: dropBold t := by
  cases t with
  | nil => simp [dropBold, startsWith]
  | cons d t =>
    by_cases h : c = '*' ∧ d = '*'
    · obtain ⟨h1, h2⟩ := h
      subst h1 h2
      simp [dropBold, startsWith]
    · have h2 : startsWith (c :: d :: t) "**".toList = false := by
        simp only [startsWith, String.toList]
        simp only [not_and_or] at h
        rcases h with h | h <;> simp [h]
      rw [h2]
      simp [dropBold, h]

theorem boldMarker_exec :
    ∀ (s : Str) (p : Option Char),
      match boldMarker.exec p s with
      | none => dropBold s = s
      | some (skipped, rest) =>
        dropBold s = skipped ++ dropBold rest ∧ rest.length < s.length := by
  intro s
  induction s with
  | nil => intro p; simp [Regex.exec, boldMarker, Regex.run, startsWith, dropBold]
  | cons c t ih =>
    intro p
    by_cases hs : startsWith (c :: t) "**".toList = true
    · simp only [Regex.exec, boldMarker, Regex.run, hs, if_true, done]
      rw [dropBold_cons, hs]
      simp
      omega
    · have ih2 := ih (some c)
      simp only [Regex.exec, boldMarker, Regex.run, hs]
      simp only [boldMarker] at ih2
      rw [dropBold_cons]
      simp only [hs]
      cases hx : Regex.exec (.lit "**".toList) (some c) t with
      | none =>
        rw [hx] at ih2
        simp only at ih2
        simp [ih2]
      | some pr =>
        obtain ⟨skipped, rest⟩ := pr
        rw [hx] at ih2
        simp only at ih2
        simp [ih2.1]
        omega

theorem boldMarker_removeAll (s : Str) : boldMarker.removeAll s = dropBold s := by
  have h : ∀ (n : Nat) (s : Str) (p : Option Char), s.length ≤ n →
      boldMarker.removeAllFrom n p s = dropBold s := by
    intro n
    induction n with
    | zero =>
      intro s p hs
      have : s = [] := List.length_eq_zero.mp (Nat.le_zero.mp hs)
      subst this
      simp [Regex.removeAllFrom, dropBold]
    | succ n ih =>
      intro s p hs
      have hx := boldMarker_exec s p
      simp only [Regex.removeAllFrom]
      cases hy : boldMarker.exec p s with
      | none =>
        rw [hy] at hx
        simp only at hx
        simp [hx]
      | some pr =>
        obtain ⟨skipped, rest⟩ := pr
        rw [hy] at hx
        simp only at hx
        simp only
        rw [ih rest _ (by omega), hx.1]
  exact h s.length s none (Nat.le_refl _)

theorem extractRecipeTitleLoop_eq (lines : List Str) :
    extractRecipeTitleLoop lines =
      match lines.find? qualifiesAsTitle with
      | some line => (dropBold (dropHeading (trim line))).take 200
      | none => "Generated Recipe".toList := by
  induction lines with
  | nil => simp [extractRecipeTitleLoop]
  | cons line lines ih =>
    by_cases hq : qualifiesAsTitle line = true
    · have hq2 := hq
      simp only [qualifiesAsTitle] at hq2
      simp only [extractRecipeTitleLoop, List.find?, hq, hq2, if_true, substring0]
      rw [headingMarker_on_trimmed, boldMarker_removeAll]
    · have hq2 : qualifiesAsTitle line = false := by simpa using hq
      have hq3 := hq2
      simp only [qualifiesAsTitle] at hq3
      simp only [extractRecipeTitleLoop, List.find?, hq2]
      simp only [hq3, Bool.false_eq_true, if_false]
      exact ih

theorem boldMarker_removeAllFrom (n : Nat) :
    ∀ (s : Str) (p : Option Char), s.length ≤ n →
      boldMarker.removeAllFrom n p s = dropBold s := by
  induction n with
  | zero =>
    intro s p hs
    have : s = [] := List.length_eq_zero.mp (Nat.le_zero.mp hs)
    subst this
    simp [Regex.removeAllFrom, dropBold]
  | succ n ih =>
    intro s p hs
    have hx := boldMarker_exec s p
    simp only [Regex.removeAllFrom]
    cases hy : boldMarker.exec p s with
    | none =>
      rw [hy] at hx
      simp only at hx
      simp [hx]
    | some pr =>
      obtain ⟨skipped, rest⟩ := pr
      rw [hy] at hx
      simp only at hx
      simp only
      rw [ih rest _ (by omega), hx.1]

/-! ## Lemmas on `extractIngredients` -/

theorem isListItem_eq (line : Str) : isListItem (trim line) = isBulletOrNumbered line := by
  unfold isListItem isBulletOrNumbered
  cases h : trim line with
  | nil => decide
  | cons c t => simp

theorem loop_step_capture (line : Str) (lines : List Str) (b : Bool) (acc : List Str)
    (h1 : hasIngredientsMarker line = false) (h2 : hasInstructionsMarker line = false) :
    extractIngredientsLoop (line :: lines) b acc =
      extractIngredientsLoop lines b
        (if b then acc ++ (capturedEntry line).toList else acc) := by
  simp only [hasIngredientsMarker, hasInstructionsMarker] at h1 h2
  simp only [extractIngredientsLoop, h1, h2, Bool.false_eq_true, if_false, isListItem_eq,
    capturedEntry, lineContent]
  cases b
  · simp
  · cases hb : isBulletOrNumbered line
    · simp
    · cases hc : (trim (listMarker.removeFirst (trim line))).isEmpty <;> simp [hc]

theorem loop_active (lines : List Str) :
    ∀ acc : List Str, extractIngredientsLoop lines true acc =
      acc ++ (((lines.takeWhile
        (fun l => !(!hasIngredientsMarker l && hasInstructionsMarker l))).filter
        (fun l => !hasIngredientsMarker l)).filterMap capturedEntry) := by
  induction lines with
  | nil => intro acc; simp [extractIngredientsLoop]
  | cons line lines ih =>
    intro acc
    cases h1 : hasIngredientsMarker line with
    | true =>
      have h1b := h1
      simp only [hasIngredientsMarker] at h1b
      simp only [extractIngredientsLoop, h1b, if_true]
      rw [ih]
      simp [h1]
    | false =>
      cases h2 : hasInstructionsMarker line with
      | true =>
        have h1b := h1
        have h2b := h2
        simp only [hasIngredientsMarker] at h1b
        simp only [hasInstructionsMarker] at h2b
        simp [extractIngredientsLoop, h1b, h2b, h1, h2]
      | false =>
        rw [loop_step_capture line lines true acc h1 h2, ih]
        cases hc : capturedEntry line <;> simp [h1, h2, hc]

theorem loop_inactive (lines : List Str) :
    ∀ acc : List Str, extractIngredientsLoop lines false acc =
      acc ++ (loopWindow lines).filterMap capturedEntry := by
  induction lines with
  | nil => intro acc; simp [extractIngredientsLoop, loopWindow, sectionWindow]
  | cons line lines ih =>
    intro acc
    cases h1 : hasIngredientsMarker line with
    | true =>
      have h1b := h1
      simp only [hasIngredientsMarker] at h1b
      simp only [extractIngredientsLoop, h1b, if_true]
      rw [loop_active]
      simp [loopWindow, sectionWindow, h1]
    | false =>
      cases h2 : hasInstructionsMarker line with
      | true =>
        have h1b := h1
        have h2b := h2
        simp only [hasIngredientsMarker] at h1b
        simp only [hasInstructionsMarker] at h2b
        simp [extractIngredientsLoop, h1b, h2b, h1, h2, loopWindow, sectionWindow]
      | false =>
        rw [loop_step_capture line lines false acc h1 h2]
        simp only [Bool.false_eq_true, if_false]
        rw [ih]
        simp [loopWindow, sectionWindow, h1, h2]

theorem listMarker_removeFirst (s : Str) :
    listMarker.removeFirst s =
      match s with
      | [] => []
      | c :: t =>
        if c == '-' || c == '•' || isDigit c || c == '.' then t.dropWhile isWhiteSpace
        else c :: t := by
  cases s with
  | nil => simp [Regex.removeFirst, Regex.exec, listMarker, Regex.run]
  | cons c t =>
    by_cases hc : (c == '-' || c == '•' || isDigit c || c == '.') = true
    · have h1 := starRun_of_total isWhiteSpace done id (fun _ _ => rfl) t (some c)
      simp only [Regex.removeFirst, Regex.exec, listMarker, Regex.run, hc, h1]
      simp
    · have h2 := exec_bol_later
        (.seq (.cls (fun c => c == '-' || c == '•' || isDigit c || c == '.'))
          (.star isWhiteSpace)) t c
      simp only [Regex.removeFirst, Regex.exec, listMarker, Regex.run, hc, h2]
      simp

theorem numberedMarker_test (s : Str) (h : numberedMarker.test s = true) :
    ∃ d e t, s = d :: e :: t ∧ isDigit d = true ∧ (isDigit e = true ∨ e = '.') := by
  cases s with
  | nil => simp [Regex.test, Regex.exec, numberedMarker, Regex.run] at h
  | cons d t =>
    by_cases hd : isDigit d = true
    · cases t with
      | nil =>
        simp [Regex.test, Regex.exec, numberedMarker, Regex.run, hd, starRun, startsWith] at h
      | cons e t =>
        refine ⟨d, e, t, rfl, hd, ?_⟩
        by_cases he : isDigit e = true
        · exact Or.inl he
        · right
          simp only [Regex.test, Regex.exec, numberedMarker, Regex.run, hd, exec_bol_later,
            if_true, starRun, he, Bool.false_eq_true, if_false] at h
          by_contra hne
          have : startsWith (e :: t) ['.'] = false := by
            simp [startsWith, hne]
          simp [this] at h
    · simp [Regex.test, Regex.exec, numberedMarker, Regex.run, hd, exec_bol_later] at h

theorem bullet_content (c : Char) (t : Str) (line : Str) (h : trim line = c :: t)
    (hc : (c == '-' || c == '•' || isDigit c || c == '.') = true) (ht : t ≠ []) :
    lineContent line ≠ [] := by
  have hne : trim line ≠ [] := by rw [h]; simp
  have hl := trim_getLast_not_space line hne
  have hmem : (trim line).getLast hne ∈ t := by
    have h3 : (trim line).getLast hne = (c :: t).getLast (by simp) := by
      congr 1
    rw [h3, List.getLast_cons ht]
    exact List.getLast_mem ht
  unfold lineContent
  rw [listMarker_removeFirst, h]
  simp only [hc, if_true]
  exact trim_ne_nil _ _ (mem_dropWhile_of_not isWhiteSpace _ t hmem hl) hl

theorem listItem_content (line : Str) (hb : isBulletOrNumbered line = true)
    (h1 : trim line ≠ "-".toList) (h2 : trim line ≠ "•".toList) :
    lineContent line ≠ [] := by
  simp only [isBulletOrNumbered, Bool.or_eq_true] at hb
  rcases hb with (hb | hb) | hb
  · cases h : trim line with
    | nil => rw [h] at hb; simp [startsWith] at hb
    | cons c t =>
      rw [h] at hb h1
      have hc : c = '-' := by simpa [startsWith] using hb
      subst hc
      have ht : t ≠ [] := by
        intro ht; subst ht; exact h1 rfl
      exact bullet_content _ t line h (by decide) ht
  · cases h : trim line with
    | nil => rw [h] at hb; simp [startsWith] at hb
    | cons c t =>
      rw [h] at hb h2
      have hc : c = '•' := by simpa [startsWith] using hb
      subst hc
      have ht : t ≠ [] := by
        intro ht; subst ht; exact h2 rfl
      exact bullet_content _ t line h (by decide) ht
  · obtain ⟨d, e, t, hs, hd, he⟩ := numberedMarker_test _ hb
    exact bullet_content d (e :: t) line hs (by simp [hd]) (by simp)

theorem capturedEntry_clean (line e : Str) (h : capturedEntry line = some e) :
    e ≠ [] ∧ trim e = e := by
  unfold capturedEntry at h
  split at h
  · rename_i hc
    simp only [Bool.and_eq_true, Bool.not_eq_true', List.isEmpty_eq_false] at hc
    have he : lineContent line = e := by simpa using h
    subst he
    exact ⟨hc.2, by unfold lineContent; exact trim_of_trim _⟩
  · simp at h

/-! ## Lemmas on the store -/

theorem deleteFirst_eq_filter {α : Type} (key : α → Nat) (k : Nat) :
    ∀ l : List α, (l.map key).Nodup →
      deleteFirst (fun x => key x == k) l = l.filter (fun x => !(key x == k)) := by
  intro l
  induction l with
  | nil => intro _; rfl
  | cons x xs ih =>
    intro hnd
    rw [List.map_cons, List.nodup_cons] at hnd
    by_cases hx : key x = k
    · have hrest : xs.filter (fun y => !(key y == k)) = xs := by
        rw [List.filter_eq_self]
        intro y hy
        have : key y ≠ k := by
          intro hyk
          exact hnd.1 (List.mem_map.mpr ⟨y, hy, hyk.trans hx.symm⟩)
        simp [this]
      simp [deleteFirst, hx, hrest]
    · simp [deleteFirst, hx, ih hnd.2]

theorem updateFirst_eq_map {α : Type} (key : α → Nat) (k : Nat) (f : α → α) :
    ∀ l : List α, (l.map key).Nodup →
      updateFirst (fun x => key x == k) f l = l.map (fun x => if key x == k then f x else x) := by
  intro l
  induction l with
  | nil => intro _; rfl
  | cons x xs ih =>
    intro hnd
    rw [List.map_cons, List.nodup_cons] at hnd
    by_cases hx : key x = k
    · have hrest : xs.map (fun y => if key y == k then f y else y) = xs := by
        conv_rhs => rw [← List.map_id xs]
        apply List.map_congr_left
        intro y hy
        have : key y ≠ k := by
          intro hyk
          exact hnd.1 (List.mem_map.mpr ⟨y, hy, hyk.trans hx.symm⟩)
        simp [this]
      subst hx
      simp only [updateFirst, List.map_cons, beq_self_eq_true, if_true]
      rw [hrest]
    · simp [updateFirst, hx, ih hnd.2]

theorem deleteFirst_congr {α : Type} (p q : α → Bool) :
    ∀ l : List α, (∀ x ∈ l, p x = q x) → deleteFirst p l = deleteFirst q l := by
  intro l
  induction l with
  | nil => intro _; rfl
  | cons x xs ih =>
    intro h
    have hx := h x (List.mem_cons_self x xs)
    have hxs := ih (fun y hy => h y (List.mem_cons_of_mem x hy))
    simp [deleteFirst, hx, hxs]

theorem findOneRecipe_some (db : Db) (r u : Nat) (recipe : Recipe)
    (h : db.findOneRecipe r u = some recipe) :
    recipe ∈ db.recipes ∧ recipe.id = r ∧ recipe.user = u := by
  unfold Db.findOneRecipe at h
  have h1 := List.mem_of_find?_eq_some h
  have h2 := List.find?_some h
  simp only [Bool.and_eq_true, beq_iff_eq] at h2
  exact ⟨h1, h2.1, h2.2⟩

theorem owned_of_id (db : Db) (r u : Nat) (recipe : Recipe)
    (hids : (db.recipes.map (fun x => x.id)).Nodup)
    (h : db.findOneRecipe r u = some recipe) :
    ∀ x ∈ db.recipes, x.id = r → x = recipe := by
  obtain ⟨hm, hid, _⟩ := findOneRecipe_some db r u recipe h
  intro x hx hxr
  exact List.inj_on_of_nodup_map hids hx hm (hxr.trans hid.symm)

theorem deleteRecipe_ok (env : Env) (db : Db) (u r : Nat)
    (hok : (deleteRecipe env db u r).1.status = 200) :
    ∃ recipe, db.findOneRecipe r u = some recipe ∧
      (deleteRecipe env db u r).2 =
        (db.deleteOneRecipe r u).updateUser u (fun x =>
          { x with recipesGenerated := (db.deleteOneRecipe r u).countRecipes u,
                   favoriteRecipes := (db.deleteOneRecipe r u).countFavorites u }) := by
  unfold deleteRecipe at hok ⊢
  cases h1 : env.storeError .recipeFindOneAndDelete with
  | some e => simp [h1, serverError] at hok
  | none =>
    cases h2 : db.findOneRecipe r u with
    | none => simp [h1, h2, recipeNotFound] at hok
    | some recipe =>
      cases h3 : env.storeError .recipeCountDocuments with
      | some e => simp [h1, h2, h3, serverError] at hok
      | none =>
        cases h4 : env.storeError .userFindByIdAndUpdate with
        | some e => simp [h1, h2, h3, h4, serverError] at hok
        | none => exact ⟨recipe, rfl, rfl⟩

theorem toggleFavorite_ok (env : Env) (db : Db) (u r : Nat)
    (hok : (toggleFavorite env db u r).1.status = 200) :
    ∃ recipe, db.findOneRecipe r u = some recipe ∧
      (toggleFavorite env db u r).2 =
        (db.replaceRecipe
          { recipe with isFavorite := !recipe.isFavorite, updatedAt := env.now }).updateUser u
          (fun x => { x with favoriteRecipes :=
            (db.replaceRecipe
              { recipe with isFavorite := !recipe.isFavorite,
                            updatedAt := env.now }).countFavorites u }) := by
  unfold toggleFavorite at hok ⊢
  cases h1 : env.storeError .recipeFindOne with
  | some e => simp [h1, serverError] at hok
  | none =>
    cases h2 : db.findOneRecipe r u with
    | none => simp [h1, h2, recipeNotFound] at hok
    | some recipe =>
      cases h3 : env.storeError .recipeSave with
      | some e => simp [h1, h2, h3, serverError] at hok
      | none =>
        cases h4 : env.storeError .recipeCountDocuments with
        | some e => simp [h1, h2, h3, h4, serverError] at hok
        | none =>
          cases h5 : env.storeError .userFindByIdAndUpdate with
          | some e => simp [h1, h2, h3, h4, h5, serverError] at hok
          | none => exact ⟨recipe, rfl, rfl⟩

theorem toggleFavorite_effect (env : Env) (db : Db) (u r : Nat)
    (hids : (db.recipes.map (fun x => x.id)).Nodup)
    (husers : (db.users.map (fun x => x.id)).Nodup)
    (hok : (toggleFavorite env db u r).1.status = 200) :
    (∃ target ∈ db.recipes, target.id = r ∧ target.user = u) ∧
    (toggleFavorite env db u r).2.recipes = db.recipes.map (fun x =>
      if x.id == r then { x with isFavorite := !x.isFavorite, updatedAt := env.now } else x) ∧
    (toggleFavorite env db u r).2.users = db.users.map (fun x =>
      if x.id == u then
        { x with favoriteRecipes := (toggleFavorite env db u r).2.countFavorites u }
      else x) := by
  obtain ⟨recipe, hfind, hdb⟩ := toggleFavorite_ok env db u r hok
  obtain ⟨hmem, hid, huser⟩ := findOneRecipe_some db r u recipe hfind
  have hown := owned_of_id db r u recipe hids hfind
  refine ⟨⟨recipe, hmem, hid, huser⟩, ?_, ?_⟩
  · rw [hdb]
    simp only [Db.updateUser, Db.replaceRecipe]
    rw [hid]
    rw [updateFirst_eq_map (fun x : Recipe => x.id) r _ db.recipes hids]
    apply List.map_congr_left
    intro x hx
    by_cases hxr : x.id = r
    · have := hown x hx hxr
      subst this
      simp [hxr]
    · simp [hxr]
  · rw [hdb]
    exact updateFirst_eq_map (fun x : User => x.id) u _ db.users husers

theorem countFavorites_map (l : List Recipe) (g : Recipe → Recipe) (u : Nat)
    (hg : ∀ x, (g x).user = x.user ∧ (g x).isFavorite = x.isFavorite) :
    ((l.map g).filter (fun r => r.user == u && r.isFavorite)).length
      = (l.filter (fun r => r.user == u && r.isFavorite)).length := by
  induction l with
  | nil => rfl
  | cons x xs ih =>
    simp only [List.map_cons, List.filter_cons, (hg x).1, (hg x).2]
    split <;> simp [ih]

theorem deleteAccount_ok (env : Env) (cmp : Str → Str → Bool) (db : Db) (u : Nat)
    (password : Str) (hok : (deleteAccount env cmp db u password).1.status = 200) :
    (deleteAccount env cmp db u password).2 = (db.deleteRecipesOf u).deleteUser u := by
  unfold deleteAccount at hok ⊢
  cases h1 : env.storeError .userFindById with
  | some e => simp [h1, serverError] at hok
  | none =>
    cases h2 : db.findUserById u with
    | none => simp [h1, h2, serverError] at hok
    | some user =>
      cases h3 : cmp password user.password with
      | false => simp [h1, h2, h3] at hok
      | true =>
        cases h4 : env.storeError .recipeDeleteMany with
        | some e => simp [h1, h2, h3, h4, serverError] at hok
        | none =>
          cases h5 : env.storeError .userFindByIdAndDelete with
          | some e => simp [h1, h2, h3, h4, h5, serverError] at hok
          | none => simp [h3]

theorem filter_updateFirst_length {α : Type} (p q : α → Bool) (f : α → α) :
    ∀ l : List α, (∀ x ∈ l, q x = true → p (f x) = p x) →
      ((updateFirst q f l).filter p).length = (l.filter p).length := by
  intro l
  induction l with
  | nil => intro _; rfl
  | cons x xs ih =>
    intro h
    by_cases hq : q x = true
    · have := h x (List.mem_cons_self x xs) hq
      simp only [updateFirst, hq, if_true, List.filter_cons, this]
      split <;> simp
    · have hxs := ih (fun y hy => h y (List.mem_cons_of_mem x hy))
      simp only [updateFirst, hq, if_false, Bool.false_eq_true, List.filter_cons]
      split <;> simp [hxs]

theorem filter_deleteFirst_length {α : Type} (p q : α → Bool) :
    ∀ l : List α, (∀ x ∈ l, q x = true → p x = false) →
      ((deleteFirst q l).filter p).length = (l.filter p).length := by
  intro l
  induction l with
  | nil => intro _; rfl
  | cons x xs ih =>
    intro h
    by_cases hq : q x = true
    · have := h x (List.mem_cons_self x xs) hq
      simp [deleteFirst, hq, List.filter_cons, this]
    · have hxs := ih (fun y hy => h y (List.mem_cons_of_mem x hy))
      simp only [deleteFirst, hq, if_false, Bool.false_eq_true, List.filter_cons]
      split <;> simp [hxs]

theorem updateFirst_keys {α : Type} (key : α → Nat) (q : α → Bool) (f : α → α)
    (hf : ∀ x, key (f x) = key x) :
    ∀ l : List α, (updateFirst q f l).map key = l.map key := by
  intro l
  induction l with
  | nil => rfl
  | cons x xs ih =>
    by_cases hq : q x = true
    · simp [updateFirst, hq, hf]
    · simp [updateFirst, hq, ih]

theorem updateFirst_keys_on {α : Type} (key : α → Nat) (q : α → Bool) (f : α → α) :
    ∀ l : List α, (∀ x ∈ l, q x = true → key (f x) = key x) →
      (updateFirst q f l).map key = l.map key := by
  intro l
  induction l with
  | nil => intro _; rfl
  | cons x xs ih =>
    intro h
    by_cases hq : q x = true
    · simp [updateFirst, hq, h x (List.mem_cons_self x xs) hq]
    · simp [updateFirst, hq, ih (fun y hy => h y (List.mem_cons_of_mem x hy))]

theorem deleteFirst_sublist {α : Type} (q : α → Bool) :
    ∀ l : List α, (deleteFirst q l).Sublist l := by
  intro l
  induction l with
  | nil => exact List.Sublist.refl _
  | cons x xs ih =>
    by_cases hq : q x = true
    · simp [deleteFirst, hq]
    · simp only [deleteFirst, hq, if_false, Bool.false_eq_true]
      exact ih.cons₂ x

theorem countersAgree_update (db : Db) (recipes : List Recipe) (n u v : Nat) (f : User → User)
    (husers : (db.users.map (fun x => x.id)).Nodup) (hag : db.countersAgree u)
    (hf : ∀ x, (f x).id = x.id)
    (hother : v ≠ u →
      (recipes.filter (fun r => r.user == u)).length = db.countRecipes u ∧
      (recipes.filter (fun r => r.user == u && r.isFavorite)).length = db.countFavorites u)
    (hupd : v = u → ∀ x ∈ db.users, x.id = u →
      (f x).recipesGenerated = (recipes.filter (fun r => r.user == u)).length ∧
      (f x).favoriteRecipes = (recipes.filter (fun r => r.user == u && r.isFavorite)).length) :
    Db.countersAgree
      { recipes := recipes, users := updateFirst (fun x => x.id == v) f db.users, nextId := n }
      u := by
  intro user hmem hid
  simp only [Db.countRecipes, Db.countFavorites]
  simp only at hmem
  rw [updateFirst_eq_map (fun x : User => x.id) v f db.users husers] at hmem
  obtain ⟨x, hx, rfl⟩ := List.mem_map.mp hmem
  by_cases hxv : x.id = v
  · simp only [hxv, beq_self_eq_true, if_true] at hid ⊢
    by_cases hvu : v = u
    · exact hupd hvu x hx (hxv.trans hvu)
    · exact absurd (((hf x).symm.trans hid).symm.trans hxv).symm hvu
  · have hb : (x.id == v) = false := by simpa using hxv
    simp only [hb, Bool.false_eq_true, if_false] at hid ⊢
    have hvu : v ≠ u := fun h => hxv (hid.trans h.symm)
    obtain ⟨h1, h2⟩ := hother hvu
    rw [h1, h2]
    exact hag x hx hid


theorem fresh_of_ids (l k : List Recipe) (n : Nat)
    (h : k.map (fun r => r.id) = l.map (fun r => r.id)) (hl : ∀ r ∈ l, r.id < n) :
    ∀ r ∈ k, r.id < n := by
  intro r hr
  have : r.id ∈ l.map (fun r => r.id) := by
    rw [← h]; exact List.mem_map.mpr ⟨r, hr, rfl⟩
  obtain ⟨x, hx, hxr⟩ := List.mem_map.mp this
  rw [← hxr]; exact hl x hx

theorem saveGenerated_keeps (env : Env) (db : Db) (u : Nat) (userId : Option Nat)
    (title : Str) (ings : List Str) (text category type original : Str)
    (hcalm : ∀ op, env.storeError op = none)
    (hwf : db.wellFormed) (hag : db.countersAgree u) :
    (saveGenerated env db userId title ings text category type original).2.wellFormed ∧
    (saveGenerated env db userId title ings text category type original).2.countersAgree u ∧
    (saveGenerated env db userId title ings text category type original).2.users.map
      (fun x => x.id) = db.users.map (fun x => x.id) := by
  cases userId with
  | none => exact ⟨hwf, hag, rfl⟩
  | some v =>
    by_cases hv : (Recipe.create db.nextId env.now v title ings text category type
        original).valid = true
    · have hdb : (saveGenerated env db (some v) title ings text category type original).2
          = { recipes := db.recipes ++ [Recipe.create db.nextId env.now v title ings text
                category type original],
              users := updateFirst (fun x => x.id == v)
                (fun x => { x with recipesGenerated := x.recipesGenerated + 1 }) db.users,
              nextId := db.nextId + 1 } := by
        simp only [saveGenerated, hcalm, hv, Option.isSome_none, Bool.not_true, Bool.or_self,
          Bool.false_eq_true, if_false, Db.updateUser, Db.insertRecipe]
      rw [hdb]
      obtain ⟨hids, husers, hfresh⟩ := hwf
      refine ⟨⟨?_, ?_, ?_⟩, ?_, ?_⟩
      · simp only [List.map_append, List.map_cons, List.map_nil]
        rw [List.nodup_append]
        refine ⟨hids, by simp, ?_⟩
        intro a ha hb
        simp only [Recipe.create, List.mem_singleton] at hb
        obtain ⟨x, hx, hxa⟩ := List.mem_map.mp ha
        have := hfresh x hx
        omega
      · simp only
        rw [updateFirst_keys (fun x : User => x.id) _ _ (by intro x; rfl)]
        exact husers
      · intro r hr
        simp only [List.mem_append, List.mem_singleton] at hr
        rcases hr with hr | rfl
        · exact Nat.lt_succ_of_lt (hfresh r hr)
        · simp [Recipe.create]
      · apply countersAgree_update db _ _ u v _ husers hag (by intro x; rfl)
        · intro hvu
          have hb : (v == u) = false := by simpa using hvu
          simp [Db.countRecipes, Db.countFavorites, Recipe.create, List.filter_append, hb]
        · intro hvu x hx hxu
          obtain ⟨h1, h2⟩ := hag x hx hxu
          simp [Db.countRecipes, Db.countFavorites, Recipe.create, List.filter_append, hvu,
            h1, h2]
      · exact updateFirst_keys (fun x : User => x.id) _ _ (by intro x; rfl) db.users
    · have hdb : (saveGenerated env db (some v) title ings text category type original).2
          = { db with nextId := db.nextId + 1 } := by
        simp only [saveGenerated, hcalm, hv, Option.isSome_none, Bool.not_false, Bool.or_true,
          if_true]
      rw [hdb]
      exact ⟨⟨hwf.1, hwf.2.1, fun r hr => Nat.lt_succ_of_lt (hwf.2.2 r hr)⟩, hag, rfl⟩

theorem generateRecipe_keeps (env : Env) (db : Db) (u : Nat) (userId : Option Nat)
    (body : GenerateBody) (hcalm : ∀ op, env.storeError op = none)
    (hwf : db.wellFormed) (hag : db.countersAgree u) :
    (generateRecipe env db userId body).db.wellFormed ∧
    (generateRecipe env db userId body).db.countersAgree u ∧
    (generateRecipe env db userId body).db.users.map (fun x => x.id)
      = db.users.map (fun x => x.id) := by
  rcases hg : generateText env.backend (buildPrompts body).1 with ⟨res, inv⟩
  cases res with
  | error e =>
    have hdb : (generateRecipe env db userId body).db = db := by
      simp only [generateRecipe, hg]
    rw [hdb]
    exact ⟨hwf, hag, rfl⟩
  | ok text =>
    have hdb : (generateRecipe env db userId body).db
        = (saveGenerated env db userId (extractRecipeTitle text)
            (if body.type = "ingredients".toList then body.ingredients
              else extractIngredients text)
            text (detectRecipeCategory (extractRecipeTitle text) text) body.type
            (buildPrompts body).2).2 := by
      simp only [generateRecipe, hg]
    rw [hdb]
    exact saveGenerated_keeps env db u userId _ _ _ _ _ _ hcalm hwf hag


theorem toggleFavorite_keeps (env : Env) (db : Db) (u v r : Nat)
    (hcalm : ∀ op, env.storeError op = none)
    (hwf : db.wellFormed) (hag : db.countersAgree u) :
    (toggleFavorite env db v r).2.wellFormed ∧
    (toggleFavorite env db v r).2.countersAgree u ∧
    (toggleFavorite env db v r).2.users.map (fun x => x.id)
      = db.users.map (fun x => x.id) := by
  cases hfind : db.findOneRecipe r v with
  | none =>
    have hdb : (toggleFavorite env db v r).2 = db := by
      simp only [toggleFavorite, hcalm, hfind]
    rw [hdb]
    exact ⟨hwf, hag, rfl⟩
  | some recipe =>
    obtain ⟨hids, husers, hfresh⟩ := hwf
    obtain ⟨hmem, hid, huser⟩ := findOneRecipe_some db r v recipe hfind
    have hown := owned_of_id db r v recipe hids hfind
    have hdb : (toggleFavorite env db v r).2
        = { recipes := updateFirst (fun x => x.id == r)
              (fun _ => { recipe with isFavorite := !recipe.isFavorite, updatedAt := env.now })
              db.recipes,
            users := updateFirst (fun x => x.id == v)
              (fun x => { x with favoriteRecipes :=
                ((updateFirst (fun x => x.id == r)
                  (fun _ => { recipe with isFavorite := !recipe.isFavorite,
                                          updatedAt := env.now })
                  db.recipes).filter (fun x => x.user == v && x.isFavorite)).length })
              db.users,
            nextId := db.nextId } := by
      simp only [toggleFavorite, hcalm, hfind, Db.updateUser, Db.replaceRecipe,
        Db.countFavorites, hid]
    rw [hdb]
    have hkeys : (updateFirst (fun x => x.id == r)
        (fun _ => { recipe with isFavorite := !recipe.isFavorite, updatedAt := env.now })
        db.recipes).map (fun x => x.id) = db.recipes.map (fun x => x.id) := by
      apply updateFirst_keys_on
      intro x _ hx
      simp only [beq_iff_eq] at hx
      simp only [hid, hx]
    have hcount : ∀ w, ((updateFirst (fun x => x.id == r)
        (fun _ => { recipe with isFavorite := !recipe.isFavorite, updatedAt := env.now })
        db.recipes).filter (fun x => x.user == w)).length = db.countRecipes w := by
      intro w
      apply filter_updateFirst_length
      intro x hx hxr
      simp only [beq_iff_eq] at hxr
      rw [hown x hx hxr]
    refine ⟨⟨?_, ?_, ?_⟩, ?_, ?_⟩
    · simp only
      rw [hkeys]; exact hids
    · simp only
      rw [updateFirst_keys (fun x : User => x.id) _ _ (by intro x; rfl)]
      exact husers
    · exact fresh_of_ids _ _ _ hkeys hfresh
    · apply countersAgree_update db _ _ u v _ husers hag (by intro x; rfl)
      · intro hvu
        refine ⟨hcount u, ?_⟩
        apply filter_updateFirst_length
        intro x hx hxr
        simp only [beq_iff_eq] at hxr
        rw [hown x hx hxr]
        have hb : (recipe.user == u) = false := by
          rw [huser]; simpa using hvu
        simp [hb]
      · intro hvu x hx hxu
        subst hvu
        exact ⟨((hag x hx hxu).1).trans (hcount v).symm, rfl⟩
    · exact updateFirst_keys (fun x : User => x.id) _ _ (by intro x; rfl) db.users

theorem deleteRecipe_keeps (env : Env) (db : Db) (u v r : Nat)
    (hcalm : ∀ op, env.storeError op = none)
    (hwf : db.wellFormed) (hag : db.countersAgree u) :
    (deleteRecipe env db v r).2.wellFormed ∧
    (deleteRecipe env db v r).2.countersAgree u ∧
    (deleteRecipe env db v r).2.users.map (fun x => x.id)
      = db.users.map (fun x => x.id) := by
  cases hfind : db.findOneRecipe r v with
  | none =>
    have hdb : (deleteRecipe env db v r).2 = db := by
      simp only [deleteRecipe, hcalm, hfind]
    rw [hdb]
    exact ⟨hwf, hag, rfl⟩
  | some recipe =>
    obtain ⟨hids, husers, hfresh⟩ := hwf
    have hdb : (deleteRecipe env db v r).2
        = { recipes := deleteFirst (fun x => x.id == r && x.user == v) db.recipes,
            users := updateFirst (fun x => x.id == v)
              (fun x => { x with
                recipesGenerated :=
                  ((deleteFirst (fun x => x.id == r && x.user == v) db.recipes).filter
                    (fun x => x.user == v)).length,
                favoriteRecipes :=
                  ((deleteFirst (fun x => x.id == r && x.user == v) db.recipes).filter
                    (fun x => x.user == v && x.isFavorite)).length })
              db.users,
            nextId := db.nextId } := by
      simp only [deleteRecipe, hcalm, hfind, Db.updateUser, Db.deleteOneRecipe,
        Db.countFavorites, Db.countRecipes]
    rw [hdb]
    have hsub := deleteFirst_sublist (fun x : Recipe => x.id == r && x.user == v) db.recipes
    refine ⟨⟨?_, ?_, ?_⟩, ?_, ?_⟩
    · exact hids.sublist (hsub.map _)
    · simp only
      rw [updateFirst_keys (fun x : User => x.id) _ _ (by intro x; rfl)]
      exact husers
    · intro x hx
      exact hfresh x (hsub.subset hx)
    · apply countersAgree_update db _ _ u v _ husers hag (by intro x; rfl)
      · intro hvu
        constructor
        · apply filter_deleteFirst_length
          intro x _ hq
          simp only [Bool.and_eq_true, beq_iff_eq] at hq
          rw [hq.2]; simpa using hvu
        · apply filter_deleteFirst_length
          intro x _ hq
          simp only [Bool.and_eq_true, beq_iff_eq] at hq
          have hb : (x.user == u) = false := by
            rw [hq.2]; simpa using hvu
          simp [hb]
      · intro hvu x hx hxu
        subst hvu
        exact ⟨rfl, rfl⟩
    · exact updateFirst_keys (fun x : User => x.id) _ _ (by intro x; rfl) db.users

theorem serveAll_keeps (u : Nat) :
    ∀ (steps : List (Env × Action)) (db : Db),
      (∀ s ∈ steps, ∀ op, s.1.storeError op = none) →
      db.wellFormed → db.countersAgree u →
      (serveAll db steps).countersAgree u ∧
      (serveAll db steps).users.map (fun x => x.id) = db.users.map (fun x => x.id) := by
  intro steps
  induction steps with
  | nil => intro db _ _ hag; exact ⟨hag, rfl⟩
  | cons s rest ih =>
    intro db hcalm hwf hag
    obtain ⟨env, action⟩ := s
    have hc : ∀ op, env.storeError op = none := hcalm (env, action) (List.mem_cons_self _ _)
    have hstep : (action.serve env db).wellFormed ∧ (action.serve env db).countersAgree u ∧
        (action.serve env db).users.map (fun x => x.id) = db.users.map (fun x => x.id) := by
      cases action with
      | generate userId body => exact generateRecipe_keeps env db u userId body hc hwf hag
      | toggle v r => exact toggleFavorite_keeps env db u v r hc hwf hag
      | delete v r => exact deleteRecipe_keeps env db u v r hc hwf hag
    obtain ⟨h1, h2⟩ := ih (action.serve env db)
      (fun s hs => hcalm s (List.mem_cons_of_mem _ hs)) hstep.1 hstep.2.1
    exact ⟨h1, h2.trans hstep.2.2⟩


theorem busyDay_calm : ∀ s ∈ busyDay, ∀ op, s.1.storeError op = none := by
  intro s hs op
  simp only [busyDay, List.mem_cons, List.mem_singleton, List.not_mem_nil, or_false] at hs
  rcases hs with rfl | rfl | rfl | rfl <;> rfl

theorem insertNewestFirst_perm (r : Recipe) :
    ∀ l : List Recipe, (insertNewestFirst r l).Perm (r :: l) := by
  intro l
  induction l with
  | nil => exact List.Perm.refl _
  | cons x xs ih =>
    simp only [insertNewestFirst]
    split
    · exact ((List.Perm.cons x ih).trans (List.Perm.swap r x xs))
    · exact List.Perm.refl _

theorem sortNewestFirst_perm : ∀ l : List Recipe, (sortNewestFirst l).Perm l := by
  intro l
  induction l with
  | nil => exact List.Perm.refl _
  | cons x xs ih =>
    simp only [sortNewestFirst]
    exact (insertNewestFirst_perm x _).trans (List.Perm.cons x ih)

theorem insertNewestFirst_sorted (r : Recipe) :
    ∀ l : List Recipe, l.Pairwise (fun a b => b.createdAt ≤ a.createdAt) →
      (insertNewestFirst r l).Pairwise (fun a b => b.createdAt ≤ a.createdAt) := by
  intro l
  induction l with
  | nil => intro _; simp [insertNewestFirst]
  | cons x xs ih =>
    intro h
    rw [List.pairwise_cons] at h
    simp only [insertNewestFirst]
    split
    · rename_i hlt
      rw [List.pairwise_cons]
      refine ⟨?_, ih h.2⟩
      intro y hy
      have := (insertNewestFirst_perm r xs).subset hy
      rcases List.mem_cons.mp this with rfl | hy
      · exact Nat.le_of_lt hlt
      · exact h.1 y hy
    · rename_i hge
      rw [List.pairwise_cons]
      refine ⟨?_, List.pairwise_cons.mpr h⟩
      intro y hy
      rcases List.mem_cons.mp hy with rfl | hy
      · omega
      · have := h.1 y hy
        omega

theorem sortNewestFirst_sorted :
    ∀ l : List Recipe, (sortNewestFirst l).Pairwise (fun a b => b.createdAt ≤ a.createdAt) := by
  intro l
  induction l with
  | nil => simp [sortNewestFirst]
  | cons x xs ih =>
    simp only [sortNewestFirst]
    exact insertNewestFirst_sorted x _ ih

theorem ceilDiv_bounds (total l : Nat) (hl : 1 ≤ l) :
    ∃ pages : Nat, ceilDiv total (l : Int) = (pages : Int) ∧ total ≤ pages * l ∧
      (0 < total → (pages - 1) * l < total) ∧ (total = 0 → pages = 0) := by
  have hl0 : (0 : Int) ≤ (l : Int) := Int.ofNat_nonneg l
  have hlpos : (0 : Int) < (l : Int) := by exact_mod_cast hl
  have hdiv : ceilDiv total (l : Int) = -((-(total : Int)) / (l : Int)) := by
    simp only [ceilDiv, Int.fdiv_eq_ediv _ hl0]
  have h1 := Int.emod_add_ediv (-(total : Int)) (l : Int)
  have h2 := Int.emod_nonneg (-(total : Int)) (ne_of_gt hlpos)
  have h3 := Int.emod_lt_of_pos (-(total : Int)) hlpos
  set q := (-(total : Int)) / (l : Int) with hq
  set r := (-(total : Int)) % (l : Int) with hr
  have hqle : q ≤ 0 := by
    by_contra hcon
    have : 1 ≤ q := by omega
    have : (l : Int) * 1 ≤ (l : Int) * q := Int.mul_le_mul_of_nonneg_left this hl0
    have ht : (0 : Int) ≤ (total : Int) := Int.ofNat_nonneg total
    omega
  refine ⟨(-q).toNat, ?_, ?_, ?_, ?_⟩
  · rw [hdiv, Int.toNat_of_nonneg (by omega)]
  · have : ((total : Int)) ≤ ((-q).toNat : Int) * (l : Int) := by
      rw [Int.toNat_of_nonneg (by omega)]
      nlinarith
    exact_mod_cast this
  · intro hpos
    have hq1 : q ≤ -1 := by
      by_contra hcon
      have hq0 : q = 0 := by omega
      rw [hq0] at h1
      have ht : (0 : Int) < (total : Int) := by exact_mod_cast hpos
      omega
    have : (((-q).toNat : Int) - 1) * (l : Int) < (total : Int) := by
      rw [Int.toNat_of_nonneg (by omega)]
      nlinarith
    have h4 : (((-q).toNat - 1 : Nat) : Int) = ((-q).toNat : Int) - 1 := by
      have : 1 ≤ (-q).toNat := by omega
      omega
    have : ((((-q).toNat - 1 : Nat) : Int)) * (l : Int) < (total : Int) := by
      rw [h4]; exact this
    exact_mod_cast this
  · intro h0
    have : (total : Int) = 0 := by exact_mod_cast h0
    have hq0 : q = 0 := by
      by_contra hcon
      have : q ≤ -1 := by omega
      nlinarith
    omega


theorem admits_iff (query : RecipesQuery) (u : Nat) (r : Recipe) :
    (query.filter u).admits r = true ↔
      r.user = u ∧ (∀ c, query.category = some c → c ≠ [] → r.category = c) ∧
      (query.favorite = some "true".toList → r.isFavorite = true) := by
  rcases query with ⟨page, limit, category, favorite⟩
  have hfav : ((!(favorite == some "true".toList) || r.isFavorite) = true) ↔
      (favorite = some "true".toList → r.isFavorite = true) := by
    by_cases hf : favorite = some "true".toList
    · simp [hf]
    · have hb : (favorite == some "true".toList) = false := beq_eq_false_iff_ne.mpr hf
      rw [hb]
      exact ⟨fun _ h => absurd h hf, fun _ => rfl⟩
  simp only [RecipeFilter.admits, RecipesQuery.filter, Bool.and_eq_true, beq_iff_eq, hfav,
    and_assoc]
  refine and_congr Iff.rfl (and_congr ?_ Iff.rfl)
  cases category with
  | none => simp
  | some c =>
    by_cases hc : c = []
    · simp [hc]
    · simp [hc]

theorem countRecipes_eq (db : Db) (u : Nat) :
    db.countRecipes u = (db.recipes.filter (fun y => decide (y.user = u))).length := by
  rfl

theorem countFavorites_eq (db : Db) (u : Nat) :
    db.countFavorites u
      = (db.recipes.filter (fun y => decide (y.user = u ∧ y.isFavorite = true))).length := by
  unfold Db.countFavorites
  congr 1
  apply List.filter_congr
  intro x _
  by_cases h : x.user = u <;> simp [h]

theorem saveGenerated_outcome (env : Env) (db : Db) (u : Nat) (title : Str)
    (ings : List Str) (text category type original : Str) :
    (saveGenerated env db (some u) title ings text category type original).1 =
      if (Recipe.create db.nextId env.now u title ings text category type original).valid
      then .stamped (Recipe.create db.nextId env.now u title ings text category type original)
      else .unstamped := by
  simp only [saveGenerated]
  split_ifs <;> simp_all

theorem generateRecipe_response (env : Env) (db : Db) (userId : Option Nat)
    (body : GenerateBody) (text : Str) (invoked : List Str)
    (hgen : generateText env.backend (buildPrompts body).1 = (.ok text, invoked)) :
    (generateRecipe env db userId body).response =
      match (saveGenerated env db userId (extractRecipeTitle text)
        (if body.type = "ingredients".toList then body.ingredients
          else extractIngredients text)
        text (detectRecipeCategory (extractRecipeTitle text) text) body.type
        (buildPrompts body).2).1 with
      | .unstamped => generateRecipeCatch env createdAtUnset
      | .null =>
        { status := 200
          body := .obj [("success", .bool true),
            ("data", .obj [("text", .str text), ("recipe", .null),
              ("cached", .bool false)])] }
      | .stamped savedRecipe =>
        { status := 200
          body := .obj [("success", .bool true),
            ("data", .obj [("text", .str text), ("recipe", .doc savedRecipe),
              ("cached", .bool false)])] } := by
  simp only [generateRecipe, hgen]

theorem generateRecipe_response_caller (env : Env) (db : Db) (u : Nat)
    (body : GenerateBody) (text : Str) (invoked : List Str)
    (hgen : generateText env.backend (buildPrompts body).1 = (.ok text, invoked)) :
    (generateRecipe env db (some u) body).response =
      if (Recipe.create db.nextId env.now u (extractRecipeTitle text)
          (if body.type = "ingredients".toList then body.ingredients
            else extractIngredients text)
          text (detectRecipeCategory (extractRecipeTitle text) text) body.type
          (buildPrompts body).2).valid = true then
        { status := 200
          body := .obj [("success", .bool true),
            ("data", .obj [("text", .str text),
              ("recipe", .doc (Recipe.create db.nextId env.now u (extractRecipeTitle text)
                (if body.type = "ingredients".toList then body.ingredients
                  else extractIngredients text)
                text (detectRecipeCategory (extractRecipeTitle text) text) body.type
                (buildPrompts body).2)),
              ("cached", .bool false)])] }
      else generateRecipeCatch env createdAtUnset := by
  rw [generateRecipe_response env db (some u) body text invoked hgen, saveGenerated_outcome]
  split_ifs <;> rfl

theorem createdAtUnset_status (env : Env) :
    (generateRecipeCatch env createdAtUnset).status = 500 := by
  have h1 : (includes createdAtUnset.message "API key".toList ||
      includes createdAtUnset.message "API_KEY".toList) = false := by decide
  have h2 : (includes createdAtUnset.message "model".toList ||
      includes createdAtUnset.message "Model".toList ||
      includes createdAtUnset.message "not found".toList ||
      includes createdAtUnset.message "404".toList) = false := by decide
  have h3 : (includes createdAtUnset.message "quota".toList ||
      includes createdAtUnset.message "QUOTA".toList ||
      includes createdAtUnset.message "429".toList) = false := by decide
  simp only [generateRecipeCatch, h1, h2, h3, Bool.false_eq_true, ↓reduceIte]

theorem ofInt_exact (n : Int) (h : n.natAbs ≤ 2 ^ 53) : JsNumber.ofInt n = .int n := by
  unfold JsNumber.ofInt roundToDouble
  rw [if_pos h]
  simp only
  congr 1
  split
  · omega
  · omega

theorem parseInt_rounds_to_double :
    parseInt "9007199254740993".toList = .int 9007199254740992 ∧
    parseInt "9007199254740995".toList = .int 9007199254740996 ∧
    parseInt "12abc".toList = .int 12 ∧
    parseInt " -0x1F".toList = .int (-31) ∧
    parseInt "abc".toList = .nan ∧
    parseInt [] = .nan := by
  refine ⟨by decide, by decide, by decide, by decide, by decide, by decide⟩

/-- The four classes of the `catch` block of `generateRecipe`, in the order in which the code
tests them: an API-key problem, an unavailable model, an exceeded quota, anything else. -/
theorem generateRecipeCatch_mapping (env : Env) (error : JsError) :
    (mentionsApiKey error.message = true →
      generateRecipeCatch env error =
        { status := 500
          body := .obj [("success", .bool false),
            ("message", .str "AI service configuration error - Invalid API key".toList)] }) ∧
    (mentionsApiKey error.message = false → mentionsModel error.message = true →
      generateRecipeCatch env error =
        { status := 500
          body := .obj [("success", .bool false),
            ("message", .str
              "AI model not available. Please try again later or contact support.".toList)] }) ∧
    (mentionsApiKey error.message = false → mentionsModel error.message = false →
      mentionsQuota error.message = true →
      generateRecipeCatch env error =
        { status := 429
          body := .obj [("success", .bool false),
            ("message", .str
              "AI service quota exceeded. Please try again in a few minutes.".toList),
            ("retryAfter", .num 60)] }) ∧
    (mentionsApiKey error.message = false → mentionsModel error.message = false →
      mentionsQuota error.message = false →
      generateRecipeCatch env error =
        { status := 500
          body := .obj [("success", .bool false),
            ("message", .str "Failed to generate recipe".toList),
            ("error", .str (if env.nodeEnv = "development".toList then error.message
              else "Internal server error".toList))] }) := by
  refine ⟨?_, ?_, ?_, ?_⟩
  · intro h1
    simp only [mentionsApiKey] at h1
    simp only [generateRecipeCatch, h1, if_true]
  · intro h1 h2
    simp only [mentionsApiKey, mentionsModel] at h1 h2
    simp only [generateRecipeCatch, h1, h2, Bool.false_eq_true, ↓reduceIte]
  · intro h1 h2 h3
    simp only [mentionsApiKey, mentionsModel, mentionsQuota] at h1 h2 h3
    simp only [generateRecipeCatch, h1, h2, h3, Bool.false_eq_true, ↓reduceIte]
  · intro h1 h2 h3
    simp only [mentionsApiKey, mentionsModel, mentionsQuota] at h1 h2 h3
    simp only [generateRecipeCatch, h1, h2, h3, Bool.false_eq_true, ↓reduceIte]

/-! ## Lemmas on the prompt -/

theorem buildPrompts_ingredients (body : GenerateBody)
    (htype : body.type = "ingredients".toList) :
    (buildPrompts body).1 =
      ingredientsPrompt body.ingredients (body.servings.or (.num 4)) (body.time.or .null)
        (if (body.time.or .null).truthy then timeInstructionText (body.time.or .null)
          else []) := by
  have hne : ¬ body.type = "direct".toList := by
    rw [htype]; decide
  simp only [buildPrompts, hne, if_false]

theorem or_null_of_truthy (t : JsVal) (h : t.truthy = true) : t.or .null = t := by
  simp [JsVal.or, h]

theorem or_null_of_falsy (t : JsVal) (h : t.truthy = false) : t.or .null = .null := by
  simp [JsVal.or, h]

set_option maxHeartbeats 4000000 in
theorem prompt_has_ingredients (ings : List Str) (N L : JsVal) (ti : Str) :
    join ", ".toList ings <:+: ingredientsPrompt ings N L ti := by
  simp only [ingredientsPrompt]
  simp only [List.append_assoc]
  repeat (first
    | (refine List.IsPrefix.isInfix ?_
       with_reducible exact List.prefix_append _ _)
    | refine contained_skip _ ?_)

set_option maxHeartbeats 4000000 in
theorem prompt_has_servings (ings : List Str) (N L : JsVal) (ti : Str) :
    " that serves exactly ".toList ++ N.toStr ++ " people.".toList <:+: ingredientsPrompt ings N L ti := by
  simp only [ingredientsPrompt]
  simp only [List.append_assoc]
  repeat (first
    | (refine List.IsPrefix.isInfix ?_
       simp only [List.prefix_append_right_inj]
       with_reducible exact List.prefix_append _ _)
    | refine contained_skip _ ?_)

set_option maxHeartbeats 4000000 in
theorem prompt_has_timeInstruction (ings : List Str) (N L : JsVal) (ti : Str) :
    ti <:+: ingredientsPrompt ings N L ti := by
  simp only [ingredientsPrompt]
  simp only [List.append_assoc]
  repeat (first
    | (refine List.IsPrefix.isInfix ?_
       with_reducible exact List.prefix_append _ _)
    | refine contained_skip _ ?_)

set_option maxHeartbeats 4000000 in
theorem prompt_has_prep (ings : List Str) (N L : JsVal) (ti : Str)
    (ht : L.truthy = true) :
    "**Prep Time**: Estimated preparation time".toList ++ " (keep within the ".toList ++ L.toStr ++
      "-minute total time constraint)".toList <:+: ingredientsPrompt ings N L ti := by
  simp only [ingredientsPrompt, ht, if_true]
  rw [show "                  **Prep Time**: Estimated preparation time".toList
      = "                  ".toList ++ "**Prep Time**: Estimated preparation time".toList from by decide]
  simp only [List.append_assoc]
  repeat (first
    | (refine List.IsPrefix.isInfix ?_
       simp only [List.prefix_append_right_inj]
       with_reducible exact List.prefix_append _ _)
    | refine contained_skip _ ?_)

set_option maxHeartbeats 4000000 in
theorem prompt_has_cook (ings : List Str) (N L : JsVal) (ti : Str)
    (ht : L.truthy = true) :
    "**Cook Time**: Estimated cooking time".toList ++ " (keep within the ".toList ++ L.toStr ++
      "-minute total time constraint)".toList <:+: ingredientsPrompt ings N L ti := by
  simp only [ingredientsPrompt, ht, if_true]
  rw [show "                  **Cook Time**: Estimated cooking time".toList
      = "                  ".toList ++ "**Cook Time**: Estimated cooking time".toList from by decide]
  simp only [List.append_assoc]
  repeat (first
    | (refine List.IsPrefix.isInfix ?_
       simp only [List.prefix_append_right_inj]
       with_reducible exact List.prefix_append _ _)
    | refine contained_skip _ ?_)

set_option maxHeartbeats 4000000 in
theorem prompt_has_total (ings : List Str) (N L : JsVal) (ti : Str)
    (ht : L.truthy = true) :
    "**Total Time**: Combined time".toList ++ " (should not exceed ".toList ++ L.toStr ++
      " minutes)".toList <:+: ingredientsPrompt ings N L ti := by
  simp only [ingredientsPrompt, ht, if_true]
  rw [show "                  **Total Time**: Combined time".toList
      = "                  ".toList ++ "**Total Time**: Combined time".toList from by decide]
  simp only [List.append_assoc]
  repeat (first
    | (refine List.IsPrefix.isInfix ?_
       simp only [List.prefix_append_right_inj]
       with_reducible exact List.prefix_append _ _)
    | refine contained_skip _ ?_)

set_option maxHeartbeats 4000000 in
theorem prompt_without_limit (ings : List Str) (N : JsVal) :
    ingredientsPrompt ings N .null [] = noLimitTemplate (join ", ".toList ings) N.toStr := by
  have hn : JsVal.null.truthy = false := rfl
  simp only [ingredientsPrompt, noLimitTemplate, promptPiece0, promptPiece1, promptPiece2,
    promptPiece3, promptPiece4, promptPiece5, promptPiece6, promptPiece7, hn,
    Bool.false_eq_true, if_false, List.append_assoc, List.append_nil, List.nil_append]

set_option maxRecDepth 100000 in
theorem pieces_without_limit_words :
    ∀ piece ∈ noLimitPieces, ∀ word ∈ timeLimitWords, includes piece word = false := by
  intro piece hpiece word hword
  simp only [noLimitPieces, List.mem_cons, List.mem_singleton, List.not_mem_nil,
    or_false] at hpiece
  simp only [timeLimitWords, List.mem_cons, List.mem_singleton, List.not_mem_nil,
    or_false] at hword
  rcases hpiece with h | h | h | h | h | h | h | h <;> subst h <;>
    rcases hword with w | w | w | w | w | w <;> subst w <;> decide

theorem generateRecipeValidation_ingredients (body : GenerateBody)
    (htype : body.type = "ingredients".toList) :
    generateRecipeValidation body = decide (1 ≤ body.ingredients.length) := by
  have hne : ¬ body.type = "direct".toList := by
    rw [htype]; decide
  simp only [generateRecipeValidation, htype, if_true]
  simp

set_option maxRecDepth 100000 in
theorem fifty_toStr : (JsVal.num 50).toStr = "50".toList := by decide

set_option maxRecDepth 100000 in
theorem four_toStr : (JsVal.num 4).toStr = "4".toList := by decide

/-! ## Theorems -/

/-- C1: if the first `M` models of `modelOptions` reject and the call of model `M+1`
resolves, then the models invoked are exactly the first `M+1` of the list, in list order, and
the handler goes on with the outcome of `response.text()` on the result of model `M+1`. When
that outcome is `text`: a response with status 200 carries `text`; the status is 200 when there
is no caller, and for a caller when the document built passes the validators of the schema;
when it does not, the response is the 500 that the `catch` block makes of the error thrown
while the document is serialised. When `response.text()` throws instead (a blocked response),
no further model is tried, the `catch` block answers for that error and nothing is stored. -/
theorem generateRecipe_fallback (env : Env) (db : Db) (userId : Option Nat)
    (body : GenerateBody) (M : Nat) (m : Str) (result : GenerateContentResult)
    (hfail : ∀ x ∈ modelOptions.take M, ∃ e, env.backend x (buildPrompts body).1 = .error e)
    (hm : modelOptions[M]? = some m)
    (hok : env.backend m (buildPrompts body).1 = .ok result) :
    M < 6 ∧
    generateText env.backend (buildPrompts body).1 = (result, modelOptions.take (M + 1)) ∧
    (generateRecipe env db userId body).invoked = modelOptions.take (M + 1) ∧
    (generateRecipe env db userId body).invoked.length = M + 1 ∧
    (∀ text : Str, result = .ok text →
      ((generateRecipe env db userId body).response.status = 200 →
        ((generateRecipe env db userId body).response.body.field "data").bind
          (fun data => data.field "text") = some (.str text)) ∧
      (userId = none → (generateRecipe env db userId body).response.status = 200) ∧
      (∀ u : Nat, userId = some u →
        ((Recipe.create db.nextId env.now u (extractRecipeTitle text)
          (if body.type = "ingredients".toList then body.ingredients
            else extractIngredients text)
          text (detectRecipeCategory (extractRecipeTitle text) text) body.type
          (buildPrompts body).2).valid = true →
          (generateRecipe env db userId body).response.status = 200) ∧
        ((Recipe.create db.nextId env.now u (extractRecipeTitle text)
          (if body.type = "ingredients".toList then body.ingredients
            else extractIngredients text)
          text (detectRecipeCategory (extractRecipeTitle text) text) body.type
          (buildPrompts body).2).valid = false →
          (generateRecipe env db userId body).response
            = generateRecipeCatch env createdAtUnset ∧
          (generateRecipe env db userId body).response.status = 500))) ∧
    (∀ error : JsError, result = .error error →
      (generateRecipe env db userId body).response = generateRecipeCatch env error ∧
      (generateRecipe env db userId body).db = db) := by
  have hM : M < 6 := by
    have := (List.getElem?_eq_some.mp hm).1
    simpa [modelOptions] using this
  have h := modelLoop_success env.backend (buildPrompts body).1 result modelOptions M m
    { result := none, lastError := none, invoked := [] } hfail hm hok
  have hgen : generateText env.backend (buildPrompts body).1
      = (result, modelOptions.take (M + 1)) := by
    simp only [generateText, h.1, h.2, List.nil_append]
  have hinv : (generateRecipe env db userId body).invoked = modelOptions.take (M + 1) := by
    cases result with
    | error e => simp only [generateRecipe, hgen]
    | ok text => simp only [generateRecipe, hgen]
  refine ⟨hM, hgen, hinv, ?_, ?_, ?_⟩
  · rw [hinv]
    simp [modelOptions]
    omega
  rotate_left
  · intro error herror
    subst herror
    simp only [generateRecipe, hgen, and_self]
  · intro text htext
    subst htext
    have hresp := generateRecipe_response env db userId body text _ hgen
    have h500 := createdAtUnset_status env
    refine ⟨?_, ?_, ?_⟩
    · intro h200
      cases userId with
      | none =>
        rw [hresp]
        simp only [saveGenerated]
        simp [Json.field, List.lookup]
      | some u =>
        rw [generateRecipe_response_caller env db u body text _ hgen] at h200 ⊢
        split_ifs at h200 ⊢ <;>
          first
          | (rw [h500] at h200
             exact absurd h200 (by decide))
          | simp [Json.field, List.lookup]
    · intro hnone
      subst hnone
      rw [hresp]
      simp only [saveGenerated]
    · intro u hu
      subst hu
      refine ⟨?_, ?_⟩
      · intro hvalid
        rw [generateRecipe_response_caller env db u body text _ hgen, if_pos hvalid]
      · intro hvalid
        have hr : (generateRecipe env db (some u) body).response
            = generateRecipeCatch env createdAtUnset := by
          rw [generateRecipe_response_caller env db u body text _ hgen,
            if_neg (by rw [hvalid]; decide)]
        exact ⟨hr, hr ▸ h500⟩

/-- Witness of C1: with `flakyBackend` the first two models reject and the third answers. -/
theorem generateRecipe_fallback_witness :
    (generateRecipe (calmEnv flakyBackend) freshDb none
      { type := "direct".toList, prompt := "soup".toList, ingredients := [],
        servings := .num 2, time := .undefined }).invoked
      = ["gemini-flash-latest".toList, "gemini-2.5-flash".toList, "gemini-2.0-flash".toList] :=
  (generateRecipe_fallback (calmEnv flakyBackend) freshDb none
    { type := "direct".toList, prompt := "soup".toList, ingredients := [],
      servings := .num 2, time := .undefined } 2 "gemini-2.0-flash".toList
    (.ok "Tomato Soup\nIngredients:\n- tomato".toList)
    (by
      intro x hx
      refine ⟨{ name := "Error".toList, message := "503 Service Unavailable".toList }, ?_⟩
      have hx2 : x = "gemini-flash-latest".toList ∨ x = "gemini-2.5-flash".toList := by
        simpa [modelOptions] using hx
      rcases hx2 with h | h <;> subst h <;> rfl)
    (by decide) rfl).2.2.1

/-- C2: `extractRecipeTitle` agrees with its reference definition on every text, and on
`**Spicy Ramen**`, `Ingredients:`, `- noodles` (three lines) it returns `Spicy Ramen`. -/
theorem extractRecipeTitle_eq_reference :
    (∀ text : Str, extractRecipeTitle text = titleReference text) ∧
    extractRecipeTitle "**Spicy Ramen**\nIngredients:\n- noodles".toList
      = "Spicy Ramen".toList := by
  refine ⟨?_, by decide⟩
  intro text
  simp only [extractRecipeTitle, titleReference]
  exact extractRecipeTitleLoop_eq _

/-- C3, as stated, fails: in `twoPartRecipe` the entry `soy` comes from a line that lies after
the first line containing `instructions:`, so the window of the claim yields `flour` alone
while `extractIngredients` returns `flour` and `soy`. -/
theorem entry_after_a_line_with_both_markers :
    extractIngredients twoPartRecipe = ["flour".toList, "soy".toList] ∧
    (claimedWindow (split '\n' twoPartRecipe)).filterMap capturedEntry = ["flour".toList] := by
  refine ⟨by decide, by decide⟩

/-- C3, amended: the entries `extractIngredients` collects are, in line order, the entries of
the lines of the window that opens after the first line containing `ingredients:` and closes
before the first line that contains `instructions:` or `directions:` and does not contain
`ingredients:`; lines that contain `ingredients:` and lines outside the window contribute
nothing, every bullet or numbered line of the window with non-empty content contributes exactly
its content (only a bare `-` or `•` has empty content), and the fallback list is returned when
nothing is collected. -/
theorem extractIngredients_window (text : Str) :
    extractIngredientsLoop (split '\n' text) false []
      = (loopWindow (split '\n' text)).filterMap capturedEntry ∧
    extractIngredients text =
      (if (loopWindow (split '\n' text)).filterMap capturedEntry = []
        then ["Mixed ingredients".toList]
        else (loopWindow (split '\n' text)).filterMap capturedEntry) ∧
    (∀ line : Str, isBulletOrNumbered line = true → lineContent line ≠ [] →
      capturedEntry line = some (lineContent line)) ∧
    (∀ line : Str, isBulletOrNumbered line = true →
      trim line ≠ "-".toList → trim line ≠ "•".toList → lineContent line ≠ []) ∧
    (∀ line : Str, isBulletOrNumbered line = false → capturedEntry line = none) := by
  have h := loop_inactive (split '\n' text) []
  simp only [List.nil_append] at h
  refine ⟨h, ?_, ?_, listItem_content, ?_⟩
  · simp only [extractIngredients, h]
    cases hw : (loopWindow (split '\n' text)).filterMap capturedEntry <;> simp
  · intro line hb hc
    have he : (lineContent line).isEmpty = false := by
      cases hl : lineContent line with
      | nil => exact absurd hl hc
      | cons _ _ => rfl
    simp [capturedEntry, hb, he]
  · intro line hb
    simp [capturedEntry, hb]

/-- C4: evaluation of `extractIngredients` on a section with numbered and bulleted lines. The
marker expression removes a single character, so `1. 2 cups flour` is stored as
`. 2 cups flour` and `10. salt` as `0. salt`; the bullet lines lose their marker. -/
theorem extractIngredients_numbered_lines :
    extractIngredients "Ingredients:\n1. 2 cups flour\n10. salt\n- item\n• item".toList
      = [". 2 cups flour".toList, "0. salt".toList, "item".toList, "item".toList] := by
  decide

/-- C5: `detectRecipeCategory` returns the label of the first of the five pattern sets, in the
order Beverage, Dessert, Breakfast, Snack, Lunch, that matches the lower-cased title; it
returns `Dinner` exactly when none matches; the result is a member of the `enum` of
`recipeSchema.category`; and `Iced Coffee Cake`, which matches both the beverage and the
dessert set, is a `Beverage`. -/
theorem detectRecipeCategory_priority :
    (∀ title body : Str, detectRecipeCategory title body = categoryReference title) ∧
    (∀ title body : Str, detectRecipeCategory title body = "Dinner".toList ↔
      ∀ rule ∈ categoryPriority, rule.2 (toLowerCase title) = false) ∧
    (∀ title body : Str, detectRecipeCategory title body ∈ categoryEnum) ∧
    isBeverage (toLowerCase "Iced Coffee Cake".toList) = true ∧
    isDessert (toLowerCase "Iced Coffee Cake".toList) = true ∧
    detectRecipeCategory "Iced Coffee Cake".toList [] = "Beverage".toList := by
  refine ⟨?_, ?_, ?_, by decide, by decide, by decide⟩
  · intro title body
    simp only [detectRecipeCategory, categoryReference, categoryPriority, List.find?]
    cases isBeverage (toLowerCase title) <;> cases isDessert (toLowerCase title) <;>
      cases isBreakfast (toLowerCase title) <;> cases isSnack (toLowerCase title) <;>
      cases isLunch (toLowerCase title) <;> rfl
  · intro title body
    simp only [detectRecipeCategory, categoryPriority, List.mem_cons, List.mem_singleton,
      List.not_mem_nil, or_false, forall_eq_or_imp, forall_eq]
    cases isBeverage (toLowerCase title) <;> cases isDessert (toLowerCase title) <;>
      cases isBreakfast (toLowerCase title) <;> cases isSnack (toLowerCase title) <;>
      cases isLunch (toLowerCase title) <;> decide
  · intro title body
    simp only [detectRecipeCategory, categoryEnum]
    cases isBeverage (toLowerCase title) <;> cases isDessert (toLowerCase title) <;>
      cases isBreakfast (toLowerCase title) <;> cases isSnack (toLowerCase title) <;>
      cases isLunch (toLowerCase title) <;> decide

/-- C6, as stated, fails: the ingredient ` flour ` of the request is stored as `flour`. -/
theorem padded_ingredient_is_stored_trimmed :
    paddedRequest.type = "ingredients".toList ∧
    (generateRecipe (calmEnv (steadyBackend "Flour Soup".toList)) freshDb (some 1)
      paddedRequest).db.recipes.map (fun r => r.ingredients) = [["flour".toList]] ∧
    [["flour".toList]] ≠ [paddedRequest.ingredients] := by
  refine ⟨by decide, by decide, by decide⟩

/-- C6, amended: for a request of kind `ingredients` by an authenticated caller, the Recipe
that `generateRecipe` persists is owned by the caller and holds the ingredient array of the
request with every element trimmed: same length, same order, `extractIngredients` not applied;
it holds the array itself when no element has whitespace around it. -/
theorem generateRecipe_stores_request_ingredients (env : Env) (db : Db) (u : Nat)
    (body : GenerateBody) (htype : body.type = "ingredients".toList)
    (hstored : (generateRecipe env db (some u) body).db.recipes ≠ db.recipes) :
    ∃ r : Recipe, (generateRecipe env db (some u) body).db.recipes = db.recipes ++ [r] ∧
      r.user = u ∧
      r.ingredients = body.ingredients.map trim ∧
      r.ingredients.length = body.ingredients.length ∧
      ((∀ i ∈ body.ingredients, trim i = i) → r.ingredients = body.ingredients) := by
  rcases hg : generateText env.backend (buildPrompts body).1 with ⟨res, inv⟩
  cases res with
  | error e =>
    simp only [generateRecipe, hg] at hstored
    exact absurd rfl hstored
  | ok text =>
    simp only [generateRecipe, hg, saveGenerated, htype, if_true] at hstored ⊢
    split_ifs at hstored ⊢ with h1 h2 h3
    · exact absurd rfl hstored
    · exact absurd rfl hstored
    · refine ⟨_, rfl, rfl, rfl, by simp [Recipe.create], ?_⟩
      intro hi
      simp only [Recipe.create]
      conv_rhs => rw [← List.map_id body.ingredients]
      exact List.map_congr_left (fun i h => by simpa using hi i h)
    · refine ⟨_, rfl, rfl, rfl, by simp [Recipe.create], ?_⟩
      intro hi
      simp only [Recipe.create]
      conv_rhs => rw [← List.map_id body.ingredients]
      exact List.map_congr_left (fun i h => by simpa using hi i h)

/-- Witness of C6 (amended): the request `paddedRequest` is persisted for user 1. -/
theorem generateRecipe_stores_request_ingredients_witness :
    ∃ r : Recipe,
      (generateRecipe (calmEnv (steadyBackend "Flour Soup".toList)) freshDb (some 1)
        paddedRequest).db.recipes = freshDb.recipes ++ [r] ∧
      r.user = 1 ∧
      r.ingredients = paddedRequest.ingredients.map trim ∧
      r.ingredients.length = paddedRequest.ingredients.length ∧
      ((∀ i ∈ paddedRequest.ingredients, trim i = i) →
        r.ingredients = paddedRequest.ingredients) :=
  generateRecipe_stores_request_ingredients (calmEnv (steadyBackend "Flour Soup".toList))
    freshDb 1 paddedRequest (by decide) (by decide)

/-- C7: when each of the six models rejects, all six are invoked in list order, the error that
reaches the `catch` block is the one thrown by the last model of the list, and the store is
left as it was. -/
theorem generateRecipe_all_models_fail (env : Env) (db : Db) (userId : Option Nat)
    (body : GenerateBody) (err : Str → JsError)
    (hfail : ∀ x ∈ modelOptions, env.backend x (buildPrompts body).1 = .error (err x)) :
    generateText env.backend (buildPrompts body).1
      = (.error (err "gemini-2.5-pro".toList), modelOptions) ∧
    (generateRecipe env db userId body).invoked = modelOptions ∧
    (generateRecipe env db userId body).invoked.length = 6 ∧
    (generateRecipe env db userId body).response
      = generateRecipeCatch env (err "gemini-2.5-pro".toList) ∧
    (generateRecipe env db userId body).db = db := by
  have h1 := hfail "gemini-flash-latest".toList (by simp [modelOptions])
  have h2 := hfail "gemini-2.5-flash".toList (by simp [modelOptions])
  have h3 := hfail "gemini-2.0-flash".toList (by simp [modelOptions])
  have h4 := hfail "gemini-2.0-flash-001".toList (by simp [modelOptions])
  have h5 := hfail "gemini-pro-latest".toList (by simp [modelOptions])
  have h6 := hfail "gemini-2.5-pro".toList (by simp [modelOptions])
  have hgen : generateText env.backend (buildPrompts body).1
      = (.error (err "gemini-2.5-pro".toList), modelOptions) := by
    simp only [generateText, modelOptions, modelLoop, h1, h2, h3, h4, h5, h6, List.nil_append,
      List.cons_append, List.singleton_append]
  refine ⟨hgen, ?_, ?_, ?_, ?_⟩
  · simp only [generateRecipe, hgen]
  · simp only [generateRecipe, hgen]
    simp [modelOptions]
  · simp only [generateRecipe, hgen]
  · simp only [generateRecipe, hgen]

/-- Witness of C7: with `deadBackend` the error that reaches the `catch` block carries the name
of the last model. -/
theorem generateRecipe_all_models_fail_witness :
    generateText deadBackend (buildPrompts
      { type := "direct".toList, prompt := "soup".toList, ingredients := [],
        servings := .num 2, time := .undefined }).1
      = (.error { name := "Error".toList, message := "gemini-2.5-pro".toList }, modelOptions) :=
  (generateRecipe_all_models_fail (calmEnv deadBackend) freshDb none
    { type := "direct".toList, prompt := "soup".toList, ingredients := [],
      servings := .num 2, time := .undefined }
    (fun x => { name := "Error".toList, message := x })
    (fun _ _ => rfl)).1

/-- C8: evaluation of the `catch` block of `generateRecipe` at the quota error of the Gemini
client. Its message mentions `quota` and `429` and no API key, and the `catch` inside the loop
classes it as a quota error; yet the answer has status 500 with the model-unavailable message,
because the message also contains `model` (in the request URL), which the block tests first. -/
theorem quota_error_naming_a_model_gets_500 :
    (includes quotaMessage "quota".toList || includes quotaMessage "429".toList) = true ∧
    mentionsQuota quotaMessage = true ∧ mentionsApiKey quotaMessage = false ∧
    (generateRecipeCatch (calmEnv deadBackend)
      { name := "Error".toList, message := quotaMessage }).status = 500 ∧
    (generateRecipeCatch (calmEnv deadBackend)
      { name := "Error".toList, message := quotaMessage }).body.field "message"
      = some (.str
          "AI model not available. Please try again later or contact support.".toList) := by
  refine ⟨by decide, by decide, by decide, by decide, ?_⟩
  have h1 : mentionsApiKey quotaMessage = false := by decide
  have h2 : mentionsModel quotaMessage = true := by decide
  simp only [mentionsApiKey, mentionsModel] at h1 h2
  simp only [generateRecipeCatch, h1, h2, Bool.false_eq_true, ↓reduceIte, Json.field]
  rfl

/-- C9: evaluation of `generateRecipe` for user 1 at `blankRequest`, which passes
`generateRecipeValidation`, with a model that answers `Flour Soup` and a store that rejects
nothing. The document built fails the `required` validator of its ingredient, so `save()`
rejects before the timestamps are set; the error is swallowed, and serialising the document for
the response throws in the virtual `createdAtFormatted`: the answer is 500 with the message
`Failed to generate recipe` and without the generated text, and nothing is stored. When it is
the store that rejects `save()`, as for `paddedRequest` in `brokenStoreEnv`, the answer is 200
with the text. -/
theorem generateRecipe_validator_failure_gets_500 :
    generateRecipeValidation blankRequest = true ∧
    (generateRecipe (calmEnv (steadyBackend "Flour Soup".toList)) freshDb (some 1)
      blankRequest).response =
      { status := 500
        body := .obj [("success", .bool false),
          ("message", .str "Failed to generate recipe".toList),
          ("error", .str "Internal server error".toList)] } ∧
    (generateRecipe (calmEnv (steadyBackend "Flour Soup".toList)) freshDb (some 1)
      blankRequest).db.recipes = [] ∧
    (generateRecipe (brokenStoreEnv (steadyBackend "Flour Soup".toList)) freshDb (some 1)
      paddedRequest).response.status = 200 ∧
    ((generateRecipe (brokenStoreEnv (steadyBackend "Flour Soup".toList)) freshDb (some 1)
      paddedRequest).response.body.field "data").bind (fun data => data.field "text")
      = some (.str "Flour Soup".toList) := by
  refine ⟨by decide, rfl, by decide, by decide, rfl⟩

/-- C10: if recipe `r` is stored in `db1` under other owners only, and not stored at all in
`db2`, then `getRecipe`, `toggleFavorite` and `deleteRecipe` called by `u` for `r` answer the
same in both stores and leave both stores as they were; unless the lookup itself rejects, the
answer is status 404 with message `Recipe not found`. -/
theorem not_found_hides_existence (env : Env) (db1 db2 : Db) (u r : Nat)
    (_hexists : ∃ x ∈ db1.recipes, x.id = r)
    (hother : ∀ x ∈ db1.recipes, x.id = r → x.user ≠ u)
    (habsent : ∀ x ∈ db2.recipes, x.id ≠ r) :
    (getRecipe env db1 u r).1 = (getRecipe env db2 u r).1 ∧
    (toggleFavorite env db1 u r).1 = (toggleFavorite env db2 u r).1 ∧
    (deleteRecipe env db1 u r).1 = (deleteRecipe env db2 u r).1 ∧
    (getRecipe env db1 u r).2 = db1 ∧ (getRecipe env db2 u r).2 = db2 ∧
    (toggleFavorite env db1 u r).2 = db1 ∧ (toggleFavorite env db2 u r).2 = db2 ∧
    (deleteRecipe env db1 u r).2 = db1 ∧ (deleteRecipe env db2 u r).2 = db2 ∧
    (env.storeError .recipeFindOne = none →
      (getRecipe env db1 u r).1 = recipeNotFound ∧
      (toggleFavorite env db1 u r).1 = recipeNotFound) ∧
    (env.storeError .recipeFindOneAndDelete = none →
      (deleteRecipe env db1 u r).1 = recipeNotFound) := by
  have f1 : db1.findOneRecipe r u = none := by
    simp only [Db.findOneRecipe, List.find?_eq_none]
    intro x hx
    by_cases hid : x.id = r
    · simp [hid, hother x hx hid]
    · simp [hid]
  have f2 : db2.findOneRecipe r u = none := by
    simp only [Db.findOneRecipe, List.find?_eq_none]
    intro x hx
    simp [habsent x hx]
  refine ⟨?_, ?_, ?_, ?_, ?_, ?_, ?_, ?_, ?_, ?_, ?_⟩
  · simp only [getRecipe, f1, f2]; cases env.storeError .recipeFindOne <;> rfl
  · simp only [toggleFavorite, f1, f2]; cases env.storeError .recipeFindOne <;> rfl
  · simp only [deleteRecipe, f1, f2]; cases env.storeError .recipeFindOneAndDelete <;> rfl
  · simp only [getRecipe, f1]; cases env.storeError .recipeFindOne <;> rfl
  · simp only [getRecipe, f2]; cases env.storeError .recipeFindOne <;> rfl
  · simp only [toggleFavorite, f1]; cases env.storeError .recipeFindOne <;> rfl
  · simp only [toggleFavorite, f2]; cases env.storeError .recipeFindOne <;> rfl
  · simp only [deleteRecipe, f1]; cases env.storeError .recipeFindOneAndDelete <;> rfl
  · simp only [deleteRecipe, f2]; cases env.storeError .recipeFindOneAndDelete <;> rfl
  · intro h
    simp only [getRecipe, toggleFavorite, f1, h, and_self]
  · intro h
    simp only [deleteRecipe, f1, h]

/-- Witness of C10: user 1 asks for recipe 7, which user 2 owns in `sharedDb` and which
`freshDb` does not hold. -/
theorem not_found_hides_existence_witness :
    (getRecipe (calmEnv deadBackend) sharedDb 1 7).1
      = (getRecipe (calmEnv deadBackend) freshDb 1 7).1 :=
  (not_found_hides_existence (calmEnv deadBackend) sharedDb freshDb 1 7
    (by simp [sharedDb, Recipe.create]) (by simp [sharedDb, Recipe.create])
    (by simp [freshDb])).1

/-- C11: when `deleteAccount` answers with status 200, the store holds no recipe of the
caller any more (a query by owner finds nothing) and no user record with the caller's id,
while the recipes and the records of all other users are as before; when the password does
not match, the answer is status 401 with `Invalid password` and the store is left as it
was. -/
theorem deleteAccount_cascade (env : Env) (cmp : Str → Str → Bool) (db : Db) (u : Nat)
    (password : Str) (husers : (db.users.map (fun x => x.id)).Nodup) :
    ((deleteAccount env cmp db u password).1.status = 200 →
      (deleteAccount env cmp db u password).2.recipes
        = db.recipes.filter (fun x => !(x.user == u)) ∧
      (deleteAccount env cmp db u password).2.recipes.filter (fun x => x.user == u) = [] ∧
      (deleteAccount env cmp db u password).2.countRecipes u = 0 ∧
      (deleteAccount env cmp db u password).2.users
        = db.users.filter (fun x => !(x.id == u)) ∧
      (deleteAccount env cmp db u password).2.findUserById u = none ∧
      (∀ v, v ≠ u →
        (deleteAccount env cmp db u password).2.recipes.filter (fun x => x.user == v)
          = db.recipes.filter (fun x => x.user == v) ∧
        (deleteAccount env cmp db u password).2.users.filter (fun x => x.id == v)
          = db.users.filter (fun x => x.id == v))) ∧
    (∀ user, env.storeError .userFindById = none → db.findUserById u = some user →
      cmp password user.password = false →
      (deleteAccount env cmp db u password).1.status = 401 ∧
      (deleteAccount env cmp db u password).1.body
        = .obj [("success", .bool false), ("message", .str "Invalid password".toList)] ∧
      (deleteAccount env cmp db u password).2 = db) := by
  constructor
  · intro hok
    have hdb := deleteAccount_ok env cmp db u password hok
    have hr : (deleteAccount env cmp db u password).2.recipes
        = db.recipes.filter (fun x => !(x.user == u)) := by
      rw [hdb]; rfl
    have hu : (deleteAccount env cmp db u password).2.users
        = db.users.filter (fun x => !(x.id == u)) := by
      rw [hdb]
      exact deleteFirst_eq_filter (fun x : User => x.id) u db.users husers
    have hr0 : (deleteAccount env cmp db u password).2.recipes.filter
        (fun x => x.user == u) = [] := by
      rw [hr, List.filter_filter, List.filter_eq_nil_iff]
      intro x _
      simp
    refine ⟨hr, hr0, ?_, hu, ?_, ?_⟩
    · simp only [Db.countRecipes, hr0, List.length_nil]
    · simp only [Db.findUserById, hu, List.find?_eq_none]
      intro x hx
      have := (List.mem_filter.mp hx).2
      simpa using this
    · intro v hv
      constructor
      · rw [hr, List.filter_filter]
        apply List.filter_congr
        intro x _
        by_cases hxv : x.user = v
        · simp [hxv, hv]
        · simp [hxv]
      · rw [hu, List.filter_filter]
        apply List.filter_congr
        intro x _
        by_cases hxv : x.id = v
        · simp [hxv, hv]
        · simp [hxv]
  · intro user h1 h2 h3
    simp [deleteAccount, h1, h2, h3]

/-- Witness of C11: user 2 of `sharedDb` deletes the account with the right password. -/
theorem deleteAccount_cascade_witness :
    (deleteAccount (calmEnv deadBackend) plainCompare sharedDb 2 []).2.recipes = [] ∧
    (deleteAccount (calmEnv deadBackend) plainCompare sharedDb 2 []).2.findUserById 2 = none :=
  ⟨((deleteAccount_cascade (calmEnv deadBackend) plainCompare sharedDb 2 [] (by decide)).1
      (by decide)).1.trans (by decide),
   ((deleteAccount_cascade (calmEnv deadBackend) plainCompare sharedDb 2 [] (by decide)).1
      (by decide)).2.2.2.2.1⟩

/-- C12: when `deleteRecipe` answers with status 200, the recipe with the given id, which the
caller owned, is gone and every other recipe is as before; the record of the caller holds the
number of recipes of the former store that the caller owns other than the deleted one, and the
number of favourites among them, which are the numbers of recipes and of favourites that the
caller owns in the store afterwards, whatever the record held before; the records of the other
users are as before. -/
theorem deleteRecipe_recounts (env : Env) (db : Db) (u r : Nat)
    (hids : (db.recipes.map (fun x => x.id)).Nodup)
    (husers : (db.users.map (fun x => x.id)).Nodup)
    (hok : (deleteRecipe env db u r).1.status = 200) :
    (∃ target ∈ db.recipes, target.id = r ∧ target.user = u) ∧
    (deleteRecipe env db u r).2.recipes = db.recipes.filter (fun x => !(x.id == r)) ∧
    (∀ x ∈ (deleteRecipe env db u r).2.recipes, x.id ≠ r) ∧
    (deleteRecipe env db u r).2.users = db.users.map (fun x =>
      if x.id == u then
        { x with
          recipesGenerated :=
            (db.recipes.filter (fun y => decide (y.user = u ∧ y.id ≠ r))).length,
          favoriteRecipes :=
            (db.recipes.filter
              (fun y => decide (y.user = u ∧ y.id ≠ r ∧ y.isFavorite = true))).length }
      else x) ∧
    (∀ x ∈ (deleteRecipe env db u r).2.users, x.id = u →
      x.recipesGenerated =
        ((deleteRecipe env db u r).2.recipes.filter (fun y => decide (y.user = u))).length ∧
      x.favoriteRecipes =
        ((deleteRecipe env db u r).2.recipes.filter
          (fun y => decide (y.user = u ∧ y.isFavorite = true))).length) := by
  obtain ⟨recipe, hfind, hdb⟩ := deleteRecipe_ok env db u r hok
  obtain ⟨hmem, hid, huser⟩ := findOneRecipe_some db r u recipe hfind
  have hown := owned_of_id db r u recipe hids hfind
  have hdel : (db.deleteOneRecipe r u).recipes = db.recipes.filter (fun x => !(x.id == r)) := by
    simp only [Db.deleteOneRecipe]
    rw [deleteFirst_congr _ (fun x : Recipe => x.id == r) db.recipes]
    · exact deleteFirst_eq_filter (fun x : Recipe => x.id) r db.recipes hids
    · intro x hx
      by_cases hxr : x.id = r
      · have := hown x hx hxr
        subst this
        simp [hxr, huser]
      · simp [hxr]
  have hr : (deleteRecipe env db u r).2.recipes = db.recipes.filter (fun x => !(x.id == r)) := by
    rw [hdb]
    exact hdel
  have hc1 : (db.deleteOneRecipe r u).countRecipes u
      = (db.recipes.filter (fun y => decide (y.user = u ∧ y.id ≠ r))).length := by
    rw [countRecipes_eq, hdel, List.filter_filter]
    congr 1
    apply List.filter_congr
    intro x _
    by_cases h1 : x.user = u <;> by_cases h2 : x.id = r <;> simp [h1, h2]
  have hc2 : (db.deleteOneRecipe r u).countFavorites u
      = (db.recipes.filter
          (fun y => decide (y.user = u ∧ y.id ≠ r ∧ y.isFavorite = true))).length := by
    rw [countFavorites_eq, hdel, List.filter_filter]
    congr 1
    apply List.filter_congr
    intro x _
    by_cases h1 : x.user = u <;> by_cases h2 : x.id = r <;> simp [h1, h2]
  have hu : (deleteRecipe env db u r).2.users = db.users.map (fun x =>
      if x.id == u then
        { x with
          recipesGenerated :=
            (db.recipes.filter (fun y => decide (y.user = u ∧ y.id ≠ r))).length,
          favoriteRecipes :=
            (db.recipes.filter
              (fun y => decide (y.user = u ∧ y.id ≠ r ∧ y.isFavorite = true))).length }
      else x) := by
    rw [hdb, ← hc1, ← hc2]
    exact updateFirst_eq_map (fun x : User => x.id) u _ db.users husers
  refine ⟨⟨recipe, hmem, hid, huser⟩, hr, ?_, hu, ?_⟩
  · intro x hx
    rw [hr] at hx
    have := (List.mem_filter.mp hx).2
    simpa using this
  · intro x hx hxu
    have hc1b : ((deleteRecipe env db u r).2.recipes.filter
        (fun y => decide (y.user = u))).length
        = (db.recipes.filter (fun y => decide (y.user = u ∧ y.id ≠ r))).length := by
      rw [← hc1, countRecipes_eq, hr, hdel]
    have hc2b : ((deleteRecipe env db u r).2.recipes.filter
        (fun y => decide (y.user = u ∧ y.isFavorite = true))).length
        = (db.recipes.filter
            (fun y => decide (y.user = u ∧ y.id ≠ r ∧ y.isFavorite = true))).length := by
      rw [← hc2, countFavorites_eq, hr, hdel]
    rw [hc1b, hc2b]
    rw [hu] at hx
    obtain ⟨y, _, hy⟩ := List.mem_map.mp hx
    by_cases hyu : y.id = u
    · simp only [hyu, beq_self_eq_true, if_true] at hy
      subst hy
      exact ⟨rfl, rfl⟩
    · have hyx : y = x := by simpa [hyu] using hy
      subst hyx
      exact absurd hxu hyu

/-- Witness of C12: user 1 of `driftedDb`, whose counters say 9 and 9, deletes recipe 1 of
three, one of the other two being a favourite: the counters are 2 and 1. -/
theorem deleteRecipe_recounts_witness :
    driftedDb.users.map (fun x => (x.id, x.recipesGenerated, x.favoriteRecipes))
      = [(1, 9, 9), (2, 1, 0)] ∧
    (deleteRecipe (calmEnv deadBackend) driftedDb 1 1).2.recipes.map (fun x => x.id)
      = [2, 3, 4] ∧
    (deleteRecipe (calmEnv deadBackend) driftedDb 1 1).2.users =
      [{ id := 1, password := [], recipesGenerated := 2, favoriteRecipes := 1 },
       { id := 2, password := [], recipesGenerated := 1, favoriteRecipes := 0 }] :=
  ⟨by decide,
   (congrArg (List.map (fun x => x.id))
      (deleteRecipe_recounts (calmEnv deadBackend) driftedDb 1 1 (by decide) (by decide)
        (by decide)).2.1).trans (by decide),
   (deleteRecipe_recounts (calmEnv deadBackend) driftedDb 1 1 (by decide) (by decide)
      (by decide)).2.2.2.1.trans (by decide)⟩

/-- C13, as stated, fails on two counts. A toggle by user 2 of recipe 7 in `sharedDb` at time 5
moves `updatedAt` from 0 to 5, so a second toggle does not bring back the recipe store. And in
`staleDb`, where the counter says 0 although recipe 7 is a favourite, two toggles bring back
the recipes and leave the counter at 1. -/
theorem toggle_twice_is_not_identity :
    sharedDb.recipes.map (fun x => x.updatedAt) = [0] ∧
    (toggleFavorite laterEnv sharedDb 2 7).1.status = 200 ∧
    (toggleFavorite laterEnv sharedDb 2 7).2.recipes.map (fun x => x.updatedAt) = [5] ∧
    (toggleFavorite laterEnv (toggleFavorite laterEnv sharedDb 2 7).2 2 7).1.status = 200 ∧
    (toggleFavorite laterEnv (toggleFavorite laterEnv sharedDb 2 7).2 2 7).2.recipes
      ≠ sharedDb.recipes ∧
    (toggleFavorite (calmEnv deadBackend)
      (toggleFavorite (calmEnv deadBackend) staleDb 2 7).2 2 7).1.status = 200 ∧
    (toggleFavorite (calmEnv deadBackend)
      (toggleFavorite (calmEnv deadBackend) staleDb 2 7).2 2 7).2.recipes = staleDb.recipes ∧
    staleDb.users.map (fun x => x.favoriteRecipes) = [0, 0] ∧
    (toggleFavorite (calmEnv deadBackend)
      (toggleFavorite (calmEnv deadBackend) staleDb 2 7).2 2 7).2.users.map
      (fun x => x.favoriteRecipes) = [0, 1] := by
  refine ⟨by decide, by decide, by decide, by decide, by decide, by decide, by decide,
    by decide, by decide⟩

/-- C13, amended: when `toggleFavorite` answers with status 200, the recipe with the given id,
which the caller owns, has its `isFavorite` negated and its `updatedAt` set to the time of the
call, every other field of it and every other recipe is as before, and the record of the
caller holds the number of the caller's favourites; after a second such toggle the recipe store
is the first one except for `updatedAt` of that recipe, and the counter is the number of
favourites of the first store, hence the former counter whenever that one was accurate. -/
theorem toggleFavorite_flips (env env2 : Env) (db : Db) (u r : Nat)
    (hids : (db.recipes.map (fun x => x.id)).Nodup)
    (husers : (db.users.map (fun x => x.id)).Nodup)
    (hok : (toggleFavorite env db u r).1.status = 200) :
    (∃ target ∈ db.recipes, target.id = r ∧ target.user = u) ∧
    (toggleFavorite env db u r).2.recipes = db.recipes.map (fun x =>
      if x.id == r then { x with isFavorite := !x.isFavorite, updatedAt := env.now } else x) ∧
    (toggleFavorite env db u r).2.users = db.users.map (fun x =>
      if x.id == u then
        { x with favoriteRecipes := (toggleFavorite env db u r).2.countFavorites u }
      else x) ∧
    ((toggleFavorite env2 (toggleFavorite env db u r).2 u r).1.status = 200 →
      (toggleFavorite env2 (toggleFavorite env db u r).2 u r).2.recipes = db.recipes.map
        (fun x => if x.id == r then { x with updatedAt := env2.now } else x) ∧
      (toggleFavorite env2 (toggleFavorite env db u r).2 u r).2.users = db.users.map
        (fun x => if x.id == u then { x with favoriteRecipes := db.countFavorites u } else x) ∧
      ((∀ x ∈ db.users, x.id = u → x.favoriteRecipes = db.countFavorites u) →
        (toggleFavorite env2 (toggleFavorite env db u r).2 u r).2.users = db.users)) := by
  obtain ⟨h1, h2, h3⟩ := toggleFavorite_effect env db u r hids husers hok
  refine ⟨h1, h2, h3, ?_⟩
  intro hok2
  have hids2 : ((toggleFavorite env db u r).2.recipes.map (fun x => x.id)).Nodup := by
    rw [h2, List.map_map]
    have : ((fun x : Recipe => x.id) ∘ fun x =>
        if x.id == r then { x with isFavorite := !x.isFavorite, updatedAt := env.now } else x)
        = fun x => x.id := by
      funext x
      simp only [Function.comp]
      split <;> rfl
    rw [this]
    exact hids
  have husers2 : ((toggleFavorite env db u r).2.users.map (fun x => x.id)).Nodup := by
    rw [h3, List.map_map]
    have : ((fun x : User => x.id) ∘ fun x =>
        if x.id == u then
          { x with favoriteRecipes := (toggleFavorite env db u r).2.countFavorites u }
        else x) = fun x => x.id := by
      funext x
      simp only [Function.comp]
      split <;> rfl
    rw [this]
    exact husers
  obtain ⟨_, k2, k3⟩ := toggleFavorite_effect env2 (toggleFavorite env db u r).2 u r
    hids2 husers2 hok2
  have hrec : (toggleFavorite env2 (toggleFavorite env db u r).2 u r).2.recipes
      = db.recipes.map (fun x => if x.id == r then { x with updatedAt := env2.now } else x) := by
    rw [k2, h2, List.map_map]
    apply List.map_congr_left
    intro x _
    by_cases hx : x.id = r
    · simp [hx]
    · simp [hx]
  have hcount : (toggleFavorite env2 (toggleFavorite env db u r).2 u r).2.countFavorites u
      = db.countFavorites u := by
    simp only [Db.countFavorites]
    rw [hrec]
    apply countFavorites_map
    intro x
    split <;> exact ⟨rfl, rfl⟩
  have husr : (toggleFavorite env2 (toggleFavorite env db u r).2 u r).2.users = db.users.map
      (fun x => if x.id == u then { x with favoriteRecipes := db.countFavorites u } else x) := by
    rw [k3, hcount, h3, List.map_map]
    apply List.map_congr_left
    intro x _
    by_cases hx : x.id = u
    · simp [hx]
    · simp [hx]
  refine ⟨hrec, husr, ?_⟩
  intro hacc
  rw [husr]
  conv_rhs => rw [← List.map_id db.users]
  apply List.map_congr_left
  intro x hx
  by_cases hxu : x.id = u
  · have := hacc x hx hxu
    simp only [hxu, beq_self_eq_true, if_true, id]
    rw [← this]
    cases x
    simp_all
  · simp [hxu]

/-- Witness of C13 (amended): user 2 of `sharedDb` toggles recipe 7 at time 5. -/
theorem toggleFavorite_flips_witness :
    (toggleFavorite laterEnv sharedDb 2 7).2.recipes.map (fun x => (x.isFavorite, x.updatedAt))
      = [(true, 5)] :=
  (congrArg (List.map fun x => (x.isFavorite, x.updatedAt))
    (toggleFavorite_flips laterEnv laterEnv sharedDb 2 7 (by decide) (by decide)
      (by decide)).2.1).trans (by decide)

/-- C14: the prompt of a request of kind `ingredients` contains the ingredient list joined with
`, ` and the serving count; when `time` is supplied (truthy, as the source tests it), the prompt
contains the sentence on the total cooking time and the Prep Time, Cook Time and Total Time
clauses, each with its constraint naming the limit; when no `time` is supplied, the prompt is
the template with every time-constraint clause empty, whose fixed texts contain none of the
words of the time-constraint clauses. -/
theorem ingredientsPrompt_time_limit (body : GenerateBody)
    (htype : body.type = "ingredients".toList) :
    includes (buildPrompts body).1 (join ", ".toList body.ingredients) = true ∧
    includes (buildPrompts body).1
      (" that serves exactly ".toList ++ (body.servings.or (.num 4)).toStr ++
        " people.".toList) = true ∧
    (body.time.truthy = true →
      includes (buildPrompts body).1
        (" The total cooking time (prep + cook time) should be approximately ".toList ++
          body.time.toStr ++ " minutes or less.".toList) = true ∧
      includes (buildPrompts body).1
        ("**Prep Time**: Estimated preparation time".toList ++ " (keep within the ".toList ++
          body.time.toStr ++ "-minute total time constraint)".toList) = true ∧
      includes (buildPrompts body).1
        ("**Cook Time**: Estimated cooking time".toList ++ " (keep within the ".toList ++
          body.time.toStr ++ "-minute total time constraint)".toList) = true ∧
      includes (buildPrompts body).1
        ("**Total Time**: Combined time".toList ++ " (should not exceed ".toList ++
          body.time.toStr ++ " minutes)".toList) = true) ∧
    (body.time.truthy = false →
      (buildPrompts body).1 =
        noLimitTemplate (join ", ".toList body.ingredients)
          (body.servings.or (.num 4)).toStr) ∧
    (∀ piece ∈ noLimitPieces, ∀ word ∈ timeLimitWords, includes piece word = false) := by
  have hp := buildPrompts_ingredients body htype
  refine ⟨?_, ?_, ?_, ?_, ?_⟩
  · rw [includes_iff_contained, hp]
    exact prompt_has_ingredients _ _ _ _
  · rw [includes_iff_contained, hp]
    exact prompt_has_servings _ _ _ _
  · intro ht
    have hL := or_null_of_truthy body.time ht
    rw [hp, hL]
    simp only [includes_iff_contained, ht, if_true]
    exact ⟨prompt_has_timeInstruction _ _ _ _, prompt_has_prep _ _ _ _ ht,
      prompt_has_cook _ _ _ _ ht, prompt_has_total _ _ _ _ ht⟩
  · intro hf
    have hL := or_null_of_falsy body.time hf
    have hn : JsVal.null.truthy = false := rfl
    rw [hp, hL]
    simp only [hn, Bool.false_eq_true, if_false]
    exact prompt_without_limit _ _
  · exact pieces_without_limit_words

/-- Witness of C14: a request for two people with a limit of 30 minutes. -/
theorem ingredientsPrompt_time_limit_witness :
    includes (buildPrompts timedRequest).1
      (" The total cooking time (prep + cook time) should be approximately ".toList ++
        timedRequest.time.toStr ++ " minutes or less.".toList) = true :=
  ((ingredientsPrompt_time_limit timedRequest (by decide)).2.2.1 (by decide)).1

/-- C15: a text in which every line is whitespace only, or starts after trimming with
`Ingredients:` or `Instructions:`, has the title `Generated Recipe`; so has the empty text. -/
theorem extractRecipeTitle_placeholder (text : Str)
    (h : ∀ line ∈ split '\n' text, (∀ c ∈ line, isWhiteSpace c = true) ∨
      startsWith (trim line) "Ingredients:".toList = true ∨
      startsWith (trim line) "Instructions:".toList = true) :
    extractRecipeTitle text = "Generated Recipe".toList ∧
    extractRecipeTitle [] = "Generated Recipe".toList := by
  refine ⟨?_, by decide⟩
  have hnone : (split '\n' text).find? qualifiesAsTitle = none := by
    rw [List.find?_eq_none]
    intro line hl
    rcases h line hl with h1 | h1 | h1
    · simp [qualifiesAsTitle, trim_eq_nil line h1]
    · simp only [qualifiesAsTitle, h1]; simp
    · simp only [qualifiesAsTitle, h1]; simp
  simp only [extractRecipeTitle, extractRecipeTitleLoop_eq, hnone]

/-- Witness of C15: blank lines and the two section headers only. -/
theorem extractRecipeTitle_placeholder_witness :
    extractRecipeTitle "\n \t \nIngredients: flour\n  Instructions: mix\n".toList
      = "Generated Recipe".toList :=
  (extractRecipeTitle_placeholder "\n \t \nIngredients: flour\n  Instructions: mix\n".toList
    (by decide)).1

/-- C16: a text none of whose lines contains `ingredients:`, in any letter case, yields the
fallback list `Mixed ingredients`, whatever else its lines are. -/
theorem extractIngredients_fallback (text : Str)
    (h : ∀ line ∈ split '\n' text,
      includes (toLowerCase line) "ingredients:".toList = false) :
    extractIngredients text = ["Mixed ingredients".toList] := by
  have hall : ∀ line ∈ split '\n' text, hasIngredientsMarker line = false := by
    intro line hl
    exact includes_lower_trim line _ (h line hl)
  have hw : loopWindow (split '\n' text) = [] := by
    have hd : ∀ l : List Str, (∀ line ∈ l, hasIngredientsMarker line = false) →
        List.dropWhile (fun l => !hasIngredientsMarker l) l = [] := by
      intro l hl
      rw [List.dropWhile_eq_nil_iff]
      intro x hx
      simp [hl x hx]
    simp only [loopWindow, sectionWindow]
    rw [hd _ (fun line hl => hall line ((List.takeWhile_prefix _).subset hl))]
    rfl
  have hloop := loop_inactive (split '\n' text) []
  simp only [hw, List.filterMap_nil, List.append_nil] at hloop
  simp [extractIngredients, hloop]

/-- Witness of C16: bullet and numbered lines under a header that is not `ingredients:`. -/
theorem extractIngredients_fallback_witness :
    extractIngredients "What you need\n- flour\n1. salt\nInstructions:\n- mix".toList
      = ["Mixed ingredients".toList] :=
  extractIngredients_fallback "What you need\n- flour\n1. salt\nInstructions:\n- mix".toList
    (by decide)

/-- C17: the title `Iced Matcha Latte` with an empty body is a `Beverage`. -/
theorem detectRecipeCategory_iced_matcha_latte :
    detectRecipeCategory "Iced Matcha Latte".toList [] = "Beverage".toList := by
  decide

/-- C18: the title `Chocolate Lava Cake` with an empty body is a `Dessert` and not a
`Beverage`: its lower-cased form matches no beverage pattern, contains none of the beverage
substrings `drink`, `beverage`, `tea`, `coffee`, and contains the dessert keyword `cake`. -/
theorem detectRecipeCategory_chocolate_lava_cake :
    detectRecipeCategory "Chocolate Lava Cake".toList [] = "Dessert".toList ∧
    detectRecipeCategory "Chocolate Lava Cake".toList [] ≠ "Beverage".toList ∧
    (∀ pattern ∈ beveragePatterns,
      pattern.test (toLowerCase "Chocolate Lava Cake".toList) = false) ∧
    includes (toLowerCase "Chocolate Lava Cake".toList) "drink".toList = false ∧
    includes (toLowerCase "Chocolate Lava Cake".toList) "beverage".toList = false ∧
    includes (toLowerCase "Chocolate Lava Cake".toList) "tea".toList = false ∧
    includes (toLowerCase "Chocolate Lava Cake".toList) "coffee".toList = false ∧
    isBeverage (toLowerCase "Chocolate Lava Cake".toList) = false ∧
    "cake".toList ∈ dessertKeywords ∧
    includes (toLowerCase "Chocolate Lava Cake".toList) "cake".toList = true := by
  refine ⟨by decide, by decide, ?_, by decide, by decide, by decide, by decide, by decide,
    by decide, by decide⟩
  intro pattern hp
  simp only [beveragePatterns, List.mem_cons, List.mem_singleton, List.not_mem_nil,
    or_false] at hp
  rcases hp with h | h | h | h | h | h <;> subst h <;> decide

/-- C19: evaluation of `detectRecipeCategory` on `Tea-Rubbed Chicken`. The lower-cased title
contains `tea` and neither `tea leaf` nor `tea spice`, so the dish is a `Beverage` for every
body text. -/
theorem detectRecipeCategory_tea_rubbed_chicken (body : Str) :
    includes (toLowerCase "Tea-Rubbed Chicken".toList) "tea".toList = true ∧
    (∀ pattern ∈ beveragePatterns,
      pattern.test (toLowerCase "Tea-Rubbed Chicken".toList) = false) ∧
    detectRecipeCategory "Tea-Rubbed Chicken".toList body = "Beverage".toList := by
  refine ⟨by decide, ?_, ?_⟩
  · intro pattern hp
    simp only [beveragePatterns, List.mem_cons, List.mem_singleton, List.not_mem_nil,
      or_false] at hp
    rcases hp with h | h | h | h | h | h <;> subst h <;> decide
  · have h : isBeverage (toLowerCase "Tea-Rubbed Chicken".toList) = true := by decide
    simp only [detectRecipeCategory, h, if_true]

/-- C21: the title `extractRecipeTitle` returns has at most 200 characters, and so has the title
of the document built from it, which the schema trims. -/
theorem extractRecipeTitle_length (text : Str) :
    (extractRecipeTitle text).length ≤ 200 ∧
    (trim (extractRecipeTitle text)).length ≤ 200 := by
  have h : (extractRecipeTitle text).length ≤ 200 := by
    simp only [extractRecipeTitle, extractRecipeTitleLoop_eq]
    cases (split '\n' text).find? qualifiesAsTitle with
    | none => decide
    | some line => simp
  exact ⟨h, (trim_length_le _).trans h⟩

/-- Counterexample to C22 as stated: the request `crowdRequest` of kind `ingredients` asks for
50 servings and passes `generateRecipeValidation`, which checks `servings` for kind `direct`
only; the prompt built for it asks for a recipe that serves exactly 50 people. -/
theorem ingredients_request_for_50_servings :
    crowdRequest.type = "ingredients".toList ∧
    generateRecipeValidation crowdRequest = true ∧
    includes (buildPrompts crowdRequest).1 " that serves exactly 50 people.".toList = true := by
  refine ⟨rfl, by decide, ?_⟩
  rw [includes_iff_contained, buildPrompts_ingredients crowdRequest rfl]
  have h := prompt_has_servings crowdRequest.ingredients (crowdRequest.servings.or (.num 4))
    (crowdRequest.time.or .null)
    (if (crowdRequest.time.or .null).truthy then timeInstructionText (crowdRequest.time.or .null)
      else [])
  have h50 : crowdRequest.servings.or (.num 4) = .num 50 := rfl
  rw [h50] at h ⊢
  rw [fifty_toStr] at h
  exact h

/-- C22, amended: for a request of kind `ingredients` the verdict of `generateRecipeValidation`
does not depend on `servings`, and the serving count embedded in the prompt is the value of
`servings || 4`: the value of the request as it was sent when that value is truthy, and 4 when
the request carries no value or a falsy one. -/
theorem ingredientsPrompt_serving_count (body : GenerateBody)
    (htype : body.type = "ingredients".toList) :
    (∀ v : JsVal, generateRecipeValidation { body with servings := v }
      = generateRecipeValidation body) ∧
    includes (buildPrompts body).1 (" that serves exactly ".toList ++
      (body.servings.or (.num 4)).toStr ++ " people.".toList) = true ∧
    (body.servings.truthy = true → body.servings.or (.num 4) = body.servings) ∧
    (body.servings.truthy = false →
      includes (buildPrompts body).1 " that serves exactly 4 people.".toList = true) := by
  have hmain : includes (buildPrompts body).1 (" that serves exactly ".toList ++
      (body.servings.or (.num 4)).toStr ++ " people.".toList) = true := by
    rw [includes_iff_contained, buildPrompts_ingredients body htype]
    exact prompt_has_servings _ _ _ _
  refine ⟨?_, hmain, ?_, ?_⟩
  · intro v
    rw [generateRecipeValidation_ingredients body htype,
      generateRecipeValidation_ingredients { body with servings := v } htype]
  · intro h
    simp [JsVal.or, h]
  · intro h
    have h4 : body.servings.or (.num 4) = .num 4 := by simp [JsVal.or, h]
    rw [h4, four_toStr] at hmain
    exact hmain

/-- Witness of C22 (amended): `paddedRequest` carries no `servings`, and its prompt asks for a
recipe that serves exactly 4 people. -/
theorem ingredientsPrompt_serving_count_witness :
    paddedRequest.servings = .undefined ∧
    includes (buildPrompts paddedRequest).1 " that serves exactly 4 people.".toList = true :=
  ⟨rfl, (ingredientsPrompt_serving_count paddedRequest (by decide)).2.2.2 (by decide)⟩

/-- C23: for a page `p ≥ 1` and a limit `l ≥ 1`, the Numbers that `parseInt` makes of the
query, when the two store queries do not reject, `getUserRecipes` answers 200 and leaves the
store alone. With `sorted` the recipes of the store that the query admits (those of the owner
that pass the category filter, if a non-empty one is given, and the favorite filter, if
`favorite` is `true`), newest first, the field `recipes` is `sorted` without its first
`(p - 1) * l` elements, cut after `l` elements; `total` is the number of recipes admitted;
`pages * l ≥ total`, and `total > (pages - 1) * l` when `total > 0`. This is stated where the
Numbers of the source are exact: `p * l` at most `2 ^ 53`, and fewer than `2 ^ 53` recipes. A
page or limit that is absent, or for which `parseInt` gives `NaN`, counts as 1 or as 10. -/
theorem getUserRecipes_pagination (env : Env) (db : Db) (u : Nat) (query : RecipesQuery)
    (p l : Nat) (hp : query.pageNumber = .int p) (hl : query.limitNumber = .int l)
    (hp1 : 1 ≤ p) (hl1 : 1 ≤ l) (hsafe : p * l ≤ 2 ^ 53)
    (_hsize : db.recipes.length < 2 ^ 53)
    (hfind : env.storeError .recipeFind = none)
    (hcount : env.storeError .recipeCountDocuments = none) :
    ∃ (sorted : List Recipe) (pages : Nat),
      getUserRecipes env db u query =
        ({ status := 200
           body := .obj [("success", .bool true),
             ("data", .obj [("recipes", .docs ((sorted.drop ((p - 1) * l)).take l)),
               ("pagination", .obj [("current", .num p), ("pages", .num pages),
                 ("total", .num sorted.length)])])] }, db) ∧
      sorted.Perm (db.recipes.filter (query.filter u).admits) ∧
      (∀ r, (query.filter u).admits r = true ↔
        r.user = u ∧ (∀ c, query.category = some c → c ≠ [] → r.category = c) ∧
        (query.favorite = some "true".toList → r.isFavorite = true)) ∧
      sorted.Pairwise (fun a b => b.createdAt ≤ a.createdAt) ∧
      ((sorted.drop ((p - 1) * l)).take l).length ≤ l ∧
      sorted.length ≤ pages * l ∧
      (0 < sorted.length → (pages - 1) * l < sorted.length) ∧
      (∀ q : RecipesQuery, (q.page = none ∨ ∃ s, q.page = some s ∧ parseInt s = .nan) →
        q.pageNumber = .int 1) ∧
      (∀ q : RecipesQuery, (q.limit = none ∨ ∃ s, q.limit = some s ∧ parseInt s = .nan) →
        q.limitNumber = .int 10) := by
  have hperm := sortNewestFirst_perm (db.recipes.filter (query.filter u).admits)
  obtain ⟨pages, hpages, hup, hlow, _⟩ :=
    ceilDiv_bounds (db.recipes.filter (query.filter u).admits).length l hl1
  refine ⟨db.findRecipes (query.filter u), pages, ?_, hperm, admits_iff query u,
    sortNewestFirst_sorted _, ?_, ?_, ?_, ?_, ?_⟩
  · have hle : (p - 1) * l ≤ p * l := Nat.mul_le_mul_right l (Nat.sub_le p 1)
    have hp53 : p ≤ 2 ^ 53 := le_trans (Nat.le_mul_of_pos_right p hl1) hsafe
    have hprod : ((p : Int) - 1) * (l : Int) = (((p - 1) * l : Nat) : Int) := by
      push_cast [Nat.cast_sub hp1]
      ring
    have hsub : JsNumber.ofInt ((p : Int) - 1) = .int ((p : Int) - 1) := by
      apply ofInt_exact
      omega
    have hmul : JsNumber.ofInt (((p : Int) - 1) * (l : Int))
        = .int (((p : Int) - 1) * (l : Int)) := by
      apply ofInt_exact
      rw [hprod, Int.natAbs_ofNat]
      omega
    have hskip : ¬ (((p : Int) - 1) * (l : Int) < 0) := by
      rw [hprod]
      omega
    have hdrop : (((p : Int) - 1) * (l : Int)).toNat = (p - 1) * l := by
      rw [hprod, Int.toNat_natCast]
    have hlen : (db.findRecipes (query.filter u)).length
        = (db.recipes.filter (query.filter u).admits).length := hperm.length_eq
    have hl0 : ¬ ((l : Int) = 0) := by omega
    simp only [getUserRecipes, hfind, hcount, hp, hl, JsNumber.subInt, JsNumber.mul, hsub, hmul,
      hskip, if_false, hdrop, Int.natAbs_ofNat, Db.countAdmitted, ceilQuotient, hl0, hpages,
      hlen, JsNumber.toJson]
  · simp
  · rw [show (db.findRecipes (query.filter u)).length
        = (db.recipes.filter (query.filter u).admits).length from hperm.length_eq]
    exact hup
  · rw [show (db.findRecipes (query.filter u)).length
        = (db.recipes.filter (query.filter u).admits).length from hperm.length_eq]
    exact hlow
  · intro q hq
    rcases hq with hq | ⟨s, hq, hs⟩
    · simp only [RecipesQuery.pageNumber, parseIntOr, hq]
    · simp only [RecipesQuery.pageNumber, parseIntOr, hq, hs, JsNumber.truthy,
        Bool.false_eq_true, if_false]
  · intro q hq
    rcases hq with hq | ⟨s, hq, hs⟩
    · simp only [RecipesQuery.limitNumber, parseIntOr, hq]
    · simp only [RecipesQuery.limitNumber, parseIntOr, hq, hs, JsNumber.truthy,
        Bool.false_eq_true, if_false]

/-- Witness of C23: the second page of two recipes each, of the three recipes of user 1 in
`pantryDb`. -/
theorem getUserRecipes_pagination_witness :
    ((getUserRecipes (calmEnv deadBackend) pantryDb 1 secondPage).1.body.field "data").bind
      (fun data => data.field "pagination")
      = some (.obj [("current", .num 2), ("pages", .num 2), ("total", .num 3)]) ∧
    ∃ (sorted : List Recipe) (pages : Nat),
      getUserRecipes (calmEnv deadBackend) pantryDb 1 secondPage =
        ({ status := 200
           body := .obj [("success", .bool true),
             ("data", .obj [("recipes", .docs ((sorted.drop ((2 - 1) * 2)).take 2)),
               ("pagination", .obj [("current", .num (2 : Nat)), ("pages", .num pages),
                 ("total", .num sorted.length)])])] }, pantryDb) :=
  ⟨rfl,
    (getUserRecipes_pagination (calmEnv deadBackend) pantryDb 1 secondPage 2 2 (by decide)
      (by decide) (by decide) (by decide) (by decide) (by decide) rfl rfl).imp
      (fun _ h => h.imp (fun _ h => h.1))⟩

/-- C24: when the generation step answers with `text`, the two store calls do not reject, the
document built passes the validators of the schema and user ids are unique, a call of
`generateRecipe` with caller `u` appends exactly one Recipe to the collection, owned by `u`, with
`instructions` equal to `text`, `promptType` equal to the type of the request and `isFavorite`
false; the response carries that document, and `recipesGenerated` goes up by 1 for `u` and for
nobody else. Without a caller the whole store is as before and the field `recipe` of the
response is `null`. -/
theorem generateRecipe_creates_one_recipe (env : Env) (db : Db) (u : Nat) (body : GenerateBody)
    (text : Str) (invoked : List Str)
    (hgen : generateText env.backend (buildPrompts body).1 = (.ok text, invoked))
    (hsave : env.storeError .recipeSave = none)
    (hinc : env.storeError .userFindByIdAndUpdate = none)
    (hvalid : (Recipe.create db.nextId env.now u (extractRecipeTitle text)
      (if body.type = "ingredients".toList then body.ingredients else extractIngredients text)
      text (detectRecipeCategory (extractRecipeTitle text) text) body.type
      (buildPrompts body).2).valid = true)
    (husers : (db.users.map (fun x => x.id)).Nodup) :
    (∃ r : Recipe, (generateRecipe env db (some u) body).db.recipes = db.recipes ++ [r] ∧
      r.user = u ∧ r.instructions = text ∧ r.promptType = body.type ∧ r.isFavorite = false ∧
      ((generateRecipe env db (some u) body).response.body.field "data").bind
        (fun data => data.field "recipe") = some (.doc r)) ∧
    (generateRecipe env db (some u) body).db.users = db.users.map (fun x =>
      if x.id == u then { x with recipesGenerated := x.recipesGenerated + 1 } else x) ∧
    (generateRecipe env db none body).db = db ∧
    ((generateRecipe env db none body).response.body.field "data").bind
      (fun data => data.field "recipe") = some .null := by
  refine ⟨?_, ?_, ?_, ?_⟩
  · simp only [generateRecipe, hgen, saveGenerated, hsave, hinc, hvalid, Option.isSome_none,
      Bool.not_true, Bool.or_self, Bool.false_eq_true, if_false]
    refine ⟨_, rfl, rfl, rfl, rfl, rfl, ?_⟩
    simp [Json.field, List.lookup]
  · simp only [generateRecipe, hgen, saveGenerated, hsave, hinc, hvalid, Option.isSome_none,
      Bool.not_true, Bool.or_self, Bool.false_eq_true, if_false]
    exact updateFirst_eq_map (fun x : User => x.id) u _ db.users husers
  · simp only [generateRecipe, hgen, saveGenerated]
  · simp only [generateRecipe, hgen, saveGenerated]
    simp [Json.field, List.lookup]

/-- Witness of C24: `paddedRequest`, for user 1 of `freshDb` and for no caller. -/
theorem generateRecipe_creates_one_recipe_witness :
    (generateRecipe (calmEnv (steadyBackend "Flour Soup".toList)) freshDb (some 1)
      paddedRequest).db.users
      = [{ id := 1, password := [], recipesGenerated := 1, favoriteRecipes := 0 }] ∧
    (generateRecipe (calmEnv (steadyBackend "Flour Soup".toList)) freshDb none
      paddedRequest).db = freshDb :=
  have h := generateRecipe_creates_one_recipe (calmEnv (steadyBackend "Flour Soup".toList))
    freshDb 1 paddedRequest "Flour Soup".toList ["gemini-flash-latest".toList] rfl rfl rfl
    (by decide) (by decide)
  ⟨h.2.1.trans (by decide), h.2.2.1⟩

/-- C25: evaluation of `extractIngredients` on a text with the section markers of the
`direct` prompt template. The lower-cased header `**ingredients**:` does not contain
`ingredients:`, so the section never opens and the fallback list is returned. -/
theorem extractIngredients_template_markers :
    includes (toLowerCase "**Ingredients**:".toList) "ingredients:".toList = false ∧
    extractIngredients templateShaped = ["Mixed ingredients".toList] := by
  refine ⟨by decide, by decide⟩

/-- C26: start from a store with unique and fresh ids in which user `u` is registered with
both counters 0 and owns no recipe. After any sequence of `generateRecipe`, `toggleFavorite` and
`deleteRecipe` requests, of `u` or of anybody else, served one after the other with no store
call rejecting, `u` is still registered, `recipesGenerated` of `u` is the number of recipes `u`
owns and `favoriteRecipes` of `u` is the number of those that are favorites. -/
theorem counters_agree_after_requests (db : Db) (u : Nat) (steps : List (Env × Action))
    (hwf : db.wellFormed)
    (hreg : ∃ user ∈ db.users, user.id = u ∧ user.recipesGenerated = 0 ∧
      user.favoriteRecipes = 0)
    (hnone : ∀ r ∈ db.recipes, r.user ≠ u)
    (hcalm : ∀ s ∈ steps, ∀ op, s.1.storeError op = none) :
    ∃ user ∈ (serveAll db steps).users, user.id = u ∧
      user.recipesGenerated = (serveAll db steps).countRecipes u ∧
      user.favoriteRecipes = (serveAll db steps).countFavorites u := by
  obtain ⟨user, hmem, hid, hgen, hfav⟩ := hreg
  have hzero : db.countRecipes u = 0 ∧ db.countFavorites u = 0 := by
    constructor
    · simp only [Db.countRecipes, List.length_eq_zero, List.filter_eq_nil_iff]
      intro r hr
      simpa using hnone r hr
    · simp only [Db.countFavorites, List.length_eq_zero, List.filter_eq_nil_iff]
      intro r hr
      have := hnone r hr
      simp [this]
  have hag : db.countersAgree u := by
    intro x hx hxu
    have : x = user := List.inj_on_of_nodup_map hwf.2.1 hx hmem (hxu.trans hid.symm)
    subst this
    rw [hzero.1, hzero.2]
    exact ⟨hgen, hfav⟩
  obtain ⟨hfinal, hids⟩ := serveAll_keeps u steps db hcalm hwf hag
  have : u ∈ (serveAll db steps).users.map (fun x => x.id) := by
    rw [hids]; exact List.mem_map.mpr ⟨user, hmem, hid⟩
  obtain ⟨x, hx, hxu⟩ := List.mem_map.mp this
  exact ⟨x, hx, hxu, hfinal x hx hxu⟩

/-- Witness of C26: the four requests of `busyDay` on `freshDb` leave user 1 with one recipe,
which is a favorite. -/
theorem counters_agree_after_requests_witness :
    (serveAll freshDb busyDay).users
      = [{ id := 1, password := [], recipesGenerated := 1, favoriteRecipes := 1 }] ∧
    ∃ user ∈ (serveAll freshDb busyDay).users, user.id = 1 ∧
      user.recipesGenerated = (serveAll freshDb busyDay).countRecipes 1 ∧
      user.favoriteRecipes = (serveAll freshDb busyDay).countFavorites 1 :=
  ⟨by decide, counters_agree_after_requests freshDb 1 busyDay
    ⟨by decide, by decide, by decide⟩ ⟨_, List.mem_cons_self _ _, rfl, rfl, rfl⟩
    (by decide) busyDay_calm⟩

/-- C27: the category does not depend on the body text. -/
theorem detectRecipeCategory_ignores_body (title b1 b2 : Str) :
    detectRecipeCategory title b1 = detectRecipeCategory title b2 := by
  rfl

/-- C28: a title whose lower-cased form contains `tea` and neither `tea leaf` nor `tea spice`
is a `Beverage`, whatever else it contains and whatever the body; `Grilled Steak`, where `tea`
occurs inside `steak` only, is such a title. -/
theorem detectRecipeCategory_tea_substring (title body : Str)
    (htea : includes (toLowerCase title) "tea".toList = true)
    (hleaf : includes (toLowerCase title) "tea leaf".toList = false)
    (hspice : includes (toLowerCase title) "tea spice".toList = false) :
    detectRecipeCategory title body = "Beverage".toList ∧
    detectRecipeCategory "Grilled Steak".toList body = "Beverage".toList ∧
    includes (toLowerCase "Grilled Steak".toList) "steak".toList = true := by
  have h1 : isBeverage (toLowerCase title) = true := by
    simp only [isBeverage, htea, hleaf, hspice]
    simp
  have h2 : isBeverage (toLowerCase "Grilled Steak".toList) = true := by decide
  refine ⟨?_, ?_, by decide⟩
  · simp only [detectRecipeCategory, h1, if_true]
  · simp only [detectRecipeCategory, h2, if_true]

/-- Witness of C28: `Grilled Steak`. -/
theorem detectRecipeCategory_tea_substring_witness :
    detectRecipeCategory "Grilled Steak".toList [] = "Beverage".toList :=
  (detectRecipeCategory_tea_substring "Grilled Steak".toList [] (by decide) (by decide)
    (by decide)).1

/-- C29: evaluation of `extractRecipeTitle` on a text whose first line is `**`. The line
qualifies, the bold marker is removed and nothing is left: the title is empty, the document
built from it fails the `required` validator, `generateRecipe` stores no recipe and answers
500. -/
theorem extractRecipeTitle_bare_marker :
    extractRecipeTitle boldFirstLine = [] ∧
    (generateRecipe (calmEnv (steadyBackend boldFirstLine)) freshDb (some 1)
      { type := "direct".toList, prompt := "soup".toList, ingredients := [],
        servings := .num 2, time := .undefined }).response.status = 500 ∧
    (generateRecipe (calmEnv (steadyBackend boldFirstLine)) freshDb (some 1)
      { type := "direct".toList, prompt := "soup".toList, ingredients := [],
        servings := .num 2, time := .undefined }).db.recipes = [] := by
  refine ⟨by decide, by decide, by decide⟩

/-- C30: the list `extractIngredients` returns is never empty, and each of its entries is
non-empty and free of leading and trailing whitespace: trimming it changes nothing, and its
first and last characters are not whitespace. -/
theorem extractIngredients_wellformed (text : Str) :
    extractIngredients text ≠ [] ∧
    ∀ e ∈ extractIngredients text, ∃ h : e ≠ [], trim e = e ∧
      isWhiteSpace (e.head h) = false ∧ isWhiteSpace (e.getLast h) = false := by
  have hclean : ∀ e : Str, e ≠ [] → trim e = e → ∃ h : e ≠ [], trim e = e ∧
      isWhiteSpace (e.head h) = false ∧ isWhiteSpace (e.getLast h) = false := by
    intro e hne ht
    refine ⟨hne, ht, ?_, ?_⟩
    · obtain ⟨c, t, rfl⟩ := List.exists_cons_of_ne_nil hne
      simpa using trim_head_not_space (c :: t) c t ht
    · have h1 : trim e ≠ [] := by rw [ht]; exact hne
      have h2 := trim_getLast_not_space e h1
      simpa [ht] using h2
  have hloop := loop_inactive (split '\n' text) []
  simp only [List.nil_append] at hloop
  have hent : ∀ e ∈ extractIngredientsLoop (split '\n' text) false [], e ≠ [] ∧ trim e = e := by
    intro e he
    rw [hloop] at he
    obtain ⟨line, _, hline⟩ := List.mem_filterMap.mp he
    exact capturedEntry_clean line e hline
  unfold extractIngredients
  simp only
  split
  · rename_i hlen
    refine ⟨fun h => by simp [h] at hlen, ?_⟩
    intro e he
    exact hclean e (hent e he).1 (hent e he).2
  · refine ⟨by simp, ?_⟩
    intro e he
    have : e = "Mixed ingredients".toList := by simpa using he
    subst this
    exact hclean _ (by decide) (by decide)

end CookO
